import Mathlib

/-!
# ufo: task-definition image rewriting and the service convergence check

A shallow embedding of `pkg/ufo/ufo.go` (package `ufo`) together with the
properties established about it.

Conventions of the embedding

* A Go `string` is a Lean `String`; the regular expressions of the program are
  run on its list of characters.
* A Go `*string` that lives inside an `ecs.TaskDefinition` is a `StrPtr`: `nil`
  or the address of a cell of the `Heap`.  The program writes through such a
  pointer (`UpdateTaskDefinitionImage`), so sharing of cells is observable.
* Every other scalar pointer (`*string`, `*int64`) is only ever read and is
  modelled by `Option`: `none` is `nil`.
* A run-time panic (nil dereference, index out of range) is a value of `Panic`.
* Calls to the ECS client and lines written by `logError` are recorded, in
  order, in the `trace` of the `World`.
* The field `l` of a `UFO` is the logger: `New` sets it, a literal
  `UFO{ECS: ..., ECR: ...}` leaves it `nil`, and `logError` calls through it.
-/

namespace Ufo

/-! ## Run-time failures -/

/-- Go run-time panics that the embedded functions can raise. -/
inductive Panic
  | nilDereference
  | indexOutOfRange
  | negativeRepeatCount
  deriving DecidableEq, Repr

deriving instance DecidableEq for Except

/-! ## The regular expressions of the program

`regexp.MustCompile` is used with four patterns, all of the shape
"literal characters, one greedy capturing group `(C+)` over a character class,
literal characters, optional `$`".  `matchAt` is the leftmost-first
(backtracking) matcher for that fragment, which is the match Go's `regexp`
package reports for patterns compiled with `MustCompile`. -/

/-- Go `regexp` perl class `\s`, i.e. `[\t\n\f\r ]`. -/
def isSpace (c : Char) : Bool :=
  c = '\t' || c = '\n' || c = '\x0c' || c = '\r' || c = ' '

/-- Go `regexp` perl class `\S`. -/
def notSpace (c : Char) : Bool := !isSpace c

/-- Go `regexp` class `[^\/]`. -/
def notSlash (c : Char) : Bool := !(c = '/')

/-- One element of a pattern. -/
inductive Atom
  /-- A literal character, such as `:` or `\/`. -/
  | lit (c : Char)
  /-- A greedy capturing group `(C+)` over the class `cls`. -/
  | capPlus (cls : Char → Bool)
  /-- The end-of-text assertion `$`. -/
  | eot

/-- A match of the remainder of a pattern: the unconsumed text and the captures. -/
abbrev MatchResult := Option (List Char × List (List Char))

/-- Greedy repetition with backtracking: the group takes `n` characters of `s`
if the continuation `k` then matches, otherwise one fewer, down to one. -/
def backtrack (k : List Char → MatchResult) (s : List Char) : Nat → MatchResult
  | 0 => none
  | n + 1 =>
    match k (s.drop (n + 1)) with
    | some (rest, caps) => some (rest, s.take (n + 1) :: caps)
    | none => backtrack k s n

/-- Match the pattern `re` at the start of `s`. -/
def matchAt : List Atom → List Char → MatchResult
  | [], s => some (s, [])
  | Atom.lit c :: re, s =>
    match s with
    | x :: xs => if x = c then matchAt re xs else none
    | [] => none
  | Atom.capPlus cls :: re, s =>
    backtrack (fun t => matchAt re t) s (s.takeWhile cls).length
  | Atom.eot :: re, s => if s.isEmpty then matchAt re s else none

/-- Leftmost match: try every start position from left to right.  The result is
the matched text followed by the captures. -/
def findFrom (re : List Atom) : List Char → Option (List (List Char))
  | [] =>
    match matchAt re [] with
    | some (_, caps) => some ([] :: caps)
    | none => none
  | c :: t =>
    match matchAt re (c :: t) with
    | some (rest, caps) => some ((c :: t).take ((c :: t).length - rest.length) :: caps)
    | none => findFrom re t

/-- Go `(*Regexp).FindStringSubmatch`: `none` is the `nil` slice of "no match". -/
def FindStringSubmatch (re : List Atom) (s : String) : Option (List String) :=
  (findFrom re s.toList).map (fun ms => ms.map String.mk)

/-- Indexing `xs[i]` of the slice a regexp call returned; a `nil` or too short
slice panics. -/
def indexSubmatch (xs : Option (List String)) (i : Nat) : Except Panic String :=
  match xs with
  | none => .error .indexOutOfRange
  | some l =>
    match l.get? i with
    | some x => .ok x
    | none => .error .indexOutOfRange

/-- Pattern of `UpdateTaskDefinitionImage`: `(\S+):`. -/
def reRepoColon : List Atom := [Atom.capPlus notSpace, Atom.lit ':']

/-- Pattern of `GetLastDeployedCommit`: `\:(\S+)`. -/
def reColonTag : List Atom := [Atom.lit ':', Atom.capPlus notSpace]

/-- Pattern of `Clusters` and `Services`: `([^\/]+)$`. -/
def reLastSegment : List Atom := [Atom.capPlus notSlash, Atom.eot]

/-- Pattern of `GetRepoFromImage` and of `describeImages`: `\/(\S+):`. -/
def reSlashRepoColon : List Atom := [Atom.lit '/', Atom.capPlus notSpace, Atom.lit ':']

/-- Go `(*Regexp).FindString`: the text of the leftmost match, and the empty
string when there is no match. -/
def FindString (re : List Atom) (s : String) : String :=
  match findFrom re s.toList with
  | some (whole :: _) => String.mk whole
  | _ => ""

/-! ## Memory -/

/-- Address of a string cell. -/
abbrev Addr := Nat

/-- Go `*string` inside a task definition: `none` is `nil`. -/
abbrev StrPtr := Option Addr

/-- The string cells that task definitions point into. -/
structure Heap where
  cell : Addr → String

/-- Assignment `*p = s` through a non-nil pointer to cell `a`. -/
def Heap.write (h : Heap) (a : Addr) (s : String) : Heap :=
  { cell := fun b => if b = a then s else h.cell b }

/-- Content seen through a pointer; `none` for the `nil` pointer. -/
def Heap.read (h : Heap) (p : StrPtr) : Option String :=
  p.map h.cell

/-! ## Data model (the fields of the AWS SDK types that the program touches) -/

/-- Go `ecs.KeyValuePair`. -/
structure KeyValuePair where
  Name : StrPtr
  Value : StrPtr
  deriving DecidableEq, Repr

/-- Go `ecs.ContainerDefinition`. -/
structure ContainerDefinition where
  Name : StrPtr
  Image : StrPtr
  Command : List StrPtr
  Environment : List KeyValuePair
  Cpu : Option Int
  Memory : Option Int
  deriving DecidableEq, Repr

/-- Go `ecs.Volume`. -/
structure Volume where
  Name : StrPtr
  deriving DecidableEq, Repr

/-- Go `ecs.TaskDefinition`.  `ContainerDefinitions` is a slice of non-nil
container pointers; no container struct is ever assigned to, so the containers
are held by value. -/
structure TaskDefinition where
  ContainerDefinitions : List ContainerDefinition
  Cpu : StrPtr
  Family : StrPtr
  Memory : StrPtr
  NetworkMode : StrPtr
  ExecutionRoleArn : StrPtr
  TaskRoleArn : StrPtr
  TaskDefinitionArn : StrPtr
  Volumes : List Volume
  RequiresCompatibilities : List StrPtr
  deriving DecidableEq, Repr

/-- Go `ecs.Cluster`. -/
structure Cluster where
  ClusterArn : Option String
  ClusterName : Option String
  deriving DecidableEq, Repr

/-- Go `ecs.Service`. -/
structure Service where
  ServiceArn : Option String
  ServiceName : Option String
  TaskDefinition : Option String
  DesiredCount : Option Int
  deriving DecidableEq, Repr

/-- Go `ecs.Task`. -/
structure Task where
  TaskDefinitionArn : Option String
  LastStatus : Option String
  deriving DecidableEq, Repr

/-- Errors.  `sdk` is any error produced by the AWS client; the other
constructors are the package-level error variables that `ufo.go` returns.  Their
declarations are not part of the sources at hand, so each is kept as a named
constant. -/
inductive GoError
  | sdk (msg : String)
  | ErrFailedToListRunningTasks
  | ErrCouldNotRetrieveTaskDefinition
  | ErrCouldNotRetrieveTasks
  | ErrInvalidTaskDefinition
  | ErrFailedToListClusters
  | ErrFailedToListServices
  | ErrCouldNotRegisterTaskDefinition
  | ErrCouldNotUpdateService
  | ErrCouldNotRetrieveCluster
  | ErrClusterNotFound
  | ErrCouldNotRetrieveService
  | ErrServiceNotFound
  | ErrCouldNotRetrieveImages
  | ErrCouldNotRunTask
  deriving DecidableEq, Repr

/-! ## Views of a task definition -/

/-- A container definition with every string pointer replaced by the string
it points to. -/
structure ContainerView where
  Name : Option String
  Image : Option String
  Command : List (Option String)
  Environment : List (Option String × Option String)
  Cpu : Option Int
  Memory : Option Int
  deriving DecidableEq, Repr

/-- A task definition with every string pointer replaced by the string it
points to: the value that "deeply equal" compares. -/
structure TaskDefinitionView where
  ContainerDefinitions : List ContainerView
  Cpu : Option String
  Family : Option String
  Memory : Option String
  NetworkMode : Option String
  ExecutionRoleArn : Option String
  TaskRoleArn : Option String
  TaskDefinitionArn : Option String
  Volumes : List (Option String)
  RequiresCompatibilities : List (Option String)
  deriving DecidableEq, Repr

/-- Deep value of a container definition in heap `h`. -/
def ContainerDefinition.view (h : Heap) (c : ContainerDefinition) : ContainerView :=
  { Name := h.read c.Name
    Image := h.read c.Image
    Command := c.Command.map h.read
    Environment := c.Environment.map (fun kv => (h.read kv.Name, h.read kv.Value))
    Cpu := c.Cpu
    Memory := c.Memory }

/-- Deep value of a task definition in heap `h`. -/
def TaskDefinition.view (h : Heap) (t : TaskDefinition) : TaskDefinitionView :=
  { ContainerDefinitions := t.ContainerDefinitions.map (ContainerDefinition.view h)
    Cpu := h.read t.Cpu
    Family := h.read t.Family
    Memory := h.read t.Memory
    NetworkMode := h.read t.NetworkMode
    ExecutionRoleArn := h.read t.ExecutionRoleArn
    TaskRoleArn := h.read t.TaskRoleArn
    TaskDefinitionArn := h.read t.TaskDefinitionArn
    Volumes := t.Volumes.map (fun v => h.read v.Name)
    RequiresCompatibilities := t.RequiresCompatibilities.map h.read }

/-! ## The ECS client -/

/-- Go `ecs.ListTasksInput`. -/
structure ListTasksInput where
  Cluster : Option String
  ServiceName : Option String
  DesiredStatus : Option String
  deriving DecidableEq, Repr

/-- Go `ecs.ListTasksOutput`. -/
structure ListTasksOutput where
  TaskArns : List (Option String)
  deriving DecidableEq, Repr

/-- Go `ecs.DescribeTasksInput`. -/
structure DescribeTasksInput where
  Cluster : Option String
  Tasks : List (Option String)
  deriving DecidableEq, Repr

/-- Go `ecs.DescribeTasksOutput`. -/
structure DescribeTasksOutput where
  Tasks : List Task
  deriving DecidableEq, Repr

/-- Go `ecs.DescribeTaskDefinitionInput`. -/
structure DescribeTaskDefinitionInput where
  TaskDefinition : Option String
  deriving DecidableEq, Repr

/-- Go `ecs.DescribeTaskDefinitionOutput`. -/
structure DescribeTaskDefinitionOutput where
  TaskDefinition : TaskDefinition
  deriving DecidableEq, Repr

/-- Go `ecs.ListClustersInput` (sent empty). -/
structure ListClustersInput where
  deriving DecidableEq, Repr

/-- Go `ecs.ListClustersOutput`. -/
structure ListClustersOutput where
  ClusterArns : List (Option String)
  deriving DecidableEq, Repr

/-- Go `ecs.ListServicesInput`. -/
structure ListServicesInput where
  Cluster : Option String
  deriving DecidableEq, Repr

/-- Go `ecs.ListServicesOutput`. -/
structure ListServicesOutput where
  ServiceArns : List (Option String)
  deriving DecidableEq, Repr

/-- Go `ecs.RegisterTaskDefinitionInput` as it goes out: the request is built
from pointers of a task definition, and what is sent is what they point to at
the moment of the call. -/
structure RegisterTaskDefinitionInput where
  Cpu : Option String
  Family : Option String
  Memory : Option String
  Volumes : List (Option String)
  NetworkMode : Option String
  ExecutionRoleArn : Option String
  TaskRoleArn : Option String
  ContainerDefinitions : List ContainerView
  RequiresCompatibilities : List (Option String)
  deriving DecidableEq, Repr

/-- Go `ecs.RegisterTaskDefinitionOutput`. -/
structure RegisterTaskDefinitionOutput where
  TaskDefinition : TaskDefinition
  deriving DecidableEq, Repr

/-- Go `ecs.UpdateServiceInput` as it goes out. -/
structure UpdateServiceInput where
  Cluster : Option String
  Service : Option String
  TaskDefinition : Option String
  deriving DecidableEq, Repr

/-- Go `ecs.UpdateServiceOutput`. -/
structure UpdateServiceOutput where
  Service : Service
  deriving DecidableEq, Repr

/-- Go `ecs.DescribeClustersInput`. -/
structure DescribeClustersInput where
  Clusters : List (Option String)
  deriving DecidableEq, Repr

/-- Go `ecs.DescribeClustersOutput`: a slice of non-nil cluster pointers. -/
structure DescribeClustersOutput where
  Clusters : List Cluster
  deriving DecidableEq, Repr

/-- Go `ecs.DescribeServicesInput`. -/
structure DescribeServicesInput where
  Cluster : Option String
  Services : List (Option String)
  deriving DecidableEq, Repr

/-- Go `ecs.DescribeServicesOutput`: a slice of non-nil service pointers. -/
structure DescribeServicesOutput where
  Services : List Service
  deriving DecidableEq, Repr

/-- Go `ecs.ContainerOverride` as it goes out. -/
structure ContainerOverride where
  Command : List (Option String)
  Name : Option String
  deriving DecidableEq, Repr

/-- Go `ecs.TaskOverride`. -/
structure TaskOverride where
  ContainerOverrides : List ContainerOverride
  deriving DecidableEq, Repr

/-- Go `ecs.RunTaskInput` as it goes out. -/
structure RunTaskInput where
  Cluster : Option String
  TaskDefinition : Option String
  Overrides : Option TaskOverride
  deriving DecidableEq, Repr

/-- Go `ecs.RunTaskOutput`. -/
structure RunTaskOutput where
  Tasks : List Task
  deriving DecidableEq, Repr

/-- Go `ecr.ImageDetail`.  `ImageTags` is a slice: `none` is the `nil` slice, and
`some []` a slice that is not `nil` and has no element. -/
structure ImageDetail where
  ImageTags : Option (List (Option String))
  ImageDigest : Option String
  deriving DecidableEq, Repr

/-- Go `ecr.DescribeImagesInput`. -/
structure DescribeImagesInput where
  RepositoryName : Option String
  deriving DecidableEq, Repr

/-- Go `ecr.DescribeImagesOutput`: a slice of non-nil image pointers. -/
structure DescribeImagesOutput where
  ImageDetails : List ImageDetail
  deriving DecidableEq, Repr

/-- What a call of the program leaves behind, in order: requests sent to ECS and
errors handed to `logError`. -/
inductive Event
  | ListTasks (inp : ListTasksInput)
  | DescribeTasks (inp : DescribeTasksInput)
  | DescribeTaskDefinition (inp : DescribeTaskDefinitionInput)
  | logError (err : GoError)
  | ListClusters (inp : ListClustersInput)
  | ListServices (inp : ListServicesInput)
  | RegisterTaskDefinition (inp : RegisterTaskDefinitionInput)
  | UpdateService (inp : UpdateServiceInput)
  | DescribeClusters (inp : DescribeClustersInput)
  | DescribeServices (inp : DescribeServicesInput)
  | RunTask (inp : RunTaskInput)
  | DescribeImages (inp : DescribeImagesInput)
  deriving DecidableEq, Repr

/-- The methods of `ecsiface.ECSAPI` that the embedded functions call.  A
method answers with an output or with an error, and its answer may depend on
everything that happened before (the trace), which covers any orchestrator
behaviour. -/
structure ECSAPI where
  ListTasks : List Event → ListTasksInput → Except GoError ListTasksOutput
  DescribeTasks : List Event → DescribeTasksInput → Except GoError DescribeTasksOutput
  DescribeTaskDefinition :
    List Event → DescribeTaskDefinitionInput → Except GoError DescribeTaskDefinitionOutput
  ListClusters : List Event → ListClustersInput → Except GoError ListClustersOutput
  ListServices : List Event → ListServicesInput → Except GoError ListServicesOutput
  RegisterTaskDefinition :
    List Event → RegisterTaskDefinitionInput → Except GoError RegisterTaskDefinitionOutput
  UpdateService : List Event → UpdateServiceInput → Except GoError UpdateServiceOutput
  DescribeClusters : List Event → DescribeClustersInput → Except GoError DescribeClustersOutput
  DescribeServices : List Event → DescribeServicesInput → Except GoError DescribeServicesOutput
  RunTask : List Event → RunTaskInput → Except GoError RunTaskOutput

/-- The method of `ecriface.ECRAPI` that the embedded functions call. -/
structure ECRAPI where
  DescribeImages : List Event → DescribeImagesInput → Except GoError DescribeImagesOutput

/-- Go interface `Logger` as a value of the field `l`.  The package has one
implementation, `logger`, whose `Printf` prints its line; the field is not
exported, so no other implementation can be stored from outside the package. -/
inductive Logger
  | logger
  deriving DecidableEq, Repr

/-- Go `UFO`.  `l` is an interface value and `none` is its `nil`.  The field
`State` is left out: none of the embedded functions reads or writes it. -/
structure UFO where
  l : Option Logger
  ECS : ECSAPI
  ECR : ECRAPI

/-- Go `New`: the `UFO` it builds has the logger `&logger{}`.  The two clients,
which `New` makes from an AWS session, are parameters. -/
def New (ecs : ECSAPI) (ecr : ECRAPI) : UFO :=
  { l := some Logger.logger, ECS := ecs, ECR := ecr }

/-! ## Execution -/

/-- Everything a call can observe or change. -/
structure World where
  heap : Heap
  trace : List Event

/-- A computation: from a world to a value or a panic, and the world it leaves. -/
def Run (α : Type) : Type := World → Except Panic α × World

/-- Return a value. -/
def Run.pure {α : Type} (a : α) : Run α := fun w => (.ok a, w)

/-- Sequencing; a panic stops the computation. -/
def Run.bind {α β : Type} (m : Run α) (f : α → Run β) : Run β := fun w =>
  match m w with
  | (.ok a, w1) => f a w1
  | (.error p, w1) => (.error p, w1)

instance : Monad Run where
  pure := Run.pure
  bind := Run.bind

/-- Raise a panic. -/
def Run.panic {α : Type} (p : Panic) : Run α := fun w => (.error p, w)

/-- Dereference `*p` of a read-only scalar pointer. -/
def deref {α : Type} (p : Option α) : Run α :=
  match p with
  | some a => Run.pure a
  | none => Run.panic .nilDereference

/-- Dereference `*p` of a string pointer into the heap. -/
def readStr (p : StrPtr) : Run String := fun w =>
  match p with
  | some a => (.ok (w.heap.cell a), w)
  | none => (.error .nilDereference, w)

/-- Assignment `*p = s` through a string pointer into the heap. -/
def writeStr (p : StrPtr) (s : String) : Run Unit := fun w =>
  match p with
  | some a => (.ok (), { w with heap := w.heap.write a s })
  | none => (.error .nilDereference, w)

/-- Indexing `xs[i]` of a slice. -/
def index {α : Type} (xs : List α) (i : Nat) : Run α :=
  match xs.get? i with
  | some a => Run.pure a
  | none => Run.panic .indexOutOfRange

/-- Lift a computation that can only panic. -/
def liftExcept {α : Type} (e : Except Panic α) : Run α := fun w => (e, w)

/-- Send a request to ECS: the request is appended to the trace and the answer
is the one the client gives after the history so far. -/
def call {α : Type} (ev : Event) (answer : List Event → Except GoError α) :
    Run (Except GoError α) := fun w =>
  (.ok (answer w.trace), { w with trace := w.trace ++ [ev] })

/-- Go `(*UFO).logError`: both branches of its type switch call `u.l.Printf`
with the error.  A method call on the `nil` interface panics; on the logger
one line is written, recorded in the trace. -/
def UFO.logError (u : UFO) (err : GoError) : Run Unit := fun w =>
  match u.l with
  | none => (.error Panic.nilDereference, w)
  | some _ => (.ok (), { w with trace := w.trace ++ [Event.logError err] })

/-! ## The functions of `ufo.go` -/

/-- Go `(*UFO).RunningTasks`. -/
def UFO.RunningTasks (u : UFO) (c : Cluster) (s : Service) :
    Run (List (Option String) × Option GoError) := do
  let inp : ListTasksInput :=
    { Cluster := c.ClusterName, ServiceName := s.ServiceName, DesiredStatus := some "RUNNING" }
  let r ← call (Event.ListTasks inp) (fun tr => u.ECS.ListTasks tr inp)
  match r with
  | .error err => do
    u.logError err
    pure ([], some GoError.ErrFailedToListRunningTasks)
  | .ok result => pure (result.TaskArns, none)

/-- Go `(*UFO).GetTasks`. -/
def UFO.GetTasks (u : UFO) (c : Cluster) (tasks : List (Option String)) :
    Run (List Task × Option GoError) := do
  let inp : DescribeTasksInput := { Cluster := c.ClusterName, Tasks := tasks }
  let r ← call (Event.DescribeTasks inp) (fun tr => u.ECS.DescribeTasks tr inp)
  match r with
  | .error err => do
    u.logError err
    pure ([], some GoError.ErrCouldNotRetrieveTasks)
  | .ok result => pure (result.Tasks, none)

/-- Go `(*UFO).GetLastDeployedCommit`. -/
def UFO.GetLastDeployedCommit (u : UFO) (taskDefinition : String) :
    Run (String × Option GoError) := do
  let inp : DescribeTaskDefinitionInput := { TaskDefinition := some taskDefinition }
  let r ← call (Event.DescribeTaskDefinition inp) (fun tr => u.ECS.DescribeTaskDefinition tr inp)
  match r with
  | .error err => do
    u.logError err
    pure ("", some GoError.ErrCouldNotRetrieveTaskDefinition)
  | .ok result =>
    if result.TaskDefinition.ContainerDefinitions.length < 1 then
      pure ("", some GoError.ErrInvalidTaskDefinition)
    else do
      let c ← index result.TaskDefinition.ContainerDefinitions 0
      let repo := c.Image
      let image ← readStr repo
      let tag ← liftExcept (indexSubmatch (FindStringSubmatch reColonTag image) 1)
      pure (tag, none)

/-- Go `(*UFO).UpdateTaskDefinitionImage`.  The parameter `t` is a copy of the
caller's struct, but its `ContainerDefinitions` slice and the `Image` pointer
are shared with the caller, and the new image is stored through that pointer. -/
def UFO.UpdateTaskDefinitionImage (_u : UFO) (t : TaskDefinition) (version : String) :
    Run TaskDefinition := do
  let c ← index t.ContainerDefinitions 0
  let currentImage ← readStr c.Image
  let repo ← liftExcept (indexSubmatch (FindStringSubmatch reRepoColon currentImage) 1)
  let newImage := repo ++ ":" ++ version
  writeStr c.Image newImage
  pure t

/-- The loop of `IsServiceRunning` over the described tasks. -/
def scanTasks (t : TaskDefinition) : List Task → Run Bool
  | [] => pure false
  | task :: rest => do
    let arn ← deref task.TaskDefinitionArn
    let target ← readStr t.TaskDefinitionArn
    if arn = target then do
      let status ← deref task.LastStatus
      if status = "RUNNING" then pure true else scanTasks t rest
    else scanTasks t rest

/-- Go `(*UFO).IsServiceRunning`. -/
def UFO.IsServiceRunning (u : UFO) (c : Cluster) (s : Service) (t : TaskDefinition) :
    Run (Bool × Option GoError) := do
  let desired ← deref s.DesiredCount
  if desired ≤ 0 then pure (false, none)
  else do
    let (runningTasks, err) ← u.RunningTasks c s
    match err with
    | some e => do
      u.logError e
      pure (false, some e)
    | none =>
      if runningTasks.length ≤ 0 then pure (false, none)
      else do
        let (tasks, err) ← u.GetTasks c runningTasks
        match err with
        | some e => do
          u.logError e
          pure (false, some e)
        | none => do
          let found ← scanTasks t tasks
          if found then pure (true, none) else pure (false, none)

/-- The deep value of the fields that `RegisterTaskDefinitionWithImage` and
`RegisterTaskDefinitionWithEnvVars` copy into the request. -/
def registerTaskDefinitionInputOf (h : Heap) (t : TaskDefinition) :
    RegisterTaskDefinitionInput :=
  { Cpu := h.read t.Cpu
    Family := h.read t.Family
    Memory := h.read t.Memory
    Volumes := t.Volumes.map (fun v => h.read v.Name)
    NetworkMode := h.read t.NetworkMode
    ExecutionRoleArn := h.read t.ExecutionRoleArn
    TaskRoleArn := h.read t.TaskRoleArn
    ContainerDefinitions := t.ContainerDefinitions.map (ContainerDefinition.view h)
    RequiresCompatibilities := t.RequiresCompatibilities.map h.read }

/-- What a value built from pointers amounts to in the heap of the moment. -/
def snapshot {α : Type} (f : Heap → α) : Run α := fun w => (.ok (f w.heap), w)

/-- Go `(*UFO).GetTaskDefinition`. -/
def UFO.GetTaskDefinition (u : UFO) (_c : Cluster) (s : Service) :
    Run (Option TaskDefinition × Option GoError) := do
  let inp : DescribeTaskDefinitionInput := { TaskDefinition := s.TaskDefinition }
  let r ← call (Event.DescribeTaskDefinition inp) (fun tr => u.ECS.DescribeTaskDefinition tr inp)
  match r with
  | .error err => do
    u.logError err
    pure (none, some GoError.ErrCouldNotRetrieveTaskDefinition)
  | .ok result => pure (some result.TaskDefinition, none)

/-- Go `(*UFO).RegisterTaskDefinitionWithImage`. -/
def UFO.RegisterTaskDefinitionWithImage (u : UFO) (c : Cluster) (s : Service)
    (version : String) : Run (Option TaskDefinition × Option GoError) := do
  let (t, err) ← u.GetTaskDefinition c s
  match err with
  | some e => do
    u.logError e
    pure (none, some e)
  | none => do
    let td ← deref t
    let newTaskDef ← u.UpdateTaskDefinitionImage td version
    let inp ← snapshot (fun h => registerTaskDefinitionInputOf h newTaskDef)
    let r ← call (Event.RegisterTaskDefinition inp)
      (fun tr => u.ECS.RegisterTaskDefinition tr inp)
    match r with
    | .error err => do
      u.logError err
      pure (none, some GoError.ErrCouldNotRegisterTaskDefinition)
    | .ok result => pure (some result.TaskDefinition, none)

/-- Go `(*UFO).UpdateService`. -/
def UFO.UpdateService (u : UFO) (c : Cluster) (s : Service) (t : Option TaskDefinition) :
    Run (Option UpdateServiceOutput × Option GoError) := do
  let td ← deref t
  let arn ← snapshot (fun h => h.read td.TaskDefinitionArn)
  let inp : UpdateServiceInput :=
    { Cluster := c.ClusterArn, Service := s.ServiceArn, TaskDefinition := arn }
  let r ← call (Event.UpdateService inp) (fun tr => u.ECS.UpdateService tr inp)
  match r with
  | .error err => do
    u.logError err
    pure (none, some GoError.ErrCouldNotUpdateService)
  | .ok result => pure (some result, none)

/-- Go `(*UFO).Deploy`. -/
def UFO.Deploy (u : UFO) (c : Cluster) (s : Service) (version : String) :
    Run (Option TaskDefinition × Option GoError) := do
  let (t, err) ← u.RegisterTaskDefinitionWithImage c s version
  match err with
  | some e => do
    u.logError e
    pure (none, some e)
  | none => do
    let (_, err) ← u.UpdateService c s t
    match err with
    | some e => do
      u.logError e
      pure (none, some e)
    | none => pure (t, err)

/-- The loop of `Clusters` and of `Services`: each ARN is dereferenced and the
pattern is run on it. -/
def lastSegments : List (Option String) → Run (List String)
  | [] => pure []
  | arn :: rest => do
    let a ← deref arn
    let names ← lastSegments rest
    pure (FindString reLastSegment a :: names)

/-- Go `(*UFO).Clusters`. -/
def UFO.Clusters (u : UFO) : Run (List String × Option GoError) := do
  let inp : ListClustersInput := {}
  let r ← call (Event.ListClusters inp) (fun tr => u.ECS.ListClusters tr inp)
  match r with
  | .error err => do
    u.logError err
    pure ([], some GoError.ErrFailedToListClusters)
  | .ok res => do
    let clusters ← lastSegments res.ClusterArns
    pure (clusters, none)

/-- Go `(*UFO).Services`. -/
def UFO.Services (u : UFO) (c : Cluster) : Run (List String × Option GoError) := do
  let inp : ListServicesInput := { Cluster := c.ClusterArn }
  let r ← call (Event.ListServices inp) (fun tr => u.ECS.ListServices tr inp)
  match r with
  | .error err => do
    u.logError err
    pure ([], some GoError.ErrFailedToListServices)
  | .ok res => do
    let services ← lastSegments res.ServiceArns
    pure (services, none)

/-! ## Helpers of the Go standard library -/

/-- The pieces of a text between the occurrences of the separator `sep`. -/
def splitChars (sep : Char) : List Char → List (List Char)
  | [] => [[]]
  | c :: cs =>
    if c = sep then [] :: splitChars sep cs
    else
      match splitChars sep cs with
      | piece :: pieces => (c :: piece) :: pieces
      | [] => [[c]]

/-- Go `strings.Split(s, sep)` for a separator `sep` of one character. -/
def stringsSplit (s : String) (sep : Char) : List String :=
  (splitChars sep s.toList).map String.mk

/-- Go `strings.Join(elems, sep)`. -/
def stringsJoin : List String → String → String
  | [], _ => ""
  | [a], _ => a
  | a :: b :: rest, sep => a ++ sep ++ stringsJoin (b :: rest) sep

/-- The string `s` written `n` times. -/
def repeatString (s : String) : Nat → String
  | 0 => ""
  | n + 1 => s ++ repeatString s n

/-- Go `strings.Repeat(s, count)`, which panics on a negative count. -/
def stringsRepeat (s : String) (count : Int) : Except Panic String :=
  if count < 0 then .error Panic.negativeRepeatCount else .ok (repeatString s count.toNat)

/-- Go `len(s)` of a string: its number of bytes. -/
def len (s : String) : Int := s.utf8ByteSize

/-! ## More functions of `ufo.go` -/

/-- Go `(*UFO).GetCluster`. -/
def UFO.GetCluster (u : UFO) (name : String) : Run (Option Cluster × Option GoError) := do
  let inp : DescribeClustersInput := { Clusters := [some name] }
  let r ← call (Event.DescribeClusters inp) (fun tr => u.ECS.DescribeClusters tr inp)
  match r with
  | .error err => do
    u.logError err
    pure (none, some GoError.ErrCouldNotRetrieveCluster)
  | .ok res =>
    if res.Clusters.length < 1 then pure (none, some GoError.ErrClusterNotFound)
    else do
      let cluster ← index res.Clusters 0
      pure (some cluster, none)

/-- Go `(*UFO).GetService`. -/
def UFO.GetService (u : UFO) (c : Cluster) (service : String) :
    Run (Option Service × Option GoError) := do
  let inp : DescribeServicesInput := { Cluster := c.ClusterArn, Services := [some service] }
  let r ← call (Event.DescribeServices inp) (fun tr => u.ECS.DescribeServices tr inp)
  match r with
  | .error err => do
    u.logError err
    pure (none, some GoError.ErrCouldNotRetrieveService)
  | .ok res =>
    if res.Services.length < 1 then pure (none, some GoError.ErrServiceNotFound)
    else do
      let svc ← index res.Services 0
      pure (some svc, none)

/-- Go `(*UFO).GetRepoFromImage`. -/
def UFO.GetRepoFromImage (_u : UFO) (image : StrPtr) : Run String := do
  let img ← readStr image
  let repo ← liftExcept (indexSubmatch (FindStringSubmatch reSlashRepoColon img) 1)
  pure repo

/-- The loop of `GetImages` and of `describeImages`: an image is appended to
`images` when its `ImageTags` is not `nil`. -/
def appendTagged : List ImageDetail → List ImageDetail → List ImageDetail
  | images, [] => images
  | images, image :: rest =>
    if image.ImageTags ≠ none then appendTagged (images ++ [image]) rest
    else appendTagged images rest

/-- Go `(*UFO).GetImages`.  The list returned is `none` when it is the `nil`
slice. -/
def UFO.GetImages (u : UFO) (t : TaskDefinition) :
    Run (Option (List ImageDetail) × Option GoError) := do
  let c ← index t.ContainerDefinitions 0
  let currentImage := c.Image
  let repoName ← u.GetRepoFromImage currentImage
  let inp : DescribeImagesInput := { RepositoryName := some repoName }
  let r ← call (Event.DescribeImages inp) (fun tr => u.ECR.DescribeImages tr inp)
  match r with
  | .error err => do
    u.logError err
    pure (none, some GoError.ErrCouldNotRetrieveImages)
  | .ok result => pure (some (appendTagged [] result.ImageDetails), none)

/-- Go `(*UFO).RunTask`. -/
def UFO.RunTask (u : UFO) (c : Cluster) (t : TaskDefinition) (cmd : String) :
    Run (Option RunTaskOutput × Option GoError) := do
  let splitString := stringsSplit cmd ' '
  let arn ← snapshot (fun h => h.read t.TaskDefinitionArn)
  let c0 ← index t.ContainerDefinitions 0
  let name ← snapshot (fun h => h.read c0.Name)
  let inp : RunTaskInput :=
    { Cluster := c.ClusterName
      TaskDefinition := arn
      Overrides := some { ContainerOverrides :=
        [{ Command := splitString.map some, Name := name }] } }
  let r ← call (Event.RunTask inp) (fun tr => u.ECS.RunTask tr inp)
  match r with
  | .error err => do
    u.logError err
    pure (none, some GoError.ErrCouldNotRunTask)
  | .ok result => pure (some result, none)

/-! ## The functions of `backend/ecr.go` -/

/-- The second to fourth statement of `describeImages`: the repository name is
read out of the primary image of the current task definition. -/
def repoNameOfCurrentImage (currentTaskDefinition : TaskDefinition) : Run String := do
  let c ← index currentTaskDefinition.ContainerDefinitions 0
  let currentImage ← readStr c.Image
  let repoName ← liftExcept (indexSubmatch (FindStringSubmatch reSlashRepoColon currentImage) 1)
  pure repoName

/-- Go `describeImages` of `backend/ecr.go`.  Three things it uses are declared
outside the sources at hand and are parameters here: the helper
`describeTaskDefinition`, the global client `ECRService`, and the helper
`handleECRErr`, which is handed the error of the call (`none` for `nil`).
`ECRService` is a `*ecr.ECR`, whose `DescribeImages` returns an output that is
not `nil` also when it returns an error; that output has no image details, so
after a failed call the loop has nothing to read, if `handleECRErr` returns at
all. -/
def describeImages (describeTaskDefinition : String → String → Run TaskDefinition)
    (ECRService : ECRAPI) (handleECRErr : Option GoError → Run Unit)
    (cluster : String) (service : String) : Run (List ImageDetail) := do
  let currentTaskDefinition ← describeTaskDefinition cluster service
  let repoName ← repoNameOfCurrentImage currentTaskDefinition
  let input : DescribeImagesInput := { RepositoryName := some repoName }
  let r ← call (Event.DescribeImages input) (fun tr => ECRService.DescribeImages tr input)
  match r with
  | .error err => do
    handleECRErr (some err)
    pure (appendTagged [] [])
  | .ok result => do
    handleECRErr none
    pure (appendTagged [] result.ImageDetails)

/-- The loop of `filterImages`: `versions = append(versions, *image.ImageTags[0])`. -/
def filterImagesLoop : List String → List ImageDetail → Run (List String)
  | versions, [] => pure versions
  | versions, image :: rest => do
    let tag ← index (image.ImageTags.getD []) 0
    let version ← deref tag
    filterImagesLoop (versions ++ [version]) rest

/-- Go `filterImages` of `backend/ecr.go`. -/
def filterImages (images : List ImageDetail) : Run (List String) :=
  filterImagesLoop [] images

/-! ## The functions of `cmd/ufo/service_envs.go`

What `fmt.Printf` writes is returned, one string per call, in order. -/

/-- The loop of `longNameAndValue`, from the current values of the named results
`longName` and `longVal`. -/
def longNameAndValueLoop : Int → Int → List KeyValuePair → Run (Int × Int)
  | longName, longVal, [] => pure (longName, longVal)
  | longName, longVal, value :: rest => do
    let name ← readStr value.Name
    let val ← readStr value.Value
    let nameLength := len name
    let valueLength := len val
    let longName := if nameLength > longName then nameLength else longName
    let longVal := if valueLength > longVal then valueLength else longVal
    longNameAndValueLoop longName longVal rest

/-- Go `longNameAndValue`. -/
def longNameAndValue (e : List KeyValuePair) : Run (Int × Int) :=
  longNameAndValueLoop 0 0 e

/-- The inner loop of `printEnvTable`: one row and one border per pair. -/
def printRows (longestName longestValue : Int) (nameDashes valueDashes : String) :
    List KeyValuePair → Run (List String)
  | [] => pure []
  | value :: rest => do
    let name ← readStr value.Name
    let val ← readStr value.Value
    let nameSpaces := longestName - len name
    let valueSpaces := longestValue - len val
    let spacesForName ← liftExcept (stringsRepeat " " nameSpaces)
    let spacesForValue ← liftExcept (stringsRepeat " " valueSpaces)
    let row := "| " ++ name ++ spacesForName ++ " | " ++ val ++ spacesForValue ++ " |\n"
    let border := "+" ++ nameDashes ++ "+" ++ valueDashes ++ "+\n"
    let more ← printRows longestName longestValue nameDashes valueDashes rest
    pure (row :: border :: more)

/-- The body of the outer loop of `printEnvTable`: what is printed for one
container definition. -/
def printContainer (containerDefinition : ContainerDefinition) : Run (List String) := do
  let (longestName, longestValue) ← longNameAndValue containerDefinition.Environment
  let nameDashes ← liftExcept (stringsRepeat "-" (longestName + 2))
  let valueDashes ← liftExcept (stringsRepeat "-" (longestValue + 2))
  let border := "+" ++ nameDashes ++ "+" ++ valueDashes ++ "+\n"
  let rows ← printRows longestName longestValue nameDashes valueDashes
    containerDefinition.Environment
  pure (border :: rows)

/-- The outer loop of `printEnvTable`. -/
def printContainers : List ContainerDefinition → Run (List String)
  | [] => pure []
  | containerDefinition :: rest => do
    let lines ← printContainer containerDefinition
    let more ← printContainers rest
    pure (lines ++ more)

/-- Go `printEnvTable`. -/
def printEnvTable (t : TaskDefinition) : Run (List String) :=
  printContainers t.ContainerDefinitions

/-! ## Reading and comparing task definitions -/

/-- The image string of the primary (index 0) container, when there is one. -/
def TaskDefinition.primaryImage (h : Heap) (t : TaskDefinition) : Option String :=
  match t.ContainerDefinitions with
  | c :: _ => h.read c.Image
  | [] => none

/-- The same deep value with the image of the primary container replaced. -/
def TaskDefinitionView.setPrimaryImage (tv : TaskDefinitionView) (image : String) :
    TaskDefinitionView :=
  match tv.ContainerDefinitions with
  | c :: cs => { tv with ContainerDefinitions := { c with Image := some image } :: cs }
  | [] => tv

/-- String pointers of a container definition other than `Image`. -/
def ContainerDefinition.pointersExceptImage (c : ContainerDefinition) : List StrPtr :=
  c.Name :: (c.Command ++ c.Environment.map (fun kv => kv.Name)
    ++ c.Environment.map (fun kv => kv.Value))

/-- Every string pointer of a container definition. -/
def ContainerDefinition.pointers (c : ContainerDefinition) : List StrPtr :=
  c.Image :: c.pointersExceptImage

/-- Every string pointer of a task definition except the `Image` field of its
primary container. -/
def TaskDefinition.otherPointers (t : TaskDefinition) : List StrPtr :=
  (match t.ContainerDefinitions with
    | c :: cs => c.pointersExceptImage ++ (cs.map ContainerDefinition.pointers).flatten
    | [] => [])
  ++ [t.Cpu, t.Family, t.Memory, t.NetworkMode, t.ExecutionRoleArn, t.TaskRoleArn,
      t.TaskDefinitionArn]
  ++ t.Volumes.map (fun v => v.Name) ++ t.RequiresCompatibilities

/-- The pattern of `UpdateTaskDefinitionImage` finds a match in `image`. -/
def Parseable (image : String) : Prop :=
  FindStringSubmatch reRepoColon image ≠ none

instance (image : String) : Decidable (Parseable image) :=
  inferInstanceAs (Decidable (FindStringSubmatch reRepoColon image ≠ none))

/-- The substring of `s` after its last `:`, in the words of the specification of
`extractTag` (the whole of `s` when it has no `:`).  It is what
`GetLastDeployedCommit` is compared with. -/
def afterLastColon (s : String) : String :=
  String.mk (s.toList.reverse.takeWhile (fun ch => !(ch = ':'))).reverse

/-- The repository that `UpdateTaskDefinitionImage` reads out of `image`: group 1
of the leftmost match of its pattern (the empty string when nothing matches,
in which case the function does not get as far as using it). -/
def capturedRepo (image : String) : String :=
  match FindStringSubmatch reRepoColon image with
  | some (_ :: repo :: _) => repo
  | _ => ""

/-- The registrable fields of a deep value: all of them except the ARN. -/
def TaskDefinitionView.registrable (tv : TaskDefinitionView) : RegisterTaskDefinitionInput :=
  { Cpu := tv.Cpu
    Family := tv.Family
    Memory := tv.Memory
    Volumes := tv.Volumes
    NetworkMode := tv.NetworkMode
    ExecutionRoleArn := tv.ExecutionRoleArn
    TaskRoleArn := tv.TaskRoleArn
    ContainerDefinitions := tv.ContainerDefinitions
    RequiresCompatibilities := tv.RequiresCompatibilities }

/-- The maximum byte length of some strings, 0 when there is none. -/
def maxLen (strs : List String) : Int :=
  strs.foldr (fun s m => max (len s) m) 0

/-- The names of an environment list, read in heap `h`. -/
def envNames (h : Heap) (e : List KeyValuePair) : List String :=
  e.map (fun kv => (h.read kv.Name).getD "")

/-- The values of an environment list, read in heap `h`. -/
def envValues (h : Heap) (e : List KeyValuePair) : List String :=
  e.map (fun kv => (h.read kv.Value).getD "")

/-- A printed line of `width` bytes: the text before its final newline has that
byte length. -/
def LineOfWidth (width : Int) (line : String) : Prop :=
  ∃ body, line = body ++ "\n" ∧ len body = width

/-- The final path segment of `s`, in the words of the claim about `Clusters` and
`Services`: the longest suffix of `s` containing no `/`.  It is what the
entries those functions return are compared with. -/
def lastSegment (s : String) : String :=
  String.mk (s.toList.reverse.takeWhile (fun ch => !(ch = '/'))).reverse

/-- An event is an outbound query unless it is a line of `logError`. -/
def Event.isRequest : Event → Bool
  | Event.logError _ => false
  | _ => true

/-- An event is an `UpdateService` request. -/
def Event.isUpdateService : Event → Bool
  | Event.UpdateService _ => true
  | _ => false

/-- The outbound queries among some events, in order. -/
def requests (events : List Event) : List Event :=
  events.filter Event.isRequest

/-! ## Sample values -/

/-- A client in the manner of the test doubles of `ufo_test.go`: `ListTasks`,
`DescribeTasks` and `DescribeTaskDefinition` return the canned answer, whatever
they are asked; the other methods fail. -/
def mockedECS (listTasks : Except GoError ListTasksOutput)
    (describeTasks : Except GoError DescribeTasksOutput)
    (describeTaskDefinition : Except GoError DescribeTaskDefinitionOutput) : ECSAPI :=
  { ListTasks := fun _ _ => listTasks
    DescribeTasks := fun _ _ => describeTasks
    DescribeTaskDefinition := fun _ _ => describeTaskDefinition
    ListClusters := fun _ _ => .error (GoError.sdk "not mocked")
    ListServices := fun _ _ => .error (GoError.sdk "not mocked")
    RegisterTaskDefinition := fun _ _ => .error (GoError.sdk "not mocked")
    UpdateService := fun _ _ => .error (GoError.sdk "not mocked")
    DescribeClusters := fun _ _ => .error (GoError.sdk "not mocked")
    DescribeServices := fun _ _ => .error (GoError.sdk "not mocked")
    RunTask := fun _ _ => .error (GoError.sdk "not mocked") }

/-- The test double `mockedECRClient` of `ufo_test.go`, which answers nothing. -/
def mockedECRClient : ECRAPI :=
  { DescribeImages := fun _ _ => .error (GoError.sdk "not mocked") }

/-- The `UFO` value that the tests build around an ECS double:
`UFO{ECS: ..., ECR: mockedECRClient{}}`, whose logger `l` is `nil`. -/
def testUFO (ecs : ECSAPI) : UFO :=
  { l := none, ECS := ecs, ECR := mockedECRClient }

/-- A container definition with only `Image` set. -/
def containerWithImage (image : StrPtr) : ContainerDefinition :=
  { Name := none, Image := image, Command := [], Environment := [], Cpu := none, Memory := none }

/-- A task definition with the given containers and ARN and nothing else set. -/
def taskDefinitionOf (containers : List ContainerDefinition) (arn : StrPtr) : TaskDefinition :=
  { ContainerDefinitions := containers, Cpu := none, Family := none, Memory := none,
    NetworkMode := none, ExecutionRoleArn := none, TaskRoleArn := none,
    TaskDefinitionArn := arn, Volumes := [], RequiresCompatibilities := [] }

/-- A heap from a list of strings: cell `i` holds the `i`-th string. -/
def heapOf (cells : List String) : Heap :=
  { cell := fun a => cells.getD a "" }

/-- A world with the given cells and an empty trace. -/
def worldOf (cells : List String) : World :=
  { heap := heapOf cells, trace := [] }

/-- The cluster of `TestUFOIsServiceRunning`. -/
def testCluster : Cluster :=
  { ClusterArn := none, ClusterName := some "test-cluster" }

/-- The service of `TestUFOIsServiceRunning` with the given desired count. -/
def testService (desired : Option Int) : Service :=
  { ServiceArn := none, ServiceName := some "test-service", TaskDefinition := none,
    DesiredCount := desired }

/-- A task definition with two containers, every string in a cell of its own:
cell 0 the primary image, 1 the primary name, 2 the image of the second
container, 3 the family. -/
def twoContainerTaskDefinition : TaskDefinition :=
  { ContainerDefinitions :=
      [{ Name := some 1, Image := some 0, Command := [], Environment := [], Cpu := some 256,
         Memory := none },
       containerWithImage (some 2)],
    Cpu := none, Family := some 3, Memory := none, NetworkMode := none,
    ExecutionRoleArn := none, TaskRoleArn := none, TaskDefinitionArn := none, Volumes := [],
    RequiresCompatibilities := [] }

/-- The client of the first case of `TestUFOIsServiceRunning`, with two more
tasks in front of the one that is running on the target definition. -/
def convergedECS : ECSAPI :=
  mockedECS (.ok { TaskArns := [some "task1", some "task2"] })
    (.ok { Tasks :=
      [{ TaskDefinitionArn := some "previous-taskdefarn", LastStatus := some "RUNNING" },
       { TaskDefinitionArn := some "taskdefarn", LastStatus := some "PENDING" },
       { TaskDefinitionArn := some "taskdefarn", LastStatus := some "RUNNING" }] })
    (.error (GoError.sdk "unused"))

/-- The client of the second case of `TestUFOIsServiceRunning`: no running task. -/
def emptyListECS : ECSAPI :=
  mockedECS (.ok { TaskArns := [] }) (.error (GoError.sdk "unused"))
    (.error (GoError.sdk "unused"))

/-- The test double `mockedDeploy` of `ufo_test.go`. -/
def mockedDeploy (describeTaskDefinition : Except GoError DescribeTaskDefinitionOutput)
    (registerTaskDefinition : Except GoError RegisterTaskDefinitionOutput)
    (updateService : Except GoError UpdateServiceOutput) : ECSAPI :=
  { ListTasks := fun _ _ => .error (GoError.sdk "not mocked")
    DescribeTasks := fun _ _ => .error (GoError.sdk "not mocked")
    DescribeTaskDefinition := fun _ _ => describeTaskDefinition
    ListClusters := fun _ _ => .error (GoError.sdk "not mocked")
    ListServices := fun _ _ => .error (GoError.sdk "not mocked")
    RegisterTaskDefinition := fun _ _ => registerTaskDefinition
    UpdateService := fun _ _ => updateService
    DescribeClusters := fun _ _ => .error (GoError.sdk "not mocked")
    DescribeServices := fun _ _ => .error (GoError.sdk "not mocked")
    RunTask := fun _ _ => .error (GoError.sdk "not mocked") }

/-- The test doubles `mockedListClusters` and `mockedListServices` of
`ufo_test.go` in one client. -/
def mockedLists (listClusters : Except GoError ListClustersOutput)
    (listServices : Except GoError ListServicesOutput) : ECSAPI :=
  { ListTasks := fun _ _ => .error (GoError.sdk "not mocked")
    DescribeTasks := fun _ _ => .error (GoError.sdk "not mocked")
    DescribeTaskDefinition := fun _ _ => .error (GoError.sdk "not mocked")
    ListClusters := fun _ _ => listClusters
    ListServices := fun _ _ => listServices
    RegisterTaskDefinition := fun _ _ => .error (GoError.sdk "not mocked")
    UpdateService := fun _ _ => .error (GoError.sdk "not mocked")
    DescribeClusters := fun _ _ => .error (GoError.sdk "not mocked")
    DescribeServices := fun _ _ => .error (GoError.sdk "not mocked")
    RunTask := fun _ _ => .error (GoError.sdk "not mocked") }

/-- The client of the second case of `TestUFOIsServiceRunningError`: two running
tasks are listed and `DescribeTasks` fails. -/
def describeFailsECS : ECSAPI :=
  mockedECS (.ok { TaskArns := [some "task1", some "task2"] })
    (.error (GoError.sdk "test-error")) (.error (GoError.sdk "unused"))

/-- The cells of the task definitions of `TestUFODeploy`: the image, the family,
the ARN of the described task definition, the command, and the ARN of the
registered task definition. -/
def deployCells : List String :=
  ["111222333444.dkr.ecr.us-west-1.amazonaws.com/image:cbd0d9c", "family1",
    "task-definitionarn", "echo", "registered-taskdefarn"]

/-- The task definition that `DescribeTaskDefinition` returns in `TestUFODeploy`. -/
def describedTaskDefinition : TaskDefinition :=
  { ContainerDefinitions :=
      [{ Name := none, Image := some 0, Command := [some 3, some 3], Environment := [],
         Cpu := none, Memory := none }],
    Cpu := none, Family := some 1, Memory := none, NetworkMode := none,
    ExecutionRoleArn := none, TaskRoleArn := none, TaskDefinitionArn := some 2, Volumes := [],
    RequiresCompatibilities := [] }

/-- The task definition that `RegisterTaskDefinition` returns in `TestUFODeploy`,
with an ARN of its own. -/
def registeredTaskDefinition : TaskDefinition :=
  { describedTaskDefinition with TaskDefinitionArn := some 4 }

/-- A cluster with an ARN. -/
def deployCluster : Cluster :=
  { ClusterArn := some "cluster-arn", ClusterName := some "test-cluster" }

/-- A service with an ARN whose current task definition is the described one. -/
def deployService : Service :=
  { ServiceArn := some "service-arn", ServiceName := some "test-service",
    TaskDefinition := some "task-definitionarn", DesiredCount := some 1 }

/-- The test doubles `mockedDescribeClusters` and `mockedDescribeServices` of
`ufo_test.go` in one client. -/
def mockedDescribes (describeClusters : Except GoError DescribeClustersOutput)
    (describeServices : Except GoError DescribeServicesOutput) : ECSAPI :=
  { ListTasks := fun _ _ => .error (GoError.sdk "not mocked")
    DescribeTasks := fun _ _ => .error (GoError.sdk "not mocked")
    DescribeTaskDefinition := fun _ _ => .error (GoError.sdk "not mocked")
    ListClusters := fun _ _ => .error (GoError.sdk "not mocked")
    ListServices := fun _ _ => .error (GoError.sdk "not mocked")
    RegisterTaskDefinition := fun _ _ => .error (GoError.sdk "not mocked")
    UpdateService := fun _ _ => .error (GoError.sdk "not mocked")
    DescribeClusters := fun _ _ => describeClusters
    DescribeServices := fun _ _ => describeServices
    RunTask := fun _ _ => .error (GoError.sdk "not mocked") }

/-- The test double `mockedRunTask` of `ufo_test.go`. -/
def mockedRunTask (runTask : Except GoError RunTaskOutput) : ECSAPI :=
  { ListTasks := fun _ _ => .error (GoError.sdk "not mocked")
    DescribeTasks := fun _ _ => .error (GoError.sdk "not mocked")
    DescribeTaskDefinition := fun _ _ => .error (GoError.sdk "not mocked")
    ListClusters := fun _ _ => .error (GoError.sdk "not mocked")
    ListServices := fun _ _ => .error (GoError.sdk "not mocked")
    RegisterTaskDefinition := fun _ _ => .error (GoError.sdk "not mocked")
    UpdateService := fun _ _ => .error (GoError.sdk "not mocked")
    DescribeClusters := fun _ _ => .error (GoError.sdk "not mocked")
    DescribeServices := fun _ _ => .error (GoError.sdk "not mocked")
    RunTask := fun _ _ => runTask }

/-- The test double `mockedDescribeImages` of `ufo_test.go`. -/
def mockedDescribeImages (describeImages : Except GoError DescribeImagesOutput) : ECRAPI :=
  { DescribeImages := fun _ _ => describeImages }

/-- The cluster of `TestUFOGetCluster`. -/
def namedCluster : Cluster :=
  { ClusterArn := some "test-clusterarn", ClusterName := some "test-cluster" }

/-- The task definition of `TestUFOGetImages`; its image is in cell 0. -/
def imagesTaskDefinition : TaskDefinition :=
  taskDefinitionOf [containerWithImage (some 0)] none

/-- The cells of `imagesTaskDefinition` and of `runTaskDefinition`: the image,
the ARN and the name of the container. -/
def imagesCells : List String :=
  ["111222333444.dkr.ecr.us-west-1.amazonaws.com/image:ea13366", "taskdefarn", "test-container"]

/-- The first response of `TestUFOGetImages`, with an image without tags between
the two tagged ones. -/
def taggedImages : DescribeImagesOutput :=
  { ImageDetails :=
      [{ ImageTags := some [some "tag1"], ImageDigest := none },
       { ImageTags := none, ImageDigest := none },
       { ImageTags := some [some "tag2"], ImageDigest := none }] }

/-- The task definition of `TestUFORunTask`. -/
def runTaskDefinition : TaskDefinition :=
  taskDefinitionOf
    [{ Name := some 2, Image := none, Command := [], Environment := [], Cpu := none,
       Memory := none }] (some 1)

/-- A container definition with two environment pairs, `A=valueA` and
`LONGER=b`, whose strings are the cells 0 to 3. -/
def envContainer : ContainerDefinition :=
  { Name := none, Image := none, Command := [],
    Environment := [{ Name := some 0, Value := some 1 }, { Name := some 2, Value := some 3 }],
    Cpu := none, Memory := none }

/-- The cells of `envContainer`. -/
def envCells : List String := ["A", "valueA", "LONGER", "b"]

/-- A `DescribeImages` response whose second image has an `ImageTags` slice that
is not `nil` and has no element (`[]*string{}`). -/
def emptyTagsImages : DescribeImagesOutput :=
  { ImageDetails :=
      [{ ImageTags := some [some "v1"], ImageDigest := none },
       { ImageTags := some [], ImageDigest := none }] }

/-- A client whose every method fails. -/
def failingECS : ECSAPI :=
  mockedECS (.error (GoError.sdk "test-error")) (.error (GoError.sdk "test-error"))
    (.error (GoError.sdk "test-error"))


/-! ## Facts about the matcher -/

theorem backtrack_none (k : List Char → MatchResult) (s : List Char) (n : Nat)
    (hfail : ∀ j, 1 ≤ j → j ≤ n → k (s.drop j) = none) : backtrack k s n = none := by
  induction n with
  | zero => rfl
  | succ n ih =>
    have h1 : k (s.drop (n + 1)) = none := hfail (n + 1) (by omega) (by omega)
    simp only [backtrack, h1]
    exact ih (fun j hj hjn => hfail j hj (by omega))

theorem backtrack_found (k : List Char → MatchResult) (s : List Char) (m n : Nat)
    (rest : List Char) (caps : List (List Char)) (hm : 1 ≤ m) (hmn : m ≤ n)
    (hk : k (s.drop m) = some (rest, caps))
    (hfail : ∀ j, m < j → j ≤ n → k (s.drop j) = none) :
    backtrack k s n = some (rest, s.take m :: caps) := by
  induction n with
  | zero => omega
  | succ n ih =>
    by_cases heq : m = n + 1
    · subst heq
      simp only [backtrack, hk]
    · have h1 : k (s.drop (n + 1)) = none := hfail (n + 1) (by omega) (by omega)
      simp only [backtrack, h1]
      exact ih (by omega) (fun j hj hjn => hfail j hj (by omega))

theorem takeWhile_eq_self_of_all {p : Char → Bool} (s : List Char)
    (h : ∀ c ∈ s, p c = true) : s.takeWhile p = s := by
  induction s with
  | nil => rfl
  | cons x xs ih =>
    have hx : p x = true := h x (List.mem_cons_self x xs)
    simp only [List.takeWhile, hx]
    rw [ih (fun c hc => h c (List.mem_cons_of_mem x hc))]


theorem matchAt_lit_drop_none (c : Char) (re : List Atom) (s : List Char)
    (h : c ∉ s) (j : Nat) : matchAt (Atom.lit c :: re) (s.drop j) = none := by
  cases hd : s.drop j with
  | nil => rfl
  | cons x xs =>
    have hx : x ∈ s := List.mem_of_mem_drop (by rw [hd]; exact List.mem_cons_self x xs)
    have hne : x ≠ c := fun e => h (e ▸ hx)
    simp [matchAt, hne]

/-- With `(\S+):`, a text `R:T` without white space, with `R` non-empty and no `:`
in `T`, matches at its start, up to the last `:`, and captures `R`. -/
theorem matchAt_reRepoColon (R T : List Char) (hR : R ≠ [])
    (hRs : ∀ c ∈ R, notSpace c = true) (hTs : ∀ c ∈ T, notSpace c = true)
    (hT : ':' ∉ T) : matchAt reRepoColon (R ++ ':' :: T) = some (T, [R]) := by
  have hall : ∀ c ∈ R ++ ':' :: T, notSpace c = true := by
    intro c hc
    rcases List.mem_append.mp hc with h | h
    · exact hRs c h
    · rcases List.mem_cons.mp h with h | h
      · subst h; decide
      · exact hTs c h
  have hlen : 1 ≤ R.length := by
    cases R with
    | nil => exact absurd rfl hR
    | cons x xs => simp
  simp only [reRepoColon, matchAt, takeWhile_eq_self_of_all _ hall]
  have key := backtrack_found (fun t => matchAt [Atom.lit ':'] t) (R ++ ':' :: T) R.length
    (R ++ ':' :: T).length T [] hlen (by simp)
    (by simp [matchAt])
    (by
      intro j hj _
      have hd : (R ++ ':' :: T).drop j = T.drop (j - R.length - 1) := by
        rw [List.drop_append_eq_append_drop, List.drop_of_length_le (by omega)]
        have : j - R.length = (j - R.length - 1) + 1 := by omega
        rw [this]
        simp
      show matchAt [Atom.lit ':'] ((R ++ ':' :: T).drop j) = none
      rw [hd]
      exact matchAt_lit_drop_none ':' [] T hT _)
  simpa using key

theorem findFrom_reRepoColon (R T : List Char) (hR : R ≠ [])
    (hRs : ∀ c ∈ R, notSpace c = true) (hTs : ∀ c ∈ T, notSpace c = true)
    (hT : ':' ∉ T) : findFrom reRepoColon (R ++ ':' :: T) = some [R ++ [':'], R] := by
  have hm := matchAt_reRepoColon R T hR hRs hTs hT
  cases R with
  | nil => exact absurd rfl hR
  | cons x xs =>
    simp only [List.cons_append] at hm ⊢
    simp only [findFrom, hm]
    have hl : (x :: (xs ++ ':' :: T)).length - T.length = (x :: (xs ++ [':'])).length := by
      simp; omega
    rw [hl]
    have : x :: (xs ++ ':' :: T) = (x :: (xs ++ [':'])) ++ T := by simp
    rw [this, List.take_left]

/-- With `(\S+):`, a text with no `:` after its first character matches nowhere. -/
theorem matchAt_reRepoColon_none (s : List Char) (h : ':' ∉ s.tail) :
    matchAt reRepoColon s = none := by
  simp only [reRepoColon, matchAt]
  apply backtrack_none
  intro j hj _
  have hd : s.drop j = s.tail.drop (j - 1) := by
    have : j = (j - 1) + 1 := by omega
    rw [this, ← List.drop_drop]
    simp
  show matchAt [Atom.lit ':'] (s.drop j) = none
  rw [hd]
  exact matchAt_lit_drop_none ':' [] s.tail h _

theorem findFrom_reRepoColon_none (s : List Char) (h : ':' ∉ s.tail) :
    findFrom reRepoColon s = none := by
  induction s with
  | nil => simp [findFrom, matchAt_reRepoColon_none [] (by simp)]
  | cons x xs ih =>
    simp only [findFrom, matchAt_reRepoColon_none (x :: xs) h]
    apply ih
    intro hm
    exact h (List.mem_of_mem_tail hm)

/-! ## `UpdateTaskDefinitionImage` -/

theorem UpdateTaskDefinitionImage_ok (u : UFO) (w : World) (t : TaskDefinition)
    (c : ContainerDefinition) (cs : List ContainerDefinition) (a : Addr) (v repo : String)
    (ms : List String)
    (hc : t.ContainerDefinitions = c :: cs) (hp : c.Image = some a)
    (hm : FindStringSubmatch reRepoColon (w.heap.cell a) = some ms)
    (h1 : ms.get? 1 = some repo) :
    u.UpdateTaskDefinitionImage t v w
      = (.ok t, { w with heap := w.heap.write a (repo ++ ":" ++ v) }) := by
  rw [List.get?_eq_getElem?] at h1
  simp [UFO.UpdateTaskDefinitionImage, bind, Run.bind, index, hc, Run.pure, readStr, hp,
    liftExcept, hm, indexSubmatch, h1, writeStr, pure]

theorem UpdateTaskDefinitionImage_no_match (u : UFO) (w : World) (t : TaskDefinition)
    (c : ContainerDefinition) (cs : List ContainerDefinition) (a : Addr) (v : String)
    (hc : t.ContainerDefinitions = c :: cs) (hp : c.Image = some a)
    (hm : FindStringSubmatch reRepoColon (w.heap.cell a) = none) :
    u.UpdateTaskDefinitionImage t v w = (.error Panic.indexOutOfRange, w) := by
  simp [UFO.UpdateTaskDefinitionImage, bind, Run.bind, index, hc, Run.pure, readStr, hp,
    liftExcept, hm, indexSubmatch]

theorem backtrack_some (k : List Char → MatchResult) (s : List Char) (n : Nat)
    (rest : List Char) (caps : List (List Char)) (h : backtrack k s n = some (rest, caps)) :
    ∃ m caps1, 1 ≤ m ∧ m ≤ n ∧ k (s.drop m) = some (rest, caps1) ∧ caps = s.take m :: caps1 := by
  induction n with
  | zero => simp [backtrack] at h
  | succ n ih =>
    simp only [backtrack] at h
    cases hk : k (s.drop (n + 1)) with
    | none =>
      rw [hk] at h
      obtain ⟨m, caps1, h1, h2, h3, h4⟩ := ih h
      exact ⟨m, caps1, h1, by omega, h3, h4⟩
    | some r =>
      obtain ⟨r1, r2⟩ := r
      rw [hk] at h
      simp only [Option.some.injEq, Prod.mk.injEq] at h
      exact ⟨n + 1, r2, by omega, le_refl _, by rw [hk, h.1], h.2.symm⟩

theorem matchAt_reRepoColon_caps (s rest : List Char) (caps : List (List Char))
    (h : matchAt reRepoColon s = some (rest, caps)) : ∃ repo, caps = [repo] := by
  simp only [reRepoColon, matchAt] at h
  obtain ⟨m, caps1, _, _, hk, hcaps⟩ := backtrack_some _ _ _ _ _ h
  refine ⟨s.take m, ?_⟩
  have : caps1 = [] := by
    cases hd : s.drop m with
    | nil => simp [hd] at hk
    | cons x xs =>
      simp only [hd] at hk
      by_cases hx : x = ':'
      · simp [hx] at hk
        exact hk.2
      · simp [hx] at hk
  rw [hcaps, this]

theorem findFrom_reRepoColon_shape (s : List Char) (ms : List (List Char))
    (h : findFrom reRepoColon s = some ms) : ∃ whole repo, ms = [whole, repo] := by
  induction s with
  | nil =>
    have : matchAt reRepoColon [] = none := matchAt_reRepoColon_none [] (by simp)
    simp [findFrom, this] at h
  | cons x xs ih =>
    simp only [findFrom] at h
    cases hm : matchAt reRepoColon (x :: xs) with
    | none =>
      rw [hm] at h
      exact ih h
    | some r =>
      obtain ⟨rest, caps⟩ := r
      rw [hm] at h
      obtain ⟨repo, hrepo⟩ := matchAt_reRepoColon_caps _ _ _ hm
      simp only [Option.some.injEq] at h
      exact ⟨_, repo, by rw [← h, hrepo]⟩

theorem FindStringSubmatch_reRepoColon_shape (image : String) (hp : Parseable image) :
    ∃ whole repo, FindStringSubmatch reRepoColon image = some [whole, repo] := by
  unfold Parseable at hp
  cases hf : findFrom reRepoColon image.toList with
  | none =>
    unfold FindStringSubmatch at hp
    rw [hf] at hp
    exact absurd rfl hp
  | some ms =>
    obtain ⟨whole, repo, hms⟩ := findFrom_reRepoColon_shape _ _ hf
    exact ⟨String.mk whole, String.mk repo, by unfold FindStringSubmatch; rw [hf, hms]; rfl⟩

theorem toList_repo_colon_tag (R T : String) :
    (R ++ ":" ++ T).toList = R.toList ++ ':' :: T.toList := by
  simp [String.toList]

theorem FindStringSubmatch_reRepoColon (R T : String) (hR : R ≠ "")
    (hws : ∀ ch ∈ (R ++ ":" ++ T).toList, isSpace ch = false) (hT : ':' ∉ T.toList) :
    FindStringSubmatch reRepoColon (R ++ ":" ++ T) = some [R ++ ":", R] := by
  rw [toList_repo_colon_tag] at hws
  have hR1 : R.toList ≠ [] := by
    intro h
    apply hR
    cases R with
    | mk d => simp [String.toList] at h; subst h; rfl
  have h := findFrom_reRepoColon R.toList T.toList hR1
    (fun c hc => by simp [notSpace, hws c (List.mem_append_left _ hc)])
    (fun c hc => by
      simp [notSpace, hws c (List.mem_append_right _ (List.mem_cons_of_mem _ hc))])
    hT
  simp only [FindStringSubmatch, toList_repo_colon_tag, h]
  simp
  apply String.ext
  simp

/-! ## Frame facts: what a write to one cell leaves alone -/

theorem Heap.read_write_of_ne (h : Heap) (a : Addr) (s : String) (p : StrPtr)
    (hne : p ≠ some a) : (h.write a s).read p = h.read p := by
  cases p with
  | none => rfl
  | some b =>
    have hb : b ≠ a := fun e => hne (by rw [e])
    simp [Heap.read, Heap.write, hb]

theorem Heap.read_write_same (h : Heap) (a : Addr) (s : String) :
    (h.write a s).read (some a) = some s := by
  simp [Heap.read, Heap.write]

theorem map_read_write (h : Heap) (a : Addr) (s : String) (ps : List StrPtr)
    (hps : some a ∉ ps) : ps.map (h.write a s).read = ps.map h.read := by
  apply List.map_congr_left
  intro p hp
  exact Heap.read_write_of_ne h a s p (fun e => hps (e ▸ hp))

theorem ContainerDefinition.view_write_fields (h : Heap) (a : Addr) (s : String)
    (c : ContainerDefinition) (hc : some a ∉ c.pointersExceptImage) :
    (c.view (h.write a s)).Name = (c.view h).Name
      ∧ (c.view (h.write a s)).Command = (c.view h).Command
      ∧ (c.view (h.write a s)).Environment = (c.view h).Environment := by
  simp only [ContainerDefinition.pointersExceptImage, List.mem_cons, List.mem_append,
    List.mem_map, not_or, not_exists, not_and] at hc
  obtain ⟨hn, ⟨hcmd, henvn⟩, henvv⟩ := hc
  refine ⟨Heap.read_write_of_ne h a s _ (fun e => hn e.symm), ?_, ?_⟩
  · exact map_read_write h a s _ hcmd
  · simp only [ContainerDefinition.view]
    apply List.map_congr_left
    intro kv hkv
    rw [Heap.read_write_of_ne h a s _ (fun e => henvn kv hkv e),
      Heap.read_write_of_ne h a s _ (fun e => henvv kv hkv e)]

theorem ContainerDefinition.view_write_other (h : Heap) (a : Addr) (s : String)
    (c : ContainerDefinition) (hc : some a ∉ c.pointers) :
    c.view (h.write a s) = c.view h := by
  simp only [ContainerDefinition.pointers, List.mem_cons, not_or] at hc
  obtain ⟨h1, h2, h3⟩ := ContainerDefinition.view_write_fields h a s c hc.2
  have hi : (h.write a s).read c.Image = h.read c.Image :=
    Heap.read_write_of_ne h a s _ (fun e => hc.1 e.symm)
  simp only [ContainerDefinition.view] at h1 h2 h3 ⊢
  rw [h1, h2, h3, hi]

theorem ContainerDefinition.view_write_image (h : Heap) (a : Addr) (s : String)
    (c : ContainerDefinition) (hi : c.Image = some a) (hc : some a ∉ c.pointersExceptImage) :
    c.view (h.write a s) = { c.view h with Image := some s } := by
  obtain ⟨h1, h2, h3⟩ := ContainerDefinition.view_write_fields h a s c hc
  simp only [ContainerDefinition.view] at h1 h2 h3 ⊢
  rw [h1, h2, h3, hi, Heap.read_write_same]

theorem TaskDefinition.view_write_primary (h : Heap) (a : Addr) (s : String)
    (t : TaskDefinition) (c : ContainerDefinition) (cs : List ContainerDefinition)
    (hc : t.ContainerDefinitions = c :: cs) (hi : c.Image = some a)
    (hsep : some a ∉ t.otherPointers) :
    t.view (h.write a s) = (t.view h).setPrimaryImage s := by
  simp only [TaskDefinition.otherPointers, hc, List.mem_append, List.mem_cons, List.mem_map,
    List.mem_flatten, not_or, not_exists, not_and, List.mem_singleton, List.not_mem_nil,
    or_false] at hsep
  obtain ⟨⟨⟨⟨hprim, hrest⟩, hcpu, hfam, hmem, hnet, hexe, hrole, harn⟩, hvol⟩, hreq⟩ := hsep
  have hcs : cs.map (ContainerDefinition.view (h.write a s))
      = cs.map (ContainerDefinition.view h) := by
    apply List.map_congr_left
    intro c1 hc1
    exact ContainerDefinition.view_write_other h a s c1 (fun hm => hrest _ ⟨c1, hc1, rfl⟩ hm)
  have hv : t.Volumes.map (fun v => (h.write a s).read v.Name)
      = t.Volumes.map (fun v => h.read v.Name) := by
    apply List.map_congr_left
    intro v hv
    exact Heap.read_write_of_ne h a s _ (fun e => hvol v hv e)
  simp only [TaskDefinition.view, TaskDefinitionView.setPrimaryImage, hc, List.map_cons, hcs, hv,
    ContainerDefinition.view_write_image h a s c hi hprim,
    map_read_write h a s _ hreq,
    Heap.read_write_of_ne h a s _ (fun e => hcpu e.symm),
    Heap.read_write_of_ne h a s _ (fun e => hfam e.symm),
    Heap.read_write_of_ne h a s _ (fun e => hmem e.symm),
    Heap.read_write_of_ne h a s _ (fun e => hnet e.symm),
    Heap.read_write_of_ne h a s _ (fun e => hexe e.symm),
    Heap.read_write_of_ne h a s _ (fun e => hrole e.symm),
    Heap.read_write_of_ne h a s _ (fun e => harn e.symm)]

/-! ## Claims about `UpdateTaskDefinitionImage` -/

/-- C1: for every task definition with at least one container whose primary image
is a string `R:T` free of white space, with `R` non-empty and no `:` in `T` (so
that `R` is the part of the image before its last `:`), and for every version
`v`, `UpdateTaskDefinitionImage` returns a task definition whose primary image
is `R:v`. -/
theorem updateTaskDefinitionImage_primary_image (u : UFO) (w : World) (t : TaskDefinition)
    (c : ContainerDefinition) (cs : List ContainerDefinition) (a : Addr) (R T v : String)
    (hc : t.ContainerDefinitions = c :: cs) (hp : c.Image = some a)
    (himg : w.heap.cell a = R ++ ":" ++ T) (hR : R ≠ "")
    (hws : ∀ ch ∈ (R ++ ":" ++ T).toList, isSpace ch = false) (hT : ':' ∉ T.toList) :
    ∃ t1 w1, u.UpdateTaskDefinitionImage t v w = (.ok t1, w1)
      ∧ t1.primaryImage w1.heap = some (R ++ ":" ++ v) := by
  have hm : FindStringSubmatch reRepoColon (w.heap.cell a) = some [R ++ ":", R] := by
    rw [himg]
    exact FindStringSubmatch_reRepoColon R T hR hws hT
  refine ⟨t, _, UpdateTaskDefinitionImage_ok u w t c cs a v R _ hc hp hm rfl, ?_⟩
  simp only [TaskDefinition.primaryImage, hc, hp]
  exact Heap.read_write_same _ _ _

/-- Instance of C1: `acct.example/app:v1` rewritten to `v2`. -/
theorem updateTaskDefinitionImage_primary_image_witness :
    (worldOf ["acct.example/app:v1"]).heap.cell 0 = "acct.example/app" ++ ":" ++ "v1"
      ∧ "acct.example/app" ++ ":" ++ "v2" = "acct.example/app:v2"
      ∧ ∃ t1 w1, UFO.UpdateTaskDefinitionImage (testUFO failingECS)
            (taskDefinitionOf [containerWithImage (some 0)] none) "v2"
            (worldOf ["acct.example/app:v1"]) = (.ok t1, w1)
          ∧ t1.primaryImage w1.heap = some ("acct.example/app" ++ ":" ++ "v2") :=
  ⟨by decide, by decide,
    updateTaskDefinitionImage_primary_image (testUFO failingECS)
      (worldOf ["acct.example/app:v1"]) (taskDefinitionOf [containerWithImage (some 0)] none)
      (containerWithImage (some 0)) [] 0 "acct.example/app" "v1" "v2" rfl rfl (by decide)
      (by decide) (by decide) (by decide)⟩

/-- C2, evaluated where it fails: the caller passes a task definition whose
primary image is `acct.example/app:v1` and asks for `v2`.  The call returns the
same struct, and the string behind the caller's own `Image` pointer, hence the
deep value of the caller's task definition, is no longer what it was. -/
theorem updateTaskDefinitionImage_overwrites_input :
    (UFO.UpdateTaskDefinitionImage (testUFO failingECS)
        (taskDefinitionOf [containerWithImage (some 0)] none) "v2"
        (worldOf ["acct.example/app:v1"])).1
      = .ok (taskDefinitionOf [containerWithImage (some 0)] none)
    ∧ (taskDefinitionOf [containerWithImage (some 0)] none).primaryImage
        (worldOf ["acct.example/app:v1"]).heap = some "acct.example/app:v1"
    ∧ (taskDefinitionOf [containerWithImage (some 0)] none).primaryImage
        (UFO.UpdateTaskDefinitionImage (testUFO failingECS)
          (taskDefinitionOf [containerWithImage (some 0)] none) "v2"
          (worldOf ["acct.example/app:v1"])).2.heap = some "acct.example/app:v2"
    ∧ (taskDefinitionOf [containerWithImage (some 0)] none).view
        (UFO.UpdateTaskDefinitionImage (testUFO failingECS)
          (taskDefinitionOf [containerWithImage (some 0)] none) "v2"
          (worldOf ["acct.example/app:v1"])).2.heap
      ≠ (taskDefinitionOf [containerWithImage (some 0)] none).view
          (worldOf ["acct.example/app:v1"]).heap := by
  decide

/-- C3: for every task definition `t` whose primary image the pattern matches and
every version `v`, `UpdateTaskDefinitionImage` returns the struct `t` itself
(same containers in the same order, same pointers in every field), sends
nothing, and changes no string cell other than the one the primary container's
`Image` points to.  When that cell is not shared with another string field of
`t`, the deep value of the result is the deep value of `t` with only
`containers[0].image` replaced. -/
theorem updateTaskDefinitionImage_frame (u : UFO) (w : World) (t : TaskDefinition)
    (c : ContainerDefinition) (cs : List ContainerDefinition) (a : Addr) (v : String)
    (hc : t.ContainerDefinitions = c :: cs) (hp : c.Image = some a)
    (hparse : Parseable (w.heap.cell a)) :
    ∃ image w1, u.UpdateTaskDefinitionImage t v w = (.ok t, w1)
      ∧ w1.trace = w.trace
      ∧ (∀ b, b ≠ a → w1.heap.cell b = w.heap.cell b)
      ∧ (some a ∉ t.otherPointers → t.view w1.heap = (t.view w.heap).setPrimaryImage image) := by
  obtain ⟨whole, repo, hm⟩ := FindStringSubmatch_reRepoColon_shape _ hparse
  refine ⟨repo ++ ":" ++ v, _, UpdateTaskDefinitionImage_ok u w t c cs a v repo _ hc hp hm rfl,
    rfl, ?_, ?_⟩
  · intro b hb
    simp [Heap.write, hb]
  · intro hsep
    exact TaskDefinition.view_write_primary w.heap a _ t c cs hc hp hsep

/-- For a primary image with no `:` after its first character (no `:` at all, or
only a leading one) the pattern finds no match: `UpdateTaskDefinitionImage`
panics at the index, and leaves every string cell and the trace as they were. -/
theorem UpdateTaskDefinitionImage_no_colon (u : UFO) (w : World) (t : TaskDefinition)
    (c : ContainerDefinition) (cs : List ContainerDefinition) (a : Addr) (v : String)
    (hc : t.ContainerDefinitions = c :: cs) (hp : c.Image = some a)
    (hno : ':' ∉ (w.heap.cell a).toList.tail) :
    u.UpdateTaskDefinitionImage t v w = (.error Panic.indexOutOfRange, w) := by
  have hm : FindStringSubmatch reRepoColon (w.heap.cell a) = none := by
    unfold FindStringSubmatch
    rw [findFrom_reRepoColon_none _ hno]
    rfl
  exact UpdateTaskDefinitionImage_no_match u w t c cs a v hc hp hm

/-- C4, evaluated where it fails: on the primary image `acct.example/app`, which
has no `:`, and on `:tag`, from which no repository name can be read,
`UpdateTaskDefinitionImage` does not hand an error to its caller: the index into
the match that was not found panics.  Its caller
`RegisterTaskDefinitionWithImage`, which has an error result, panics with it. -/
theorem updateTaskDefinitionImage_no_colon_panics :
    (UFO.UpdateTaskDefinitionImage (testUFO failingECS)
        (taskDefinitionOf [containerWithImage (some 0)] none) "v2"
        (worldOf ["acct.example/app"])).1 = .error Panic.indexOutOfRange
    ∧ (UFO.UpdateTaskDefinitionImage (testUFO failingECS)
        (taskDefinitionOf [containerWithImage (some 0)] none) "v2"
        (worldOf [":tag"])).1 = .error Panic.indexOutOfRange
    ∧ (UFO.RegisterTaskDefinitionWithImage
        (testUFO (mockedECS (.error (GoError.sdk "unused")) (.error (GoError.sdk "unused"))
          (.ok { TaskDefinition := taskDefinitionOf [containerWithImage (some 0)] none })))
        testCluster (testService (some 1)) "v2"
        (worldOf ["acct.example/app"])).1 = .error Panic.indexOutOfRange := by
  decide

/-! ## `GetLastDeployedCommit` -/

theorem matchAt_reColonTag (T : List Char) (hT0 : T ≠ [])
    (hTs : ∀ c ∈ T, notSpace c = true) :
    matchAt reColonTag (':' :: T) = some ([], [T]) := by
  have hlen : 1 ≤ T.length := by
    cases T with
    | nil => exact absurd rfl hT0
    | cons x xs => simp
  simp only [reColonTag, matchAt, if_true, takeWhile_eq_self_of_all _ hTs]
  have key := backtrack_found (fun t => matchAt [] t) T T.length T.length [] [] hlen (le_refl _)
    (by simp [matchAt]) (by intro j hj hj2; omega)
  simpa using key

theorem findFrom_reColonTag (R T : List Char) (hR : ':' ∉ R) (hT0 : T ≠ [])
    (hTs : ∀ c ∈ T, notSpace c = true) :
    findFrom reColonTag (R ++ ':' :: T) = some [':' :: T, T] := by
  induction R with
  | nil =>
    simp [findFrom, matchAt_reColonTag T hT0 hTs]
  | cons x xs ih =>
    have hx : x ≠ ':' := fun e => hR (by simp [e])
    have hn : matchAt reColonTag (x :: (xs ++ ':' :: T)) = none := by
      simp [reColonTag, matchAt, hx]
    rw [List.cons_append, findFrom, hn]
    exact ih (fun h => hR (List.mem_cons_of_mem _ h))

theorem findFrom_reColonTag_none (s : List Char) (h : ':' ∉ s) :
    findFrom reColonTag s = none := by
  induction s with
  | nil => simp [findFrom, reColonTag, matchAt]
  | cons x xs ih =>
    have hx : x ≠ ':' := fun e => h (by simp [e])
    have hn : matchAt reColonTag (x :: xs) = none := by
      simp [reColonTag, matchAt, hx]
    simp only [findFrom, hn]
    exact ih (fun hm => h (List.mem_cons_of_mem _ hm))

theorem afterLastColon_repo_colon_tag (R T : String) (hT : ':' ∉ T.toList) :
    afterLastColon (R ++ ":" ++ T) = T := by
  unfold afterLastColon
  rw [toList_repo_colon_tag]
  have h1 : (R.toList ++ ':' :: T.toList).reverse = T.toList.reverse ++ ':' :: R.toList.reverse := by
    simp
  rw [h1, List.takeWhile_append_of_pos]
  · simp
  · intro ch hch
    have : ch ≠ ':' := fun e => hT (by rw [← e]; exact List.mem_reverse.mp hch)
    simp [this]

theorem GetLastDeployedCommit_ok (u : UFO) (w : World) (taskDefinition : String)
    (out : DescribeTaskDefinitionOutput) (c : ContainerDefinition)
    (cs : List ContainerDefinition) (a : Addr) (tag : String) (ms : List String)
    (hresp : u.ECS.DescribeTaskDefinition w.trace { TaskDefinition := some taskDefinition }
      = .ok out)
    (hc : out.TaskDefinition.ContainerDefinitions = c :: cs) (hp : c.Image = some a)
    (hm : FindStringSubmatch reColonTag (w.heap.cell a) = some ms)
    (h1 : ms.get? 1 = some tag) :
    u.GetLastDeployedCommit taskDefinition w
      = (.ok (tag, none), { w with trace := w.trace ++
          [Event.DescribeTaskDefinition { TaskDefinition := some taskDefinition }] }) := by
  rw [List.get?_eq_getElem?] at h1
  simp [UFO.GetLastDeployedCommit, bind, Run.bind, call, hresp, hc, index, Run.pure, readStr, hp,
    liftExcept, hm, indexSubmatch, h1, pure]

theorem GetLastDeployedCommit_no_match (u : UFO) (w : World) (taskDefinition : String)
    (out : DescribeTaskDefinitionOutput) (c : ContainerDefinition)
    (cs : List ContainerDefinition) (a : Addr)
    (hresp : u.ECS.DescribeTaskDefinition w.trace { TaskDefinition := some taskDefinition }
      = .ok out)
    (hc : out.TaskDefinition.ContainerDefinitions = c :: cs) (hp : c.Image = some a)
    (hm : FindStringSubmatch reColonTag (w.heap.cell a) = none) :
    u.GetLastDeployedCommit taskDefinition w
      = (.error Panic.indexOutOfRange, { w with trace := w.trace ++
          [Event.DescribeTaskDefinition { TaskDefinition := some taskDefinition }] }) := by
  simp [UFO.GetLastDeployedCommit, bind, Run.bind, call, hresp, hc, index, Run.pure, readStr, hp,
    liftExcept, hm, indexSubmatch]

theorem FindStringSubmatch_reColonTag (R T : String) (hR : ':' ∉ R.toList) (hT0 : T ≠ "")
    (hTs : ∀ ch ∈ T.toList, isSpace ch = false) :
    FindStringSubmatch reColonTag (R ++ ":" ++ T) = some [":" ++ T, T] := by
  have hT1 : T.toList ≠ [] := by
    intro h
    apply hT0
    cases T with
    | mk d => simp [String.toList] at h; subst h; rfl
  have h := findFrom_reColonTag R.toList T.toList hR hT1
    (fun c hc => by simp [notSpace, hTs c hc])
  simp only [FindStringSubmatch, toList_repo_colon_tag, h]
  simp
  apply String.ext
  simp

/-- C5, evaluated where it fails: the primary image is `localhost:5000/app:v1`, a
repository on a registry with a port, tagged `v1`.  The substring after its last
`:` is `v1`; `GetLastDeployedCommit` returns `5000/app:v1`, the substring after
its first `:`. -/
theorem getLastDeployedCommit_not_after_last_colon :
    (UFO.GetLastDeployedCommit
        (testUFO (mockedECS (.error (GoError.sdk "unused")) (.error (GoError.sdk "unused"))
          (.ok { TaskDefinition := taskDefinitionOf [containerWithImage (some 0)] none })))
        "taskdef" (worldOf ["localhost:5000/app:v1"])).1 = .ok ("5000/app:v1", none)
    ∧ afterLastColon ((worldOf ["localhost:5000/app:v1"]).heap.cell 0) = "v1"
    ∧ "5000/app:v1" ≠ afterLastColon ((worldOf ["localhost:5000/app:v1"]).heap.cell 0) := by
  decide

/-- C5 as amended: when `DescribeTaskDefinition` succeeds and the primary container
of the task definition it returns holds an image `R:T`, where `R` is the text
before the first `:` and `T`, the text after it, is non-empty and without white
space, `GetLastDeployedCommit` returns `T`, the substring of the image after its
first `:`, together with a nil error.  When `T` has no further `:`, this is the
substring after the last `:` of the image. -/
theorem getLastDeployedCommit_after_first_colon (u : UFO) (w : World)
    (taskDefinition : String) (out : DescribeTaskDefinitionOutput) (c : ContainerDefinition)
    (cs : List ContainerDefinition) (a : Addr) (R T : String)
    (hresp : u.ECS.DescribeTaskDefinition w.trace { TaskDefinition := some taskDefinition }
      = .ok out)
    (hc : out.TaskDefinition.ContainerDefinitions = c :: cs) (hp : c.Image = some a)
    (himg : w.heap.cell a = R ++ ":" ++ T) (hR : ':' ∉ R.toList) (hT0 : T ≠ "")
    (hTs : ∀ ch ∈ T.toList, isSpace ch = false) :
    (u.GetLastDeployedCommit taskDefinition w).1 = .ok (T, none)
      ∧ (':' ∉ T.toList → afterLastColon (w.heap.cell a) = T) := by
  have hm : FindStringSubmatch reColonTag (w.heap.cell a) = some [":" ++ T, T] := by
    rw [himg]
    exact FindStringSubmatch_reColonTag R T hR hT0 hTs
  rw [GetLastDeployedCommit_ok u w taskDefinition out c cs a T _ hresp hc hp hm rfl]
  refine ⟨rfl, fun hT => ?_⟩
  rw [himg]
  exact afterLastColon_repo_colon_tag R T hT

/-- Instance of the amended C5: the image of `TestUFOGetLastDeployedCommit`, whose
only `:` stands before the tag `ea13366`. -/
theorem getLastDeployedCommit_after_first_colon_witness :
    (worldOf ["111222333444.dkr.ecr.us-west-1.amazonaws.com/image:ea13366"]).heap.cell 0
        = "111222333444.dkr.ecr.us-west-1.amazonaws.com/image" ++ ":" ++ "ea13366"
      ∧ (UFO.GetLastDeployedCommit
          (testUFO (mockedECS (.error (GoError.sdk "unused")) (.error (GoError.sdk "unused"))
            (.ok { TaskDefinition := taskDefinitionOf [containerWithImage (some 0)] none })))
          "test-taskdefinitionarn"
          (worldOf ["111222333444.dkr.ecr.us-west-1.amazonaws.com/image:ea13366"])).1
        = .ok ("ea13366", none)
      ∧ (':' ∉ "ea13366".toList → afterLastColon ((worldOf
            ["111222333444.dkr.ecr.us-west-1.amazonaws.com/image:ea13366"]).heap.cell 0)
        = "ea13366") :=
  ⟨by decide,
    getLastDeployedCommit_after_first_colon
      (testUFO (mockedECS (.error (GoError.sdk "unused")) (.error (GoError.sdk "unused"))
        (.ok { TaskDefinition := taskDefinitionOf [containerWithImage (some 0)] none })))
      (worldOf ["111222333444.dkr.ecr.us-west-1.amazonaws.com/image:ea13366"])
      "test-taskdefinitionarn"
      { TaskDefinition := taskDefinitionOf [containerWithImage (some 0)] none }
      (containerWithImage (some 0)) [] 0
      "111222333444.dkr.ecr.us-west-1.amazonaws.com/image" "ea13366"
      rfl rfl rfl (by decide) (by decide) (by decide) (by decide)⟩

/-- C6, evaluated where it fails: `DescribeTaskDefinition` succeeds with a task
definition whose primary image `acct.example/app` has no `:`.  The request was
sent, and the call then panics; no error value reaches the caller. -/
theorem getLastDeployedCommit_no_colon_panics :
    UFO.GetLastDeployedCommit
        (testUFO (mockedECS (.error (GoError.sdk "unused")) (.error (GoError.sdk "unused"))
          (.ok { TaskDefinition := taskDefinitionOf [containerWithImage (some 0)] none })))
        "taskdef" (worldOf ["acct.example/app"])
      = (.error Panic.indexOutOfRange,
          { heap := heapOf ["acct.example/app"],
            trace := [Event.DescribeTaskDefinition { TaskDefinition := some "taskdef" }] }) := by
  exact GetLastDeployedCommit_no_match _ _ _ _ (containerWithImage (some 0)) [] 0 rfl rfl rfl
    (by decide)

/-! ## `IsServiceRunning` -/

/-- The `ListTasks` request that `RunningTasks` sends. -/
theorem RunningTasks_ok (u : UFO) (w : World) (c : Cluster) (s : Service)
    (out : ListTasksOutput)
    (hlist : u.ECS.ListTasks w.trace
      { Cluster := c.ClusterName, ServiceName := s.ServiceName, DesiredStatus := some "RUNNING" }
      = .ok out) :
    u.RunningTasks c s w
      = (.ok (out.TaskArns, none), { w with trace := w.trace ++ [Event.ListTasks
          { Cluster := c.ClusterName, ServiceName := s.ServiceName,
            DesiredStatus := some "RUNNING" }] }) := by
  simp [UFO.RunningTasks, bind, Run.bind, call, hlist, pure, Run.pure]

theorem RunningTasks_error (u : UFO) (w : World) (c : Cluster) (s : Service) (e : GoError)
    (lg : Logger) (hl : u.l = some lg)
    (hlist : u.ECS.ListTasks w.trace
      { Cluster := c.ClusterName, ServiceName := s.ServiceName, DesiredStatus := some "RUNNING" }
      = .error e) :
    u.RunningTasks c s w
      = (.ok ([], some GoError.ErrFailedToListRunningTasks),
          { w with trace := w.trace ++ [Event.ListTasks
            { Cluster := c.ClusterName, ServiceName := s.ServiceName,
              DesiredStatus := some "RUNNING" }, Event.logError e] }) := by
  simp [UFO.RunningTasks, bind, Run.bind, call, hlist, pure, Run.pure, UFO.logError, hl]

/-- Without a logger the failure of `ListTasks` ends in the panic of `logError`. -/
theorem RunningTasks_error_no_logger (u : UFO) (w : World) (c : Cluster) (s : Service)
    (e : GoError) (hl : u.l = none)
    (hlist : u.ECS.ListTasks w.trace
      { Cluster := c.ClusterName, ServiceName := s.ServiceName, DesiredStatus := some "RUNNING" }
      = .error e) :
    u.RunningTasks c s w
      = (.error Panic.nilDereference,
          { w with trace := w.trace ++ [Event.ListTasks
            { Cluster := c.ClusterName, ServiceName := s.ServiceName,
              DesiredStatus := some "RUNNING" }] }) := by
  simp [UFO.RunningTasks, bind, Run.bind, call, hlist, pure, Run.pure, UFO.logError, hl]

theorem GetTasks_ok (u : UFO) (w : World) (c : Cluster) (arns : List (Option String))
    (out : DescribeTasksOutput)
    (hdesc : u.ECS.DescribeTasks w.trace { Cluster := c.ClusterName, Tasks := arns } = .ok out) :
    u.GetTasks c arns w
      = (.ok (out.Tasks, none), { w with trace := w.trace ++ [Event.DescribeTasks
          { Cluster := c.ClusterName, Tasks := arns }] }) := by
  simp [UFO.GetTasks, bind, Run.bind, call, hdesc, pure, Run.pure]

theorem GetTasks_error (u : UFO) (w : World) (c : Cluster) (arns : List (Option String))
    (e : GoError) (lg : Logger) (hl : u.l = some lg)
    (hdesc : u.ECS.DescribeTasks w.trace { Cluster := c.ClusterName, Tasks := arns }
      = .error e) :
    u.GetTasks c arns w
      = (.ok ([], some GoError.ErrCouldNotRetrieveTasks),
          { w with trace := w.trace ++ [Event.DescribeTasks
            { Cluster := c.ClusterName, Tasks := arns }, Event.logError e] }) := by
  simp [UFO.GetTasks, bind, Run.bind, call, hdesc, pure, Run.pure, UFO.logError, hl]

/-- Without a logger the failure of `DescribeTasks` ends in the panic of `logError`. -/
theorem GetTasks_error_no_logger (u : UFO) (w : World) (c : Cluster)
    (arns : List (Option String)) (e : GoError) (hl : u.l = none)
    (hdesc : u.ECS.DescribeTasks w.trace { Cluster := c.ClusterName, Tasks := arns }
      = .error e) :
    u.GetTasks c arns w
      = (.error Panic.nilDereference,
          { w with trace := w.trace ++ [Event.DescribeTasks
            { Cluster := c.ClusterName, Tasks := arns }] }) := by
  simp [UFO.GetTasks, bind, Run.bind, call, hdesc, pure, Run.pure, UFO.logError, hl]

/-- The loop finds a task on the target definition with status `RUNNING` when
there is one and every task of the response carries both fields. -/
theorem scanTasks_found (t : TaskDefinition) (b : Addr) (w : World) (tasks : List Task)
    (htarget : t.TaskDefinitionArn = some b)
    (hall : ∀ task ∈ tasks, task.TaskDefinitionArn ≠ none ∧ task.LastStatus ≠ none)
    (hex : ∃ task ∈ tasks, task.TaskDefinitionArn = some (w.heap.cell b)
      ∧ task.LastStatus = some "RUNNING") :
    scanTasks t tasks w = (.ok true, w) := by
  induction tasks with
  | nil => simp at hex
  | cons task rest ih =>
    obtain ⟨harn, hst⟩ := hall task (List.mem_cons_self _ _)
    obtain ⟨arn, harn1⟩ := Option.ne_none_iff_exists'.mp harn
    obtain ⟨st, hst1⟩ := Option.ne_none_iff_exists'.mp hst
    by_cases hmatch : arn = w.heap.cell b ∧ st = "RUNNING"
    · simp [scanTasks, bind, Run.bind, deref, harn1, hst1, readStr, htarget, Run.pure,
        hmatch.1, hmatch.2, pure]
    · have hrest : scanTasks t rest w = (.ok true, w) := by
        apply ih (fun x hx => hall x (List.mem_cons_of_mem _ hx))
        obtain ⟨x, hx, hx1, hx2⟩ := hex
        rcases List.mem_cons.mp hx with h | h
        · subst h
          rw [harn1] at hx1
          rw [hst1] at hx2
          exact absurd ⟨Option.some.inj hx1, Option.some.inj hx2⟩ hmatch
        · exact ⟨x, h, hx1, hx2⟩
      by_cases h1 : arn = w.heap.cell b
      · have h2 : st ≠ "RUNNING" := fun e => hmatch ⟨h1, e⟩
        simp [scanTasks, bind, Run.bind, deref, harn1, hst1, readStr, htarget, Run.pure,
          h1, h2, hrest]
      · simp [scanTasks, bind, Run.bind, deref, harn1, readStr, htarget, Run.pure, h1, hrest]

/-- The loop answers `true` only on a task on the target definition whose status
is `RUNNING`; it changes nothing. -/
theorem scanTasks_true (t : TaskDefinition) (w w1 : World) (tasks : List Task)
    (h : scanTasks t tasks w = (.ok true, w1)) :
    w1 = w ∧ ∃ b, t.TaskDefinitionArn = some b ∧ ∃ task ∈ tasks,
      task.TaskDefinitionArn = some (w.heap.cell b) ∧ task.LastStatus = some "RUNNING" := by
  induction tasks with
  | nil => simp [scanTasks, pure, Run.pure] at h
  | cons task rest ih =>
    have lift : (w1 = w ∧ ∃ b, t.TaskDefinitionArn = some b ∧ ∃ x ∈ rest,
        x.TaskDefinitionArn = some (w.heap.cell b) ∧ x.LastStatus = some "RUNNING") →
        (w1 = w ∧ ∃ b, t.TaskDefinitionArn = some b ∧ ∃ x ∈ task :: rest,
        x.TaskDefinitionArn = some (w.heap.cell b) ∧ x.LastStatus = some "RUNNING") := by
      rintro ⟨e, b, hb, x, hx, hx1, hx2⟩
      exact ⟨e, b, hb, x, List.mem_cons_of_mem _ hx, hx1, hx2⟩
    cases harn : task.TaskDefinitionArn with
    | none => simp [scanTasks, bind, Run.bind, deref, harn, Run.panic] at h
    | some arn =>
      cases htarget : t.TaskDefinitionArn with
      | none => simp [scanTasks, bind, Run.bind, deref, harn, Run.pure, readStr, htarget] at h
      | some b =>
        by_cases h1 : arn = w.heap.cell b
        · cases hst : task.LastStatus with
          | none =>
            simp [scanTasks, bind, Run.bind, deref, harn, Run.pure, readStr, htarget, h1, hst,
              Run.panic] at h
          | some st =>
            by_cases h2 : st = "RUNNING"
            · simp [scanTasks, bind, Run.bind, deref, harn, Run.pure, readStr, htarget, h1, hst,
                h2, pure] at h
              exact ⟨h.symm, b, rfl, task, List.mem_cons_self _ _, by rw [harn, h1],
                by rw [hst, h2]⟩
            · simp [scanTasks, bind, Run.bind, deref, harn, Run.pure, readStr, htarget, h1, hst,
                h2] at h
              have := lift (ih h)
              rwa [htarget] at this
        · simp [scanTasks, bind, Run.bind, deref, harn, Run.pure, readStr, htarget, h1] at h
          have := lift (ih h)
          rwa [htarget] at this

/-- C7: for every cluster, service and target task definition, if the desired
count of the service is 0 or negative, `IsServiceRunning` returns `(false, nil)`,
its answer for "no desired capacity", and leaves the world as it was: neither
`ListTasks` nor `DescribeTasks` is sent (the trace is unchanged). -/
theorem isServiceRunning_no_desired_capacity (u : UFO) (w : World) (c : Cluster) (s : Service)
    (t : TaskDefinition) (n : Int) (hn : s.DesiredCount = some n) (h0 : n ≤ 0) :
    u.IsServiceRunning c s t w = (.ok (false, none), w) := by
  simp [UFO.IsServiceRunning, bind, Run.bind, deref, hn, Run.pure, h0, pure]

/-- C8: for every service with desired count above 0, if `ListTasks` succeeds with
an empty list of task ARNs, `IsServiceRunning` returns `(false, nil)`, and the
only thing it did is that one `ListTasks` request: `DescribeTasks` is not
called. -/
theorem isServiceRunning_no_running_tasks (u : UFO) (w : World) (c : Cluster) (s : Service)
    (t : TaskDefinition) (n : Int) (out : ListTasksOutput)
    (hn : s.DesiredCount = some n) (hpos : 0 < n)
    (hlist : u.ECS.ListTasks w.trace
      { Cluster := c.ClusterName, ServiceName := s.ServiceName, DesiredStatus := some "RUNNING" }
      = .ok out)
    (hempty : out.TaskArns = []) :
    u.IsServiceRunning c s t w
      = (.ok (false, none), { w with trace := w.trace ++ [Event.ListTasks
          { Cluster := c.ClusterName, ServiceName := s.ServiceName,
            DesiredStatus := some "RUNNING" }] }) := by
  have h0 : ¬ n ≤ 0 := by omega
  simp [UFO.IsServiceRunning, bind, Run.bind, deref, hn, Run.pure, h0, pure,
    RunningTasks_ok u w c s out hlist, hempty]

/-- C9: for every service with desired count above 0 and every non-empty list of
running tasks, if the `DescribeTasks` response (whose tasks all carry a
task-definition ARN and a last status) contains a task whose task-definition ARN
is the target ARN and whose last status is `RUNNING`, then `IsServiceRunning`
returns `(true, nil)`, wherever that task stands in the response and whatever
the other tasks are. -/
theorem isServiceRunning_converged (u : UFO) (w : World) (c : Cluster) (s : Service)
    (t : TaskDefinition) (n : Int) (lout : ListTasksOutput) (dout : DescribeTasksOutput)
    (b : Addr)
    (hn : s.DesiredCount = some n) (hpos : 0 < n)
    (hlist : u.ECS.ListTasks w.trace
      { Cluster := c.ClusterName, ServiceName := s.ServiceName, DesiredStatus := some "RUNNING" }
      = .ok lout)
    (hne : lout.TaskArns ≠ [])
    (hdesc : u.ECS.DescribeTasks (w.trace ++ [Event.ListTasks
        { Cluster := c.ClusterName, ServiceName := s.ServiceName,
          DesiredStatus := some "RUNNING" }])
      { Cluster := c.ClusterName, Tasks := lout.TaskArns } = .ok dout)
    (htarget : t.TaskDefinitionArn = some b)
    (hall : ∀ task ∈ dout.Tasks, task.TaskDefinitionArn ≠ none ∧ task.LastStatus ≠ none)
    (hex : ∃ task ∈ dout.Tasks, task.TaskDefinitionArn = some (w.heap.cell b)
      ∧ task.LastStatus = some "RUNNING") :
    u.IsServiceRunning c s t w
      = (.ok (true, none), { w with trace := w.trace ++ [Event.ListTasks
          { Cluster := c.ClusterName, ServiceName := s.ServiceName,
            DesiredStatus := some "RUNNING" },
          Event.DescribeTasks { Cluster := c.ClusterName, Tasks := lout.TaskArns }] }) := by
  have h0 : ¬ n ≤ 0 := by omega
  have hlen : ¬ lout.TaskArns.length ≤ 0 := by
    cases hl : lout.TaskArns with
    | nil => exact absurd hl hne
    | cons x xs => simp
  have hg := GetTasks_ok u { w with trace := w.trace ++ [Event.ListTasks
      { Cluster := c.ClusterName, ServiceName := s.ServiceName,
        DesiredStatus := some "RUNNING" }] } c lout.TaskArns dout hdesc
  have hs := scanTasks_found t b { w with trace := w.trace ++ [Event.ListTasks
      { Cluster := c.ClusterName, ServiceName := s.ServiceName,
        DesiredStatus := some "RUNNING" }] ++ [Event.DescribeTasks
      { Cluster := c.ClusterName, Tasks := lout.TaskArns }] } dout.Tasks htarget hall hex
  simp only [UFO.IsServiceRunning, bind, Run.bind, deref, hn, Run.pure, h0, pure,
    RunningTasks_ok u w c s lout hlist, hlen, hg, hs, if_false, if_true]
  simp

/-- C10: `IsServiceRunning` has no false positive.  Whenever it returns `true`, the
error is nil, the desired count is above 0, `ListTasks` succeeded with a
non-empty list, `DescribeTasks` succeeded for exactly that list, and its
response contains a task whose task-definition ARN is the target ARN and whose
last status is exactly `RUNNING`.  Hence a response in which no task is both on
the target definition and `RUNNING` (a `PENDING` task on the target, a running
task on the previous definition) never yields `true`. -/
theorem isServiceRunning_true_sound (u : UFO) (w w1 : World) (c : Cluster) (s : Service)
    (t : TaskDefinition) (e : Option GoError)
    (h : u.IsServiceRunning c s t w = (.ok (true, e), w1)) :
    e = none ∧ ∃ n, s.DesiredCount = some n ∧ 0 < n ∧
      ∃ lout, u.ECS.ListTasks w.trace
          { Cluster := c.ClusterName, ServiceName := s.ServiceName,
            DesiredStatus := some "RUNNING" } = .ok lout
        ∧ lout.TaskArns ≠ [] ∧
      ∃ dout, u.ECS.DescribeTasks (w.trace ++ [Event.ListTasks
            { Cluster := c.ClusterName, ServiceName := s.ServiceName,
              DesiredStatus := some "RUNNING" }])
          { Cluster := c.ClusterName, Tasks := lout.TaskArns } = .ok dout ∧
      ∃ b, t.TaskDefinitionArn = some b ∧
      ∃ task ∈ dout.Tasks, task.TaskDefinitionArn = some (w.heap.cell b)
        ∧ task.LastStatus = some "RUNNING" := by
  cases hn : s.DesiredCount with
  | none => simp [UFO.IsServiceRunning, bind, Run.bind, deref, hn, Run.panic] at h
  | some n =>
    by_cases h0 : n ≤ 0
    · simp [UFO.IsServiceRunning, bind, Run.bind, deref, hn, Run.pure, h0, pure] at h
    · cases hlist : u.ECS.ListTasks w.trace
          { Cluster := c.ClusterName, ServiceName := s.ServiceName,
            DesiredStatus := some "RUNNING" } with
      | error err =>
        cases hl : u.l with
        | none =>
          simp [UFO.IsServiceRunning, bind, Run.bind, deref, hn, Run.pure, h0, pure,
            RunningTasks_error_no_logger u w c s err hl hlist] at h
        | some lg =>
          simp [UFO.IsServiceRunning, bind, Run.bind, deref, hn, Run.pure, h0, pure,
            RunningTasks_error u w c s err lg hl hlist, UFO.logError, hl] at h
      | ok lout =>
        by_cases hlen : lout.TaskArns.length ≤ 0
        · simp [UFO.IsServiceRunning, bind, Run.bind, deref, hn, Run.pure, h0, pure,
            RunningTasks_ok u w c s lout hlist, hlen] at h
        · have hne : lout.TaskArns ≠ [] := by
            intro hnil
            rw [hnil] at hlen
            simp at hlen
          cases hdesc : u.ECS.DescribeTasks (w.trace ++ [Event.ListTasks
                { Cluster := c.ClusterName, ServiceName := s.ServiceName,
                  DesiredStatus := some "RUNNING" }])
              { Cluster := c.ClusterName, Tasks := lout.TaskArns } with
          | error err =>
            cases hl : u.l with
            | none =>
              have hg := GetTasks_error_no_logger u { w with trace := w.trace ++ [Event.ListTasks
                { Cluster := c.ClusterName, ServiceName := s.ServiceName,
                  DesiredStatus := some "RUNNING" }] } c lout.TaskArns err hl hdesc
              simp [UFO.IsServiceRunning, bind, Run.bind, deref, hn, Run.pure, h0, pure,
                RunningTasks_ok u w c s lout hlist, hlen, hg] at h
            | some lg =>
              have hg := GetTasks_error u { w with trace := w.trace ++ [Event.ListTasks
                { Cluster := c.ClusterName, ServiceName := s.ServiceName,
                  DesiredStatus := some "RUNNING" }] } c lout.TaskArns err lg hl hdesc
              simp [UFO.IsServiceRunning, bind, Run.bind, deref, hn, Run.pure, h0, pure,
                RunningTasks_ok u w c s lout hlist, hlen, hg, UFO.logError, hl] at h
          | ok dout =>
            have hg := GetTasks_ok u { w with trace := w.trace ++ [Event.ListTasks
              { Cluster := c.ClusterName, ServiceName := s.ServiceName,
                DesiredStatus := some "RUNNING" }] } c lout.TaskArns dout hdesc
            simp only [UFO.IsServiceRunning, bind, Run.bind, deref, hn, Run.pure, h0, pure,
              RunningTasks_ok u w c s lout hlist, hlen, hg, if_false] at h
            cases hs : scanTasks t dout.Tasks { heap := w.heap, trace := w.trace ++ [Event.ListTasks
                { Cluster := c.ClusterName, ServiceName := s.ServiceName,
                  DesiredStatus := some "RUNNING" }] ++ [Event.DescribeTasks
                { Cluster := c.ClusterName, Tasks := lout.TaskArns }] } with
            | mk r w2 =>
              rw [hs] at h
              cases r with
              | error p => simp at h
              | ok found =>
                cases found with
                | false => simp [Run.pure] at h
                | true =>
                  simp [Run.pure] at h
                  obtain ⟨_, b, hb, task, htask, h1, h2⟩ := scanTasks_true t _ _ _ hs
                  exact ⟨h.1.symm, n, rfl, by omega, lout, rfl, hne, dout, hdesc, b, hb, task,
                    htask, h1, h2⟩

/-! ## Instances -/

/-- Instance of C3: a task definition with two containers and a family, each
string in its own cell; the primary image `acct.example/app:v1` is matched by
the pattern. -/
theorem updateTaskDefinitionImage_frame_witness :
    Parseable ((worldOf ["acct.example/app:v1", "app", "sidecar:1", "family1"]).heap.cell 0)
      ∧ ∃ image w1, UFO.UpdateTaskDefinitionImage (testUFO failingECS)
            twoContainerTaskDefinition "v2"
            (worldOf ["acct.example/app:v1", "app", "sidecar:1", "family1"])
          = (.ok twoContainerTaskDefinition, w1)
        ∧ w1.trace = (worldOf ["acct.example/app:v1", "app", "sidecar:1", "family1"]).trace
        ∧ (∀ b, b ≠ 0 → w1.heap.cell b
            = (worldOf ["acct.example/app:v1", "app", "sidecar:1", "family1"]).heap.cell b)
        ∧ (some 0 ∉ twoContainerTaskDefinition.otherPointers →
            twoContainerTaskDefinition.view w1.heap
              = (twoContainerTaskDefinition.view
                  (worldOf ["acct.example/app:v1", "app", "sidecar:1", "family1"]).heap
                ).setPrimaryImage image) :=
  ⟨by decide,
    updateTaskDefinitionImage_frame (testUFO failingECS)
      (worldOf ["acct.example/app:v1", "app", "sidecar:1", "family1"])
      twoContainerTaskDefinition _ _ 0 "v2" rfl rfl (by decide)⟩

/-- The deep value of `twoContainerTaskDefinition` after rewriting to `v2`: only
the primary image differs from the deep value before. -/
theorem updateTaskDefinitionImage_two_containers :
    some 0 ∉ twoContainerTaskDefinition.otherPointers
      ∧ twoContainerTaskDefinition.view
          (UFO.UpdateTaskDefinitionImage (testUFO failingECS) twoContainerTaskDefinition "v2"
            (worldOf ["acct.example/app:v1", "app", "sidecar:1", "family1"])).2.heap
        = (twoContainerTaskDefinition.view
            (worldOf ["acct.example/app:v1", "app", "sidecar:1", "family1"]).heap
          ).setPrimaryImage "acct.example/app:v2" := by
  decide

/-- When a second container shares the string cell of the primary image, the
write through the primary `Image` pointer shows in both containers. -/
theorem updateTaskDefinitionImage_shared_cell :
    (taskDefinitionOf [containerWithImage (some 0), containerWithImage (some 0)] none).view
        (UFO.UpdateTaskDefinitionImage (testUFO failingECS)
          (taskDefinitionOf [containerWithImage (some 0), containerWithImage (some 0)] none)
          "v2" (worldOf ["acct.example/app:v1"])).2.heap
      = (taskDefinitionOf [containerWithImage (some 0), containerWithImage (some 0)] none).view
          (worldOf ["acct.example/app:v2"]).heap := by
  decide

/-- Instance of C7: the fourth case of `TestUFOIsServiceRunning`, desired count 0. -/
theorem isServiceRunning_no_desired_capacity_witness :
    (0 : Int) ≤ 0
      ∧ UFO.IsServiceRunning (testUFO convergedECS) testCluster (testService (some 0))
          (taskDefinitionOf [] (some 0)) (worldOf ["taskdefarn"])
        = (.ok (false, none), worldOf ["taskdefarn"]) :=
  ⟨by decide,
    isServiceRunning_no_desired_capacity (testUFO convergedECS) (worldOf ["taskdefarn"])
      testCluster (testService (some 0)) (taskDefinitionOf [] (some 0)) 0 rfl (by decide)⟩

/-- Instance of C8: the second case of `TestUFOIsServiceRunning`, desired count 2
and an empty list of running tasks. -/
theorem isServiceRunning_no_running_tasks_witness :
    (0 : Int) < 2
      ∧ UFO.IsServiceRunning (testUFO emptyListECS) testCluster (testService (some 2))
          (taskDefinitionOf [] (some 0)) (worldOf ["taskdefarn"])
        = (.ok (false, none),
            { (worldOf ["taskdefarn"]) with
              trace := (worldOf ["taskdefarn"]).trace ++ [Event.ListTasks
                { Cluster := testCluster.ClusterName,
                  ServiceName := (testService (some 2)).ServiceName,
                  DesiredStatus := some "RUNNING" }] }) :=
  ⟨by decide,
    isServiceRunning_no_running_tasks (testUFO emptyListECS) (worldOf ["taskdefarn"])
      testCluster (testService (some 2)) (taskDefinitionOf [] (some 0)) 2
      { TaskArns := [] } rfl (by decide) rfl rfl⟩

/-- Instance of C9: desired count 2, two running tasks listed, and a response in
which the running task on the target definition comes after a running task on
the previous definition and a pending task on the target definition. -/
theorem isServiceRunning_converged_witness :
    (0 : Int) < 2
      ∧ UFO.IsServiceRunning (testUFO convergedECS) testCluster (testService (some 2))
          (taskDefinitionOf [] (some 0)) (worldOf ["taskdefarn"])
        = (.ok (true, none),
            { (worldOf ["taskdefarn"]) with
              trace := (worldOf ["taskdefarn"]).trace ++ [Event.ListTasks
                { Cluster := testCluster.ClusterName,
                  ServiceName := (testService (some 2)).ServiceName,
                  DesiredStatus := some "RUNNING" },
                Event.DescribeTasks
                  { Cluster := testCluster.ClusterName,
                    Tasks := [some "task1", some "task2"] }] }) :=
  ⟨by decide,
    isServiceRunning_converged (testUFO convergedECS) (worldOf ["taskdefarn"])
      testCluster (testService (some 2)) (taskDefinitionOf [] (some 0)) 2
      { TaskArns := [some "task1", some "task2"] }
      { Tasks :=
        [{ TaskDefinitionArn := some "previous-taskdefarn", LastStatus := some "RUNNING" },
         { TaskDefinitionArn := some "taskdefarn", LastStatus := some "PENDING" },
         { TaskDefinitionArn := some "taskdefarn", LastStatus := some "RUNNING" }] }
      0 rfl (by decide) rfl (by decide) rfl rfl (by decide) (by decide)⟩

/-- Instance of C10: the run of the first case of `TestUFOIsServiceRunning`
returns `true`, and the facts that C10 promises hold of it. -/
theorem isServiceRunning_true_sound_witness :
    (UFO.IsServiceRunning (testUFO convergedECS) testCluster (testService (some 2))
        (taskDefinitionOf [] (some 0)) (worldOf ["taskdefarn"])).1 = .ok (true, none)
      ∧ ((none : Option GoError) = none ∧ ∃ n, (testService (some 2)).DesiredCount = some n
        ∧ 0 < n ∧
        ∃ lout, convergedECS.ListTasks (worldOf ["taskdefarn"]).trace
            { Cluster := testCluster.ClusterName,
              ServiceName := (testService (some 2)).ServiceName,
              DesiredStatus := some "RUNNING" } = .ok lout
          ∧ lout.TaskArns ≠ [] ∧
        ∃ dout, convergedECS.DescribeTasks ((worldOf ["taskdefarn"]).trace ++ [Event.ListTasks
              { Cluster := testCluster.ClusterName,
                ServiceName := (testService (some 2)).ServiceName,
                DesiredStatus := some "RUNNING" }])
            { Cluster := testCluster.ClusterName, Tasks := lout.TaskArns } = .ok dout ∧
        ∃ b, (taskDefinitionOf [] (some 0)).TaskDefinitionArn = some b ∧
        ∃ task ∈ dout.Tasks,
          task.TaskDefinitionArn = some ((worldOf ["taskdefarn"]).heap.cell b)
            ∧ task.LastStatus = some "RUNNING") :=
  ⟨by decide,
    isServiceRunning_true_sound (testUFO convergedECS) (worldOf ["taskdefarn"])
      (UFO.IsServiceRunning (testUFO convergedECS) testCluster (testService (some 2))
        (taskDefinitionOf [] (some 0)) (worldOf ["taskdefarn"])).2
      testCluster (testService (some 2)) (taskDefinitionOf [] (some 0)) none rfl⟩

/-! ## `IsServiceRunning`: failures of the queries -/

/-- With a logger and a desired count above 0: (1) if `ListTasks` fails,
`IsServiceRunning` returns `false` with `ErrFailedToListRunningTasks` and the
only query it sent is that `ListTasks`; (2) if `ListTasks` succeeds with a
non-empty list and `DescribeTasks` fails, it returns `false` with
`ErrCouldNotRetrieveTasks` after exactly those two queries.  The rest of the
trace is lines of `logError`: the error of the query, then the error returned. -/
theorem IsServiceRunning_query_failure_with_logger (u : UFO) (w : World) (c : Cluster)
    (s : Service) (t : TaskDefinition) (n : Int) (lg : Logger) (hl : u.l = some lg)
    (hn : s.DesiredCount = some n) (hpos : 0 < n) :
    (∀ e, u.ECS.ListTasks w.trace
        { Cluster := c.ClusterName, ServiceName := s.ServiceName,
          DesiredStatus := some "RUNNING" } = .error e →
      u.IsServiceRunning c s t w
        = (.ok (false, some GoError.ErrFailedToListRunningTasks),
            { w with trace := w.trace ++ [Event.ListTasks
              { Cluster := c.ClusterName, ServiceName := s.ServiceName,
                DesiredStatus := some "RUNNING" }, Event.logError e,
              Event.logError GoError.ErrFailedToListRunningTasks] }))
    ∧ (∀ lout e, u.ECS.ListTasks w.trace
        { Cluster := c.ClusterName, ServiceName := s.ServiceName,
          DesiredStatus := some "RUNNING" } = .ok lout →
      lout.TaskArns ≠ [] →
      u.ECS.DescribeTasks (w.trace ++ [Event.ListTasks
          { Cluster := c.ClusterName, ServiceName := s.ServiceName,
            DesiredStatus := some "RUNNING" }])
        { Cluster := c.ClusterName, Tasks := lout.TaskArns } = .error e →
      u.IsServiceRunning c s t w
        = (.ok (false, some GoError.ErrCouldNotRetrieveTasks),
            { w with trace := w.trace ++ [Event.ListTasks
              { Cluster := c.ClusterName, ServiceName := s.ServiceName,
                DesiredStatus := some "RUNNING" },
              Event.DescribeTasks { Cluster := c.ClusterName, Tasks := lout.TaskArns },
              Event.logError e, Event.logError GoError.ErrCouldNotRetrieveTasks] })) := by
  have h0 : ¬ n ≤ 0 := by omega
  constructor
  · intro e hlist
    simp [UFO.IsServiceRunning, bind, Run.bind, deref, hn, Run.pure, h0, pure,
      RunningTasks_error u w c s e lg hl hlist, UFO.logError, hl]
  · intro lout e hlist hne hdesc
    have hlen : ¬ lout.TaskArns.length ≤ 0 := by
      cases hl : lout.TaskArns with
      | nil => exact absurd hl hne
      | cons x xs => simp
    have hg := GetTasks_error u { w with trace := w.trace ++ [Event.ListTasks
      { Cluster := c.ClusterName, ServiceName := s.ServiceName,
        DesiredStatus := some "RUNNING" }] } c lout.TaskArns e lg hl hdesc
    simp [UFO.IsServiceRunning, bind, Run.bind, deref, hn, Run.pure, h0, pure,
      RunningTasks_ok u w c s lout hlist, hlen, hg, UFO.logError, hl]

/-- Without a logger and with a desired count above 0, a failing `ListTasks`, or
a failing `DescribeTasks` after a non-empty list, ends `IsServiceRunning` in the
panic of the first `logError`; the trace holds what was sent until then. -/
theorem IsServiceRunning_query_failure_no_logger (u : UFO) (w : World) (c : Cluster)
    (s : Service) (t : TaskDefinition) (n : Int) (hl : u.l = none)
    (hn : s.DesiredCount = some n) (hpos : 0 < n) :
    (∀ e, u.ECS.ListTasks w.trace
        { Cluster := c.ClusterName, ServiceName := s.ServiceName,
          DesiredStatus := some "RUNNING" } = .error e →
      u.IsServiceRunning c s t w
        = (.error Panic.nilDereference,
            { w with trace := w.trace ++ [Event.ListTasks
              { Cluster := c.ClusterName, ServiceName := s.ServiceName,
                DesiredStatus := some "RUNNING" }] }))
    ∧ (∀ lout e, u.ECS.ListTasks w.trace
        { Cluster := c.ClusterName, ServiceName := s.ServiceName,
          DesiredStatus := some "RUNNING" } = .ok lout →
      lout.TaskArns ≠ [] →
      u.ECS.DescribeTasks (w.trace ++ [Event.ListTasks
          { Cluster := c.ClusterName, ServiceName := s.ServiceName,
            DesiredStatus := some "RUNNING" }])
        { Cluster := c.ClusterName, Tasks := lout.TaskArns } = .error e →
      u.IsServiceRunning c s t w
        = (.error Panic.nilDereference,
            { w with trace := w.trace ++ [Event.ListTasks
              { Cluster := c.ClusterName, ServiceName := s.ServiceName,
                DesiredStatus := some "RUNNING" },
              Event.DescribeTasks { Cluster := c.ClusterName, Tasks := lout.TaskArns }] })) := by
  have h0 : ¬ n ≤ 0 := by omega
  constructor
  · intro e hlist
    simp [UFO.IsServiceRunning, bind, Run.bind, deref, hn, Run.pure, h0, pure,
      RunningTasks_error_no_logger u w c s e hl hlist]
  · intro lout e hlist hne hdesc
    have hlen : ¬ lout.TaskArns.length ≤ 0 := by
      cases hl : lout.TaskArns with
      | nil => exact absurd hl hne
      | cons x xs => simp
    have hg := GetTasks_error_no_logger u { w with trace := w.trace ++ [Event.ListTasks
      { Cluster := c.ClusterName, ServiceName := s.ServiceName,
        DesiredStatus := some "RUNNING" }] } c lout.TaskArns e hl hdesc
    simp [UFO.IsServiceRunning, bind, Run.bind, deref, hn, Run.pure, h0, pure,
      RunningTasks_ok u w c s lout hlist, hlen, hg]

/-- C11, evaluated where it fails: the two cases of
`TestUFOIsServiceRunningError`, desired count 1, on the `UFO` literal that the
tests build, which has no logger.  When `ListTasks` fails, and when
`DescribeTasks` fails after two listed tasks, `IsServiceRunning` panics in
`logError` and returns nothing; the trace holds the `ListTasks` request, resp.
the `ListTasks` and the `DescribeTasks` request, and no other query.  On a `UFO`
built by `New` the same two runs return `(false, err)` with a non-nil error. -/
theorem isServiceRunning_query_failure_panics_without_logger :
    (UFO.IsServiceRunning (testUFO failingECS) testCluster (testService (some 1))
        (taskDefinitionOf [] (some 0)) (worldOf ["taskdefarn"])).1
      = .error Panic.nilDereference
    ∧ (UFO.IsServiceRunning (testUFO failingECS) testCluster (testService (some 1))
        (taskDefinitionOf [] (some 0)) (worldOf ["taskdefarn"])).2.trace
      = [Event.ListTasks
          { Cluster := some "test-cluster", ServiceName := some "test-service",
            DesiredStatus := some "RUNNING" }]
    ∧ (UFO.IsServiceRunning (testUFO describeFailsECS) testCluster (testService (some 1))
        (taskDefinitionOf [] (some 0)) (worldOf ["taskdefarn"])).1
      = .error Panic.nilDereference
    ∧ (UFO.IsServiceRunning (testUFO describeFailsECS) testCluster (testService (some 1))
        (taskDefinitionOf [] (some 0)) (worldOf ["taskdefarn"])).2.trace
      = [Event.ListTasks
          { Cluster := some "test-cluster", ServiceName := some "test-service",
            DesiredStatus := some "RUNNING" },
         Event.DescribeTasks
          { Cluster := some "test-cluster", Tasks := [some "task1", some "task2"] }]
    ∧ (UFO.IsServiceRunning (New failingECS mockedECRClient) testCluster
        (testService (some 1)) (taskDefinitionOf [] (some 0)) (worldOf ["taskdefarn"])).1
      = .ok (false, some GoError.ErrFailedToListRunningTasks)
    ∧ (UFO.IsServiceRunning (New describeFailsECS mockedECRClient) testCluster
        (testService (some 1)) (taskDefinitionOf [] (some 0)) (worldOf ["taskdefarn"])).1
      = .ok (false, some GoError.ErrCouldNotRetrieveTasks) := by
  decide

/-- C12, evaluated where it fails, on a `UFO` built by `New`: `ListTasks` fails
once with `timeout` and once with `access denied`, and the error
`IsServiceRunning` returns is `ErrFailedToListRunningTasks` in both runs;
`DescribeTasks` fails once with `timeout` and once with `access denied` after
two listed tasks, and the error returned is `ErrCouldNotRetrieveTasks` in both
runs.  The error returned is not the error of the query and does not tell two
failures apart. -/
theorem isServiceRunning_same_error_for_different_failures :
    GoError.sdk "timeout" ≠ GoError.sdk "access denied"
    ∧ (UFO.IsServiceRunning
        (New (mockedECS (.error (GoError.sdk "timeout")) (.error (GoError.sdk "unused"))
          (.error (GoError.sdk "unused"))) mockedECRClient)
        testCluster (testService (some 1)) (taskDefinitionOf [] (some 0))
        (worldOf ["taskdefarn"])).1
      = .ok (false, some GoError.ErrFailedToListRunningTasks)
    ∧ (UFO.IsServiceRunning
        (New (mockedECS (.error (GoError.sdk "access denied"))
          (.error (GoError.sdk "unused")) (.error (GoError.sdk "unused"))) mockedECRClient)
        testCluster (testService (some 1)) (taskDefinitionOf [] (some 0))
        (worldOf ["taskdefarn"])).1
      = .ok (false, some GoError.ErrFailedToListRunningTasks)
    ∧ (UFO.IsServiceRunning
        (New (mockedECS (.ok { TaskArns := [some "task1", some "task2"] })
          (.error (GoError.sdk "timeout")) (.error (GoError.sdk "unused"))) mockedECRClient)
        testCluster (testService (some 1)) (taskDefinitionOf [] (some 0))
        (worldOf ["taskdefarn"])).1
      = .ok (false, some GoError.ErrCouldNotRetrieveTasks)
    ∧ (UFO.IsServiceRunning
        (New (mockedECS (.ok { TaskArns := [some "task1", some "task2"] })
          (.error (GoError.sdk "access denied")) (.error (GoError.sdk "unused")))
          mockedECRClient)
        testCluster (testService (some 1)) (taskDefinitionOf [] (some 0))
        (worldOf ["taskdefarn"])).1
      = .ok (false, some GoError.ErrCouldNotRetrieveTasks) := by
  decide

/-! ## `IsServiceRunning`: the shape of its result and of its trace -/

/-- C13, evaluated where it fails: a service with desired count 0, and a service
with desired count 2 of which no task is running, get the same answer. -/
theorem isServiceRunning_outcomes_coincide :
    (UFO.IsServiceRunning (testUFO emptyListECS) testCluster (testService (some 0))
        (taskDefinitionOf [] (some 0)) (worldOf ["taskdefarn"])).1
      = (UFO.IsServiceRunning (testUFO emptyListECS) testCluster (testService (some 2))
        (taskDefinitionOf [] (some 0)) (worldOf ["taskdefarn"])).1 := by
  decide

/-- C13 as amended: the result of `IsServiceRunning` is a pair of a boolean and
an error, and it is the same pair `(false, nil)` for a service with desired
count 0 or less as for a service with desired count above 0 whose list of
running tasks is empty. -/
theorem isServiceRunning_false_nil_twice (u : UFO) (w : World) (c : Cluster)
    (s0 s1 : Service) (t : TaskDefinition) (n0 n1 : Int) (lout : ListTasksOutput)
    (h0 : s0.DesiredCount = some n0) (hn0 : n0 ≤ 0)
    (h1 : s1.DesiredCount = some n1) (hn1 : 0 < n1)
    (hlist : u.ECS.ListTasks w.trace
      { Cluster := c.ClusterName, ServiceName := s1.ServiceName,
        DesiredStatus := some "RUNNING" } = .ok lout)
    (hempty : lout.TaskArns = []) :
    (u.IsServiceRunning c s0 t w).1 = .ok (false, none)
      ∧ (u.IsServiceRunning c s1 t w).1 = .ok (false, none) := by
  have hpos : ¬ n1 ≤ 0 := by omega
  constructor
  · simp [UFO.IsServiceRunning, bind, Run.bind, deref, h0, Run.pure, hn0, pure]
  · simp [UFO.IsServiceRunning, bind, Run.bind, deref, h1, Run.pure, hpos, pure,
      RunningTasks_ok u w c s1 lout hlist, hempty]

/-- Instance of the amended C13: the second and the fourth case of
`TestUFOIsServiceRunning`. -/
theorem isServiceRunning_false_nil_twice_witness :
    (0 : Int) ≤ 0 ∧ (0 : Int) < 2
      ∧ (UFO.IsServiceRunning (testUFO emptyListECS) testCluster (testService (some 0))
          (taskDefinitionOf [] (some 0)) (worldOf ["taskdefarn"])).1 = .ok (false, none)
      ∧ (UFO.IsServiceRunning (testUFO emptyListECS) testCluster (testService (some 2))
          (taskDefinitionOf [] (some 0)) (worldOf ["taskdefarn"])).1 = .ok (false, none) :=
  ⟨by decide, by decide,
    isServiceRunning_false_nil_twice (testUFO emptyListECS) (worldOf ["taskdefarn"])
      testCluster (testService (some 0)) (testService (some 2)) (taskDefinitionOf [] (some 0))
      0 2 { TaskArns := [] } rfl (by decide) rfl (by decide) rfl rfl⟩

/-- The loop over the described tasks only reads: whatever its outcome, the
world is the one it started in. -/
theorem scanTasks_world (t : TaskDefinition) (w : World) (tasks : List Task) :
    (scanTasks t tasks w).2 = w := by
  induction tasks with
  | nil => rfl
  | cons task rest ih =>
    cases harn : task.TaskDefinitionArn with
    | none => simp [scanTasks, bind, Run.bind, deref, harn, Run.panic]
    | some arn =>
      cases htarget : t.TaskDefinitionArn with
      | none => simp [scanTasks, bind, Run.bind, deref, harn, Run.pure, readStr, htarget]
      | some b =>
        by_cases h1 : arn = w.heap.cell b
        · cases hst : task.LastStatus with
          | none =>
            simp [scanTasks, bind, Run.bind, deref, harn, Run.pure, readStr, htarget, h1, hst,
              Run.panic]
          | some st =>
            by_cases h2 : st = "RUNNING"
            · simp [scanTasks, bind, Run.bind, deref, harn, Run.pure, readStr, htarget, h1,
                hst, h2, pure]
            · simp [scanTasks, bind, Run.bind, deref, harn, Run.pure, readStr, htarget, h1,
                hst, h2]
              exact ih
        · simp [scanTasks, bind, Run.bind, deref, harn, Run.pure, readStr, htarget, h1]
          exact ih

/-- C14: for every input and every behaviour of the client, the events one call
of `IsServiceRunning` adds to the trace contain, as outbound queries, nothing,
or one `ListTasks`, or one `ListTasks` followed by one `DescribeTasks`; in the
last case `ListTasks` had succeeded and `DescribeTasks` is passed exactly the
task ARNs it returned. -/
theorem isServiceRunning_queries (u : UFO) (w : World) (c : Cluster) (s : Service)
    (t : TaskDefinition) :
    ∃ added, (u.IsServiceRunning c s t w).2.trace = w.trace ++ added ∧
      (requests added = []
        ∨ requests added = [Event.ListTasks
            { Cluster := c.ClusterName, ServiceName := s.ServiceName,
              DesiredStatus := some "RUNNING" }]
        ∨ ∃ lout, u.ECS.ListTasks w.trace
              { Cluster := c.ClusterName, ServiceName := s.ServiceName,
                DesiredStatus := some "RUNNING" } = .ok lout
            ∧ requests added = [Event.ListTasks
                { Cluster := c.ClusterName, ServiceName := s.ServiceName,
                  DesiredStatus := some "RUNNING" },
                Event.DescribeTasks { Cluster := c.ClusterName, Tasks := lout.TaskArns }]) := by
  cases hn : s.DesiredCount with
  | none =>
    exact ⟨[], by simp [UFO.IsServiceRunning, bind, Run.bind, deref, hn, Run.panic],
      Or.inl rfl⟩
  | some n =>
    by_cases h0 : n ≤ 0
    · exact ⟨[], by simp [UFO.IsServiceRunning, bind, Run.bind, deref, hn, Run.pure, h0, pure],
        Or.inl rfl⟩
    · cases hlist : u.ECS.ListTasks w.trace
          { Cluster := c.ClusterName, ServiceName := s.ServiceName,
            DesiredStatus := some "RUNNING" } with
      | error err =>
        cases hl : u.l with
        | none =>
          refine ⟨[Event.ListTasks
              { Cluster := c.ClusterName, ServiceName := s.ServiceName,
                DesiredStatus := some "RUNNING" }], ?_, Or.inr (Or.inl rfl)⟩
          simp [UFO.IsServiceRunning, bind, Run.bind, deref, hn, Run.pure, h0, pure,
            RunningTasks_error_no_logger u w c s err hl hlist]
        | some lg =>
          refine ⟨[Event.ListTasks
              { Cluster := c.ClusterName, ServiceName := s.ServiceName,
                DesiredStatus := some "RUNNING" }, Event.logError err,
              Event.logError GoError.ErrFailedToListRunningTasks], ?_, Or.inr (Or.inl rfl)⟩
          simp [UFO.IsServiceRunning, bind, Run.bind, deref, hn, Run.pure, h0, pure,
            RunningTasks_error u w c s err lg hl hlist, UFO.logError, hl]
      | ok lout =>
        by_cases hlen : lout.TaskArns.length ≤ 0
        · refine ⟨[Event.ListTasks
              { Cluster := c.ClusterName, ServiceName := s.ServiceName,
                DesiredStatus := some "RUNNING" }], ?_, Or.inr (Or.inl rfl)⟩
          simp [UFO.IsServiceRunning, bind, Run.bind, deref, hn, Run.pure, h0, pure,
            RunningTasks_ok u w c s lout hlist, hlen]
        · cases hdesc : u.ECS.DescribeTasks (w.trace ++ [Event.ListTasks
                { Cluster := c.ClusterName, ServiceName := s.ServiceName,
                  DesiredStatus := some "RUNNING" }])
              { Cluster := c.ClusterName, Tasks := lout.TaskArns } with
          | error err =>
            cases hl : u.l with
            | none =>
              have hg := GetTasks_error_no_logger u { w with trace := w.trace ++ [Event.ListTasks
                { Cluster := c.ClusterName, ServiceName := s.ServiceName,
                  DesiredStatus := some "RUNNING" }] } c lout.TaskArns err hl hdesc
              refine ⟨[Event.ListTasks
                  { Cluster := c.ClusterName, ServiceName := s.ServiceName,
                    DesiredStatus := some "RUNNING" },
                  Event.DescribeTasks { Cluster := c.ClusterName, Tasks := lout.TaskArns }], ?_,
                Or.inr (Or.inr ⟨lout, rfl, rfl⟩)⟩
              simp [UFO.IsServiceRunning, bind, Run.bind, deref, hn, Run.pure, h0, pure,
                RunningTasks_ok u w c s lout hlist, hlen, hg]
            | some lg =>
              have hg := GetTasks_error u { w with trace := w.trace ++ [Event.ListTasks
                { Cluster := c.ClusterName, ServiceName := s.ServiceName,
                  DesiredStatus := some "RUNNING" }] } c lout.TaskArns err lg hl hdesc
              refine ⟨[Event.ListTasks
                  { Cluster := c.ClusterName, ServiceName := s.ServiceName,
                    DesiredStatus := some "RUNNING" },
                  Event.DescribeTasks { Cluster := c.ClusterName, Tasks := lout.TaskArns },
                  Event.logError err, Event.logError GoError.ErrCouldNotRetrieveTasks], ?_,
                Or.inr (Or.inr ⟨lout, rfl, rfl⟩)⟩
              simp [UFO.IsServiceRunning, bind, Run.bind, deref, hn, Run.pure, h0, pure,
                RunningTasks_ok u w c s lout hlist, hlen, hg, UFO.logError, hl]
          | ok dout =>
            have hg := GetTasks_ok u { w with trace := w.trace ++ [Event.ListTasks
              { Cluster := c.ClusterName, ServiceName := s.ServiceName,
                DesiredStatus := some "RUNNING" }] } c lout.TaskArns dout hdesc
            have hw := scanTasks_world t { heap := w.heap, trace := w.trace ++ [Event.ListTasks
                { Cluster := c.ClusterName, ServiceName := s.ServiceName,
                  DesiredStatus := some "RUNNING" }] ++ [Event.DescribeTasks
                { Cluster := c.ClusterName, Tasks := lout.TaskArns }] } dout.Tasks
            refine ⟨[Event.ListTasks
                { Cluster := c.ClusterName, ServiceName := s.ServiceName,
                  DesiredStatus := some "RUNNING" },
                Event.DescribeTasks { Cluster := c.ClusterName, Tasks := lout.TaskArns }], ?_,
              Or.inr (Or.inr ⟨lout, rfl, rfl⟩)⟩
            simp only [UFO.IsServiceRunning, bind, Run.bind, deref, hn, Run.pure, h0, pure,
              RunningTasks_ok u w c s lout hlist, hlen, hg, if_false]
            cases hs : scanTasks t dout.Tasks { heap := w.heap, trace := w.trace ++ [Event.ListTasks
                { Cluster := c.ClusterName, ServiceName := s.ServiceName,
                  DesiredStatus := some "RUNNING" }] ++ [Event.DescribeTasks
                { Cluster := c.ClusterName, Tasks := lout.TaskArns }] } with
            | mk r w2 =>
              rw [hs] at hw
              simp only at hw
              subst hw
              cases r with
              | error p => simp
              | ok found => cases found <;> simp [Run.pure]

/-! ## `Deploy` and the functions it calls -/

theorem UpdateTaskDefinitionImage_parseable (u : UFO) (w : World) (t : TaskDefinition)
    (c : ContainerDefinition) (cs : List ContainerDefinition) (a : Addr) (v : String)
    (hc : t.ContainerDefinitions = c :: cs) (hp : c.Image = some a)
    (hparse : Parseable (w.heap.cell a)) :
    u.UpdateTaskDefinitionImage t v w
      = (.ok t, { w with heap := w.heap.write a (capturedRepo (w.heap.cell a) ++ ":" ++ v) }) := by
  obtain ⟨whole, repo, hm⟩ := FindStringSubmatch_reRepoColon_shape _ hparse
  have hrepo : capturedRepo (w.heap.cell a) = repo := by simp [capturedRepo, hm]
  rw [hrepo]
  exact UpdateTaskDefinitionImage_ok u w t c cs a v repo _ hc hp hm rfl

theorem UpdateTaskDefinitionImage_not_parseable (u : UFO) (w : World) (t : TaskDefinition)
    (c : ContainerDefinition) (cs : List ContainerDefinition) (a : Addr) (v : String)
    (hc : t.ContainerDefinitions = c :: cs) (hp : c.Image = some a)
    (hparse : ¬ Parseable (w.heap.cell a)) :
    u.UpdateTaskDefinitionImage t v w = (.error Panic.indexOutOfRange, w) := by
  have hm : FindStringSubmatch reRepoColon (w.heap.cell a) = none := by
    unfold Parseable at hparse
    exact not_not.mp hparse
  exact UpdateTaskDefinitionImage_no_match u w t c cs a v hc hp hm

theorem GetTaskDefinition_ok (u : UFO) (w : World) (c : Cluster) (s : Service)
    (out : DescribeTaskDefinitionOutput)
    (hdesc : u.ECS.DescribeTaskDefinition w.trace { TaskDefinition := s.TaskDefinition }
      = .ok out) :
    u.GetTaskDefinition c s w
      = (.ok (some out.TaskDefinition, none), { w with trace := w.trace ++
          [Event.DescribeTaskDefinition { TaskDefinition := s.TaskDefinition }] }) := by
  simp [UFO.GetTaskDefinition, bind, Run.bind, call, hdesc, pure, Run.pure]

theorem GetTaskDefinition_error (u : UFO) (w : World) (c : Cluster) (s : Service)
    (e : GoError) (lg : Logger) (hl : u.l = some lg)
    (hdesc : u.ECS.DescribeTaskDefinition w.trace { TaskDefinition := s.TaskDefinition }
      = .error e) :
    u.GetTaskDefinition c s w
      = (.ok (none, some GoError.ErrCouldNotRetrieveTaskDefinition),
          { w with trace := w.trace ++
            [Event.DescribeTaskDefinition { TaskDefinition := s.TaskDefinition },
              Event.logError e] }) := by
  simp [UFO.GetTaskDefinition, bind, Run.bind, call, hdesc, pure, Run.pure, UFO.logError, hl]

/-- Without a logger the failure of `DescribeTaskDefinition` ends in the panic of
`logError`. -/
theorem GetTaskDefinition_error_no_logger (u : UFO) (w : World) (c : Cluster) (s : Service)
    (e : GoError) (hl : u.l = none)
    (hdesc : u.ECS.DescribeTaskDefinition w.trace { TaskDefinition := s.TaskDefinition }
      = .error e) :
    u.GetTaskDefinition c s w
      = (.error Panic.nilDereference,
          { w with trace := w.trace ++
            [Event.DescribeTaskDefinition { TaskDefinition := s.TaskDefinition }] }) := by
  simp [UFO.GetTaskDefinition, bind, Run.bind, call, hdesc, pure, Run.pure, UFO.logError, hl]

theorem RegisterTaskDefinitionWithImage_describe_error (u : UFO) (w : World) (c : Cluster)
    (s : Service) (version : String) (e : GoError) (lg : Logger) (hl : u.l = some lg)
    (hdesc : u.ECS.DescribeTaskDefinition w.trace { TaskDefinition := s.TaskDefinition }
      = .error e) :
    u.RegisterTaskDefinitionWithImage c s version w
      = (.ok (none, some GoError.ErrCouldNotRetrieveTaskDefinition),
          { w with trace := w.trace ++
            [Event.DescribeTaskDefinition { TaskDefinition := s.TaskDefinition },
              Event.logError e, Event.logError GoError.ErrCouldNotRetrieveTaskDefinition] }) := by
  simp [UFO.RegisterTaskDefinitionWithImage, bind, Run.bind,
    GetTaskDefinition_error u w c s e lg hl hdesc, UFO.logError, pure, Run.pure, hl]

theorem RegisterTaskDefinitionWithImage_describe_error_no_logger (u : UFO) (w : World)
    (c : Cluster) (s : Service) (version : String) (e : GoError) (hl : u.l = none)
    (hdesc : u.ECS.DescribeTaskDefinition w.trace { TaskDefinition := s.TaskDefinition }
      = .error e) :
    u.RegisterTaskDefinitionWithImage c s version w
      = (.error Panic.nilDereference,
          { w with trace := w.trace ++
            [Event.DescribeTaskDefinition { TaskDefinition := s.TaskDefinition }] }) := by
  simp [UFO.RegisterTaskDefinitionWithImage, bind, Run.bind,
    GetTaskDefinition_error_no_logger u w c s e hl hdesc]

theorem RegisterTaskDefinitionWithImage_not_parseable (u : UFO) (w : World) (c : Cluster)
    (s : Service) (version : String) (out : DescribeTaskDefinitionOutput)
    (c0 : ContainerDefinition) (cs : List ContainerDefinition) (a : Addr)
    (hdesc : u.ECS.DescribeTaskDefinition w.trace { TaskDefinition := s.TaskDefinition }
      = .ok out)
    (hc : out.TaskDefinition.ContainerDefinitions = c0 :: cs) (hp : c0.Image = some a)
    (hparse : ¬ Parseable (w.heap.cell a)) :
    u.RegisterTaskDefinitionWithImage c s version w
      = (.error Panic.indexOutOfRange, { w with trace := w.trace ++
          [Event.DescribeTaskDefinition { TaskDefinition := s.TaskDefinition }] }) := by
  have hu := UpdateTaskDefinitionImage_not_parseable u { w with trace := w.trace ++
      [Event.DescribeTaskDefinition { TaskDefinition := s.TaskDefinition }] }
    out.TaskDefinition c0 cs a version hc hp hparse
  simp [UFO.RegisterTaskDefinitionWithImage, bind, Run.bind, GetTaskDefinition_ok u w c s out hdesc,
    deref, Run.pure, hu]

/-- The run of `RegisterTaskDefinitionWithImage` up to the answer of
`RegisterTaskDefinition`, for a primary image that the pattern matches. -/
theorem RegisterTaskDefinitionWithImage_parseable (u : UFO) (w : World) (c : Cluster)
    (s : Service) (version : String) (out : DescribeTaskDefinitionOutput)
    (c0 : ContainerDefinition) (cs : List ContainerDefinition) (a : Addr)
    (hdesc : u.ECS.DescribeTaskDefinition w.trace { TaskDefinition := s.TaskDefinition }
      = .ok out)
    (hc : out.TaskDefinition.ContainerDefinitions = c0 :: cs) (hp : c0.Image = some a)
    (hparse : Parseable (w.heap.cell a)) :
    u.RegisterTaskDefinitionWithImage c s version w
      = match u.ECS.RegisterTaskDefinition
            (w.trace ++ [Event.DescribeTaskDefinition { TaskDefinition := s.TaskDefinition }])
            (registerTaskDefinitionInputOf
              (w.heap.write a (capturedRepo (w.heap.cell a) ++ ":" ++ version))
              out.TaskDefinition) with
        | .ok rout =>
          (.ok (some rout.TaskDefinition, none),
            { heap := w.heap.write a (capturedRepo (w.heap.cell a) ++ ":" ++ version),
              trace := w.trace ++
                [Event.DescribeTaskDefinition { TaskDefinition := s.TaskDefinition },
                  Event.RegisterTaskDefinition (registerTaskDefinitionInputOf
                    (w.heap.write a (capturedRepo (w.heap.cell a) ++ ":" ++ version))
                    out.TaskDefinition)] })
        | .error e =>
          match u.l with
          | some _ =>
            (.ok (none, some GoError.ErrCouldNotRegisterTaskDefinition),
              { heap := w.heap.write a (capturedRepo (w.heap.cell a) ++ ":" ++ version),
                trace := w.trace ++
                  [Event.DescribeTaskDefinition { TaskDefinition := s.TaskDefinition },
                    Event.RegisterTaskDefinition (registerTaskDefinitionInputOf
                      (w.heap.write a (capturedRepo (w.heap.cell a) ++ ":" ++ version))
                      out.TaskDefinition),
                    Event.logError e] })
          | none =>
            (.error Panic.nilDereference,
              { heap := w.heap.write a (capturedRepo (w.heap.cell a) ++ ":" ++ version),
                trace := w.trace ++
                  [Event.DescribeTaskDefinition { TaskDefinition := s.TaskDefinition },
                    Event.RegisterTaskDefinition (registerTaskDefinitionInputOf
                      (w.heap.write a (capturedRepo (w.heap.cell a) ++ ":" ++ version))
                      out.TaskDefinition)] }) := by
  have hu := UpdateTaskDefinitionImage_parseable u { w with trace := w.trace ++
      [Event.DescribeTaskDefinition { TaskDefinition := s.TaskDefinition }] }
    out.TaskDefinition c0 cs a version hc hp hparse
  simp only [UFO.RegisterTaskDefinitionWithImage, bind, Run.bind,
    GetTaskDefinition_ok u w c s out hdesc, deref, Run.pure, hu, snapshot, call]
  cases hreg : u.ECS.RegisterTaskDefinition
      (w.trace ++ [Event.DescribeTaskDefinition { TaskDefinition := s.TaskDefinition }])
      (registerTaskDefinitionInputOf
        (w.heap.write a (capturedRepo (w.heap.cell a) ++ ":" ++ version))
        out.TaskDefinition) with
  | ok rout => simp [pure, Run.pure]
  | error e =>
    cases hl : u.l with
    | none => simp [pure, Run.pure, UFO.logError, bind, Run.bind, hl]
    | some lg => simp [pure, Run.pure, UFO.logError, bind, Run.bind, hl]

theorem UpdateService_ok (u : UFO) (w : World) (c : Cluster) (s : Service)
    (t : TaskDefinition) (out : UpdateServiceOutput)
    (hupd : u.ECS.UpdateService w.trace
      { Cluster := c.ClusterArn, Service := s.ServiceArn,
        TaskDefinition := w.heap.read t.TaskDefinitionArn } = .ok out) :
    u.UpdateService c s (some t) w
      = (.ok (some out, none), { w with trace := w.trace ++ [Event.UpdateService
          { Cluster := c.ClusterArn, Service := s.ServiceArn,
            TaskDefinition := w.heap.read t.TaskDefinitionArn }] }) := by
  simp [UFO.UpdateService, bind, Run.bind, deref, Run.pure, snapshot, call, hupd, pure]

theorem UpdateService_error (u : UFO) (w : World) (c : Cluster) (s : Service)
    (t : TaskDefinition) (e : GoError) (lg : Logger) (hl : u.l = some lg)
    (hupd : u.ECS.UpdateService w.trace
      { Cluster := c.ClusterArn, Service := s.ServiceArn,
        TaskDefinition := w.heap.read t.TaskDefinitionArn } = .error e) :
    u.UpdateService c s (some t) w
      = (.ok (none, some GoError.ErrCouldNotUpdateService),
          { w with trace := w.trace ++ [Event.UpdateService
            { Cluster := c.ClusterArn, Service := s.ServiceArn,
              TaskDefinition := w.heap.read t.TaskDefinitionArn }, Event.logError e] }) := by
  simp [UFO.UpdateService, bind, Run.bind, deref, Run.pure, snapshot, call, hupd, pure,
    UFO.logError, hl]

/-- Without a logger the failure of `UpdateService` ends in the panic of `logError`. -/
theorem UpdateService_error_no_logger (u : UFO) (w : World) (c : Cluster) (s : Service)
    (t : TaskDefinition) (e : GoError) (hl : u.l = none)
    (hupd : u.ECS.UpdateService w.trace
      { Cluster := c.ClusterArn, Service := s.ServiceArn,
        TaskDefinition := w.heap.read t.TaskDefinitionArn } = .error e) :
    u.UpdateService c s (some t) w
      = (.error Panic.nilDereference,
          { w with trace := w.trace ++ [Event.UpdateService
            { Cluster := c.ClusterArn, Service := s.ServiceArn,
              TaskDefinition := w.heap.read t.TaskDefinitionArn }] }) := by
  simp [UFO.UpdateService, bind, Run.bind, deref, Run.pure, snapshot, call, hupd, pure,
    UFO.logError, hl]

/-- C15: for every service whose current task definition has a primary image that
cannot be parsed (the pattern finds no match, as for every image without `:`),
`Deploy` ends with a failure, here a panic, and the only thing it did is the
`DescribeTaskDefinition` request: neither `RegisterTaskDefinition` nor
`UpdateService` is sent, and no string cell is written. -/
theorem deploy_unparseable_image (u : UFO) (w : World) (c : Cluster) (s : Service)
    (version : String) (out : DescribeTaskDefinitionOutput) (c0 : ContainerDefinition)
    (cs : List ContainerDefinition) (a : Addr)
    (hdesc : u.ECS.DescribeTaskDefinition w.trace { TaskDefinition := s.TaskDefinition }
      = .ok out)
    (hc : out.TaskDefinition.ContainerDefinitions = c0 :: cs) (hp : c0.Image = some a)
    (hparse : ¬ Parseable (w.heap.cell a)) :
    u.Deploy c s version w
      = (.error Panic.indexOutOfRange, { w with trace := w.trace ++
          [Event.DescribeTaskDefinition { TaskDefinition := s.TaskDefinition }] }) := by
  simp [UFO.Deploy, bind, Run.bind,
    RegisterTaskDefinitionWithImage_not_parseable u w c s version out c0 cs a hdesc hc hp hparse]

/-- C16: when `DescribeTaskDefinition` succeeds (with a task definition whose
primary image the pattern matches), `RegisterTaskDefinition` succeeds and
`UpdateService` succeeds, `Deploy` sends exactly these three requests in this
order, `UpdateService` is called with the ARN of the cluster, the ARN of the
service and the ARN of the task definition that `RegisterTaskDefinition`
returned, and `Deploy` returns that registered task definition with a nil
error. -/
theorem deploy_success (u : UFO) (w : World) (c : Cluster) (s : Service)
    (version : String) (out : DescribeTaskDefinitionOutput) (c0 : ContainerDefinition)
    (cs : List ContainerDefinition) (a : Addr) (rout : RegisterTaskDefinitionOutput)
    (uout : UpdateServiceOutput)
    (hdesc : u.ECS.DescribeTaskDefinition w.trace { TaskDefinition := s.TaskDefinition }
      = .ok out)
    (hc : out.TaskDefinition.ContainerDefinitions = c0 :: cs) (hp : c0.Image = some a)
    (hparse : Parseable (w.heap.cell a))
    (hreg : u.ECS.RegisterTaskDefinition
        (w.trace ++ [Event.DescribeTaskDefinition { TaskDefinition := s.TaskDefinition }])
        (registerTaskDefinitionInputOf
          (w.heap.write a (capturedRepo (w.heap.cell a) ++ ":" ++ version))
          out.TaskDefinition) = .ok rout)
    (hupd : u.ECS.UpdateService
        (w.trace ++ [Event.DescribeTaskDefinition { TaskDefinition := s.TaskDefinition },
          Event.RegisterTaskDefinition (registerTaskDefinitionInputOf
            (w.heap.write a (capturedRepo (w.heap.cell a) ++ ":" ++ version))
            out.TaskDefinition)])
        { Cluster := c.ClusterArn, Service := s.ServiceArn,
          TaskDefinition := (w.heap.write a (capturedRepo (w.heap.cell a) ++ ":" ++ version)).read
            rout.TaskDefinition.TaskDefinitionArn } = .ok uout) :
    u.Deploy c s version w
      = (.ok (some rout.TaskDefinition, none),
          { heap := w.heap.write a (capturedRepo (w.heap.cell a) ++ ":" ++ version),
            trace := w.trace ++
              [Event.DescribeTaskDefinition { TaskDefinition := s.TaskDefinition },
                Event.RegisterTaskDefinition (registerTaskDefinitionInputOf
                  (w.heap.write a (capturedRepo (w.heap.cell a) ++ ":" ++ version))
                  out.TaskDefinition),
                Event.UpdateService
                  { Cluster := c.ClusterArn, Service := s.ServiceArn,
                    TaskDefinition :=
                      (w.heap.write a (capturedRepo (w.heap.cell a) ++ ":" ++ version)).read
                        rout.TaskDefinition.TaskDefinitionArn }] }) := by
  have hr := RegisterTaskDefinitionWithImage_parseable u w c s version out c0 cs a hdesc hc hp
    hparse
  rw [hreg] at hr
  have hu := UpdateService_ok u
    { heap := w.heap.write a (capturedRepo (w.heap.cell a) ++ ":" ++ version),
      trace := w.trace ++
        [Event.DescribeTaskDefinition { TaskDefinition := s.TaskDefinition },
          Event.RegisterTaskDefinition (registerTaskDefinitionInputOf
            (w.heap.write a (capturedRepo (w.heap.cell a) ++ ":" ++ version))
            out.TaskDefinition)] } c s rout.TaskDefinition uout hupd
  simp [UFO.Deploy, bind, Run.bind, hr, hu, pure, Run.pure]

/-- With a logger, `Deploy` stops at the first failing step.  (1) If
`DescribeTaskDefinition` fails, `Deploy` returns a nil task definition with a
non-nil error and sends nothing else.  (2) If `RegisterTaskDefinition` fails,
`Deploy` returns a nil task definition with a non-nil error and `UpdateService`
is not called.  (3) If `UpdateService` fails, `Deploy` returns a nil task
definition with a non-nil error.  After the failing request the trace holds only
lines of `logError`. -/
theorem Deploy_stops_at_first_failure_with_logger (u : UFO) (w : World) (c : Cluster)
    (s : Service) (version : String) (lg : Logger) (hl : u.l = some lg) :
    (∀ e, u.ECS.DescribeTaskDefinition w.trace { TaskDefinition := s.TaskDefinition }
        = .error e →
      u.Deploy c s version w
        = (.ok (none, some GoError.ErrCouldNotRetrieveTaskDefinition),
            { w with trace := w.trace ++
              [Event.DescribeTaskDefinition { TaskDefinition := s.TaskDefinition },
                Event.logError e, Event.logError GoError.ErrCouldNotRetrieveTaskDefinition,
                Event.logError GoError.ErrCouldNotRetrieveTaskDefinition] }))
    ∧ (∀ out c0 cs a e,
      u.ECS.DescribeTaskDefinition w.trace { TaskDefinition := s.TaskDefinition } = .ok out →
      out.TaskDefinition.ContainerDefinitions = c0 :: cs → c0.Image = some a →
      Parseable (w.heap.cell a) →
      u.ECS.RegisterTaskDefinition
        (w.trace ++ [Event.DescribeTaskDefinition { TaskDefinition := s.TaskDefinition }])
        (registerTaskDefinitionInputOf
          (w.heap.write a (capturedRepo (w.heap.cell a) ++ ":" ++ version))
          out.TaskDefinition) = .error e →
      u.Deploy c s version w
        = (.ok (none, some GoError.ErrCouldNotRegisterTaskDefinition),
            { heap := w.heap.write a (capturedRepo (w.heap.cell a) ++ ":" ++ version),
              trace := w.trace ++
                [Event.DescribeTaskDefinition { TaskDefinition := s.TaskDefinition },
                  Event.RegisterTaskDefinition (registerTaskDefinitionInputOf
                    (w.heap.write a (capturedRepo (w.heap.cell a) ++ ":" ++ version))
                    out.TaskDefinition),
                  Event.logError e,
                  Event.logError GoError.ErrCouldNotRegisterTaskDefinition] }))
    ∧ (∀ out c0 cs a rout e,
      u.ECS.DescribeTaskDefinition w.trace { TaskDefinition := s.TaskDefinition } = .ok out →
      out.TaskDefinition.ContainerDefinitions = c0 :: cs → c0.Image = some a →
      Parseable (w.heap.cell a) →
      u.ECS.RegisterTaskDefinition
        (w.trace ++ [Event.DescribeTaskDefinition { TaskDefinition := s.TaskDefinition }])
        (registerTaskDefinitionInputOf
          (w.heap.write a (capturedRepo (w.heap.cell a) ++ ":" ++ version))
          out.TaskDefinition) = .ok rout →
      u.ECS.UpdateService
        (w.trace ++ [Event.DescribeTaskDefinition { TaskDefinition := s.TaskDefinition },
          Event.RegisterTaskDefinition (registerTaskDefinitionInputOf
            (w.heap.write a (capturedRepo (w.heap.cell a) ++ ":" ++ version))
            out.TaskDefinition)])
        { Cluster := c.ClusterArn, Service := s.ServiceArn,
          TaskDefinition := (w.heap.write a (capturedRepo (w.heap.cell a) ++ ":" ++ version)).read
            rout.TaskDefinition.TaskDefinitionArn } = .error e →
      u.Deploy c s version w
        = (.ok (none, some GoError.ErrCouldNotUpdateService),
            { heap := w.heap.write a (capturedRepo (w.heap.cell a) ++ ":" ++ version),
              trace := w.trace ++
                [Event.DescribeTaskDefinition { TaskDefinition := s.TaskDefinition },
                  Event.RegisterTaskDefinition (registerTaskDefinitionInputOf
                    (w.heap.write a (capturedRepo (w.heap.cell a) ++ ":" ++ version))
                    out.TaskDefinition),
                  Event.UpdateService
                    { Cluster := c.ClusterArn, Service := s.ServiceArn,
                      TaskDefinition :=
                        (w.heap.write a (capturedRepo (w.heap.cell a) ++ ":" ++ version)).read
                          rout.TaskDefinition.TaskDefinitionArn },
                  Event.logError e, Event.logError GoError.ErrCouldNotUpdateService] })) := by
  refine ⟨?_, ?_, ?_⟩
  · intro e hdesc
    simp [UFO.Deploy, bind, Run.bind,
      RegisterTaskDefinitionWithImage_describe_error u w c s version e lg hl hdesc,
      UFO.logError, pure, Run.pure, hl]
  · intro out c0 cs a e hdesc hc hp hparse hreg
    have hr := RegisterTaskDefinitionWithImage_parseable u w c s version out c0 cs a hdesc hc
      hp hparse
    rw [hreg, hl] at hr
    simp [UFO.Deploy, bind, Run.bind, hr, UFO.logError, pure, Run.pure, hl]
  · intro out c0 cs a rout e hdesc hc hp hparse hreg hupd
    have hr := RegisterTaskDefinitionWithImage_parseable u w c s version out c0 cs a hdesc hc
      hp hparse
    rw [hreg] at hr
    have hu := UpdateService_error u
      { heap := w.heap.write a (capturedRepo (w.heap.cell a) ++ ":" ++ version),
        trace := w.trace ++
          [Event.DescribeTaskDefinition { TaskDefinition := s.TaskDefinition },
            Event.RegisterTaskDefinition (registerTaskDefinitionInputOf
              (w.heap.write a (capturedRepo (w.heap.cell a) ++ ":" ++ version))
              out.TaskDefinition)] } c s rout.TaskDefinition e lg hl hupd
    simp [UFO.Deploy, bind, Run.bind, hr, hu, UFO.logError, pure, Run.pure, hl]

/-- Without a logger, a failing step ends `Deploy` in the panic of the first
`logError`: nothing is returned, and the trace ends with the failing request. -/
theorem Deploy_failure_no_logger (u : UFO) (w : World) (c : Cluster) (s : Service)
    (version : String) (hl : u.l = none) :
    (∀ e, u.ECS.DescribeTaskDefinition w.trace { TaskDefinition := s.TaskDefinition }
        = .error e →
      u.Deploy c s version w
        = (.error Panic.nilDereference,
            { w with trace := w.trace ++
              [Event.DescribeTaskDefinition { TaskDefinition := s.TaskDefinition }] }))
    ∧ (∀ out c0 cs a e,
      u.ECS.DescribeTaskDefinition w.trace { TaskDefinition := s.TaskDefinition } = .ok out →
      out.TaskDefinition.ContainerDefinitions = c0 :: cs → c0.Image = some a →
      Parseable (w.heap.cell a) →
      u.ECS.RegisterTaskDefinition
        (w.trace ++ [Event.DescribeTaskDefinition { TaskDefinition := s.TaskDefinition }])
        (registerTaskDefinitionInputOf
          (w.heap.write a (capturedRepo (w.heap.cell a) ++ ":" ++ version))
          out.TaskDefinition) = .error e →
      u.Deploy c s version w
        = (.error Panic.nilDereference,
            { heap := w.heap.write a (capturedRepo (w.heap.cell a) ++ ":" ++ version),
              trace := w.trace ++
                [Event.DescribeTaskDefinition { TaskDefinition := s.TaskDefinition },
                  Event.RegisterTaskDefinition (registerTaskDefinitionInputOf
                    (w.heap.write a (capturedRepo (w.heap.cell a) ++ ":" ++ version))
                    out.TaskDefinition)] }))
    ∧ (∀ out c0 cs a rout e,
      u.ECS.DescribeTaskDefinition w.trace { TaskDefinition := s.TaskDefinition } = .ok out →
      out.TaskDefinition.ContainerDefinitions = c0 :: cs → c0.Image = some a →
      Parseable (w.heap.cell a) →
      u.ECS.RegisterTaskDefinition
        (w.trace ++ [Event.DescribeTaskDefinition { TaskDefinition := s.TaskDefinition }])
        (registerTaskDefinitionInputOf
          (w.heap.write a (capturedRepo (w.heap.cell a) ++ ":" ++ version))
          out.TaskDefinition) = .ok rout →
      u.ECS.UpdateService
        (w.trace ++ [Event.DescribeTaskDefinition { TaskDefinition := s.TaskDefinition },
          Event.RegisterTaskDefinition (registerTaskDefinitionInputOf
            (w.heap.write a (capturedRepo (w.heap.cell a) ++ ":" ++ version))
            out.TaskDefinition)])
        { Cluster := c.ClusterArn, Service := s.ServiceArn,
          TaskDefinition := (w.heap.write a (capturedRepo (w.heap.cell a) ++ ":" ++ version)).read
            rout.TaskDefinition.TaskDefinitionArn } = .error e →
      u.Deploy c s version w
        = (.error Panic.nilDereference,
            { heap := w.heap.write a (capturedRepo (w.heap.cell a) ++ ":" ++ version),
              trace := w.trace ++
                [Event.DescribeTaskDefinition { TaskDefinition := s.TaskDefinition },
                  Event.RegisterTaskDefinition (registerTaskDefinitionInputOf
                    (w.heap.write a (capturedRepo (w.heap.cell a) ++ ":" ++ version))
                    out.TaskDefinition),
                  Event.UpdateService
                    { Cluster := c.ClusterArn, Service := s.ServiceArn,
                      TaskDefinition :=
                        (w.heap.write a (capturedRepo (w.heap.cell a) ++ ":" ++ version)).read
                          rout.TaskDefinition.TaskDefinitionArn }] })) := by
  refine ⟨?_, ?_, ?_⟩
  · intro e hdesc
    simp [UFO.Deploy, bind, Run.bind,
      RegisterTaskDefinitionWithImage_describe_error_no_logger u w c s version e hl hdesc]
  · intro out c0 cs a e hdesc hc hp hparse hreg
    have hr := RegisterTaskDefinitionWithImage_parseable u w c s version out c0 cs a hdesc hc
      hp hparse
    rw [hreg, hl] at hr
    simp [UFO.Deploy, bind, Run.bind, hr]
  · intro out c0 cs a rout e hdesc hc hp hparse hreg hupd
    have hr := RegisterTaskDefinitionWithImage_parseable u w c s version out c0 cs a hdesc hc
      hp hparse
    rw [hreg] at hr
    have hu := UpdateService_error_no_logger u
      { heap := w.heap.write a (capturedRepo (w.heap.cell a) ++ ":" ++ version),
        trace := w.trace ++
          [Event.DescribeTaskDefinition { TaskDefinition := s.TaskDefinition },
            Event.RegisterTaskDefinition (registerTaskDefinitionInputOf
              (w.heap.write a (capturedRepo (w.heap.cell a) ++ ":" ++ version))
              out.TaskDefinition)] } c s rout.TaskDefinition e hl hupd
    simp [UFO.Deploy, bind, Run.bind, hr, hu]

theorem capturedRepo_repo_colon_tag (R T : String) (hR : R ≠ "")
    (hws : ∀ ch ∈ (R ++ ":" ++ T).toList, isSpace ch = false) (hT : ':' ∉ T.toList) :
    capturedRepo (R ++ ":" ++ T) = R := by
  simp [capturedRepo, FindStringSubmatch_reRepoColon R T hR hws hT]

theorem parseable_repo_colon_tag (R T : String) (hR : R ≠ "")
    (hws : ∀ ch ∈ (R ++ ":" ++ T).toList, isSpace ch = false) (hT : ':' ∉ T.toList) :
    Parseable (R ++ ":" ++ T) := by
  simp [Parseable, FindStringSubmatch_reRepoColon R T hR hws hT]

theorem registerTaskDefinitionInputOf_eq (h : Heap) (t : TaskDefinition) :
    registerTaskDefinitionInputOf h t = (t.view h).registrable := rfl

/-- C18: for every service whose current task definition, as returned by
`DescribeTaskDefinition` with each string in a cell of its own, has the primary
image `R:T` (no white space, `R` non-empty, no `:` in `T`), the
`RegisterTaskDefinition` request that `RegisterTaskDefinitionWithImage` sends
right after `DescribeTaskDefinition` consists of the registrable fields (`Cpu`,
`Family`, `Memory`, `Volumes`, `NetworkMode`, `ExecutionRoleArn`, `TaskRoleArn`,
`RequiresCompatibilities`, all container definitions) of the current task
definition, except that the primary image is `R:version`; it is the only
request sent after `DescribeTaskDefinition`. -/
theorem registerTaskDefinitionWithImage_request (u : UFO) (w : World) (c : Cluster)
    (s : Service) (version : String) (out : DescribeTaskDefinitionOutput)
    (c0 : ContainerDefinition) (cs : List ContainerDefinition) (a : Addr) (R T : String)
    (hdesc : u.ECS.DescribeTaskDefinition w.trace { TaskDefinition := s.TaskDefinition }
      = .ok out)
    (hc : out.TaskDefinition.ContainerDefinitions = c0 :: cs) (hp : c0.Image = some a)
    (himg : w.heap.cell a = R ++ ":" ++ T) (hR : R ≠ "")
    (hws : ∀ ch ∈ (R ++ ":" ++ T).toList, isSpace ch = false) (hT : ':' ∉ T.toList)
    (hsep : some a ∉ out.TaskDefinition.otherPointers) :
    ∃ rest, (u.RegisterTaskDefinitionWithImage c s version w).2.trace
        = w.trace ++ Event.DescribeTaskDefinition { TaskDefinition := s.TaskDefinition }
          :: Event.RegisterTaskDefinition
              ((out.TaskDefinition.view w.heap).setPrimaryImage (R ++ ":" ++ version)).registrable
          :: rest
      ∧ requests rest = [] := by
  have hparse : Parseable (w.heap.cell a) := by
    rw [himg]
    exact parseable_repo_colon_tag R T hR hws hT
  have hrepo : capturedRepo (w.heap.cell a) = R := by
    rw [himg]
    exact capturedRepo_repo_colon_tag R T hR hws hT
  have hr := RegisterTaskDefinitionWithImage_parseable u w c s version out c0 cs a hdesc hc hp
    hparse
  have hview : registerTaskDefinitionInputOf
      (w.heap.write a (capturedRepo (w.heap.cell a) ++ ":" ++ version)) out.TaskDefinition
      = ((out.TaskDefinition.view w.heap).setPrimaryImage (R ++ ":" ++ version)).registrable := by
    rw [registerTaskDefinitionInputOf_eq, hrepo,
      TaskDefinition.view_write_primary w.heap a _ out.TaskDefinition c0 cs hc hp hsep]
  rw [hview] at hr
  cases hreg : u.ECS.RegisterTaskDefinition
      (w.trace ++ [Event.DescribeTaskDefinition { TaskDefinition := s.TaskDefinition }])
      ((out.TaskDefinition.view w.heap).setPrimaryImage (R ++ ":" ++ version)).registrable with
  | ok rout =>
    rw [hreg] at hr
    exact ⟨[], by rw [hr], rfl⟩
  | error e =>
    rw [hreg] at hr
    cases hl : u.l with
    | none =>
      rw [hl] at hr
      exact ⟨[], by rw [hr], rfl⟩
    | some lg =>
      rw [hl] at hr
      exact ⟨[Event.logError e], by rw [hr], rfl⟩

/-- C19: for every valid image string `x = R:T` (no white space, `R` non-empty,
`T` the text after its last `:`), rewriting a task definition whose primary
image is `x` to the tag that `x` already carries, `afterLastColon x`, gives a
task definition whose primary image is `x` again. -/
theorem updateTaskDefinitionImage_round_trip (u : UFO) (w : World) (t : TaskDefinition)
    (c : ContainerDefinition) (cs : List ContainerDefinition) (a : Addr) (R T : String)
    (hc : t.ContainerDefinitions = c :: cs) (hp : c.Image = some a)
    (himg : w.heap.cell a = R ++ ":" ++ T) (hR : R ≠ "")
    (hws : ∀ ch ∈ (R ++ ":" ++ T).toList, isSpace ch = false) (hT : ':' ∉ T.toList) :
    ∃ t1 w1, u.UpdateTaskDefinitionImage t (afterLastColon (w.heap.cell a)) w = (.ok t1, w1)
      ∧ t1.primaryImage w1.heap = some (w.heap.cell a) := by
  have hm : FindStringSubmatch reRepoColon (w.heap.cell a) = some [R ++ ":", R] := by
    rw [himg]
    exact FindStringSubmatch_reRepoColon R T hR hws hT
  have htag : afterLastColon (w.heap.cell a) = T := by
    rw [himg]
    exact afterLastColon_repo_colon_tag R T hT
  rw [htag]
  refine ⟨t, _, UpdateTaskDefinitionImage_ok u w t c cs a T R _ hc hp hm rfl, ?_⟩
  simp only [TaskDefinition.primaryImage, hc, hp, himg]
  exact Heap.read_write_same _ _ _

/-! ## `Clusters` and `Services` -/

/-- The longest suffix without `/` of a list of characters. -/
theorem lastSegment_toList (x : String) :
    (lastSegment x).toList = (x.toList.reverse.takeWhile notSlash).reverse := rfl

theorem matchAt_reLastSegment_all (s : List Char) (hs : s ≠ [])
    (hall : ∀ c ∈ s, notSlash c = true) : matchAt reLastSegment s = some ([], [s]) := by
  have hlen : 1 ≤ s.length := by
    cases s with
    | nil => exact absurd rfl hs
    | cons x xs => simp
  simp only [reLastSegment, matchAt, takeWhile_eq_self_of_all _ hall]
  have key := backtrack_found (fun t => if t.isEmpty = true then some (t, []) else none) s
    s.length s.length [] [] hlen (le_refl _) (by simp) (by intro j hj hj2; omega)
  simpa using key

theorem matchAt_reLastSegment_none (s : List Char) (hsome : ¬ ∀ c ∈ s, notSlash c = true) :
    matchAt reLastSegment s = none := by
  have hlt : (s.takeWhile notSlash).length < s.length := by
    rcases Nat.lt_or_ge (s.takeWhile notSlash).length s.length with h | h
    · exact h
    · exfalso
      apply hsome
      have hpre : s.takeWhile notSlash <+: s := List.takeWhile_prefix notSlash
      have heq : s.takeWhile notSlash = s := hpre.eq_of_length (by
        have := hpre.length_le
        omega)
      exact List.takeWhile_eq_self_iff.mp heq
  simp only [reLastSegment, matchAt]
  apply backtrack_none
  intro j _ hj
  have hne : s.drop j ≠ [] := by
    intro h
    have := List.drop_eq_nil_iff.mp h
    omega
  cases hd : s.drop j with
  | nil => exact absurd hd hne
  | cons y ys => simp

theorem lastChars_of_all (s : List Char) (hall : ∀ c ∈ s, notSlash c = true) :
    (s.reverse.takeWhile notSlash).reverse = s := by
  rw [takeWhile_eq_self_of_all s.reverse (fun c hc => hall c (List.mem_reverse.mp hc))]
  exact List.reverse_reverse s

theorem lastChars_cons (x : Char) (xs : List Char)
    (hsome : ¬ ∀ c ∈ x :: xs, notSlash c = true) :
    ((x :: xs).reverse.takeWhile notSlash).reverse
      = (xs.reverse.takeWhile notSlash).reverse := by
  rw [List.reverse_cons, List.takeWhile_append]
  by_cases hxs : ∀ c ∈ xs, notSlash c = true
  · have hx : notSlash x = false := by
      cases hnx : notSlash x with
      | false => rfl
      | true =>
        exfalso
        apply hsome
        intro c hc
        rcases List.mem_cons.mp hc with h | h
        · rw [h]; exact hnx
        · exact hxs c h
    have hfull : xs.reverse.takeWhile notSlash = xs.reverse :=
      takeWhile_eq_self_of_all xs.reverse (fun c hc => hxs c (List.mem_reverse.mp hc))
    rw [if_pos (by rw [hfull])]
    simp [List.takeWhile, hx, hfull]
  · have hne : (xs.reverse.takeWhile notSlash).length ≠ xs.reverse.length := by
      intro h
      apply hxs
      have hpre : xs.reverse.takeWhile notSlash <+: xs.reverse := List.takeWhile_prefix notSlash
      have heq := hpre.eq_of_length h
      intro c hc
      exact List.takeWhile_eq_self_iff.mp heq c (List.mem_reverse.mpr hc)
    rw [if_neg hne]

/-- With `([^\/]+)$`, the leftmost match of a text is its longest suffix without
`/`, and there is no match when that suffix is empty. -/
theorem findFrom_reLastSegment (s : List Char) :
    findFrom reLastSegment s
      = if (s.reverse.takeWhile notSlash).reverse = [] then none
        else some [(s.reverse.takeWhile notSlash).reverse,
          (s.reverse.takeWhile notSlash).reverse] := by
  induction s with
  | nil => simp [findFrom, reLastSegment, matchAt, backtrack]
  | cons x xs ih =>
    by_cases hall : ∀ c ∈ x :: xs, notSlash c = true
    · rw [lastChars_of_all _ hall]
      simp [findFrom, matchAt_reLastSegment_all (x :: xs) (by simp) hall]
    · rw [lastChars_cons x xs hall, findFrom, matchAt_reLastSegment_none _ hall]
      exact ih

theorem FindString_reLastSegment (x : String) :
    FindString reLastSegment x = lastSegment x := by
  have hdef : lastSegment x = String.mk (x.toList.reverse.takeWhile notSlash).reverse := rfl
  unfold FindString
  rw [findFrom_reLastSegment, hdef]
  by_cases h : (x.toList.reverse.takeWhile notSlash).reverse = []
  · rw [if_pos h, h]
  · rw [if_neg h]

theorem lastSegments_all (arns : List String) (w : World) :
    lastSegments (arns.map some) w = (.ok (arns.map lastSegment), w) := by
  induction arns with
  | nil => rfl
  | cons x xs ih =>
    simp [lastSegments, bind, Run.bind, deref, Run.pure, ih, pure, FindString_reLastSegment]

theorem lastSegment_suffix (x : String) : (lastSegment x).toList <:+ x.toList := by
  rw [lastSegment_toList, ← List.reverse_prefix, List.reverse_reverse]
  exact List.takeWhile_prefix notSlash

theorem lastSegment_no_slash (x : String) : '/' ∉ (lastSegment x).toList := by
  rw [lastSegment_toList]
  intro h
  have h1 := List.mem_takeWhile_imp (List.mem_reverse.mp h)
  simp [notSlash] at h1

theorem lastSegment_longest (x : String) (l : List Char) (hl : l <:+ x.toList)
    (hno : '/' ∉ l) : l.length ≤ (lastSegment x).toList.length := by
  rw [lastSegment_toList, List.length_reverse]
  obtain ⟨r, hr⟩ := List.reverse_prefix.mpr hl
  have hall : ∀ c ∈ l.reverse, notSlash c = true := by
    intro c hc
    have hne : c ≠ '/' := fun e => hno (e ▸ List.mem_reverse.mp hc)
    simp [notSlash, hne]
  rw [← hr, List.takeWhile_append_of_pos hall]
  simp

theorem lastSegment_of_no_slash (x : String) (hno : '/' ∉ x.toList) : lastSegment x = x := by
  apply String.ext
  have h := lastSegment_toList x
  rw [lastChars_of_all] at h
  · exact h
  · intro c hc
    have hne : c ≠ '/' := fun e => hno (e ▸ hc)
    simp [notSlash, hne]

/-- C20: for every successful `ListClusters` response whose ARNs are `arns`,
`Clusters` returns, with a nil error, the list `arns.map lastSegment`: same
length, same order, the `i`-th entry being the final path segment of the `i`-th
ARN; likewise `Services` for a successful `ListServices` response.  The final
path segment `lastSegment x` is a suffix of `x` without `/`, no suffix of `x`
without `/` is longer, and it is `x` itself when `x` has no `/`. -/
theorem clusters_services_last_segment (u : UFO) (w : World) (c : Cluster) :
    (∀ (out : ListClustersOutput) (arns : List String),
      u.ECS.ListClusters w.trace {} = .ok out → out.ClusterArns = arns.map some →
      (u.Clusters w).1 = .ok (arns.map lastSegment, none))
    ∧ (∀ (out : ListServicesOutput) (arns : List String),
      u.ECS.ListServices w.trace { Cluster := c.ClusterArn } = .ok out →
      out.ServiceArns = arns.map some →
      (u.Services c w).1 = .ok (arns.map lastSegment, none))
    ∧ (∀ x : String, (lastSegment x).toList <:+ x.toList ∧ '/' ∉ (lastSegment x).toList
        ∧ ∀ l : List Char, l <:+ x.toList → '/' ∉ l →
          l.length ≤ (lastSegment x).toList.length)
    ∧ (∀ x : String, '/' ∉ x.toList → lastSegment x = x) := by
  refine ⟨?_, ?_, ?_, lastSegment_of_no_slash⟩
  · intro out arns hlist harns
    simp [UFO.Clusters, bind, Run.bind, call, hlist, harns, lastSegments_all, pure, Run.pure]
  · intro out arns hlist harns
    simp [UFO.Services, bind, Run.bind, call, hlist, harns, lastSegments_all, pure, Run.pure]
  · intro x
    exact ⟨lastSegment_suffix x, lastSegment_no_slash x, lastSegment_longest x⟩

/-- Instance of C20: the responses of `TestUFOClusters`, and a `ListServices`
response with full ARNs. -/
theorem clusters_services_last_segment_witness :
    (UFO.Clusters (testUFO (mockedLists
        (.ok { ClusterArns := ["cluster1", "cluster2"].map some })
        (.error (GoError.sdk "unused")))) (worldOf [])).1
      = .ok (["cluster1", "cluster2"].map lastSegment, none)
    ∧ ["cluster1", "cluster2"].map lastSegment = ["cluster1", "cluster2"]
    ∧ (UFO.Services (testUFO (mockedLists (.error (GoError.sdk "unused"))
        (.ok { ServiceArns := ["arn:aws:ecs:us-west-1:111222333444:service/service1",
          "arn:aws:ecs:us-west-1:111222333444:service/prod/service2"].map some })))
        deployCluster (worldOf [])).1
      = .ok (["arn:aws:ecs:us-west-1:111222333444:service/service1",
          "arn:aws:ecs:us-west-1:111222333444:service/prod/service2"].map lastSegment, none)
    ∧ ["arn:aws:ecs:us-west-1:111222333444:service/service1",
        "arn:aws:ecs:us-west-1:111222333444:service/prod/service2"].map lastSegment
      = ["service1", "service2"] :=
  ⟨(clusters_services_last_segment
      (testUFO (mockedLists (.ok { ClusterArns := ["cluster1", "cluster2"].map some })
        (.error (GoError.sdk "unused")))) (worldOf []) deployCluster).1
      { ClusterArns := ["cluster1", "cluster2"].map some } ["cluster1", "cluster2"] rfl rfl,
    by decide,
    (clusters_services_last_segment
      (testUFO (mockedLists (.error (GoError.sdk "unused"))
        (.ok { ServiceArns := ["arn:aws:ecs:us-west-1:111222333444:service/service1",
          "arn:aws:ecs:us-west-1:111222333444:service/prod/service2"].map some })))
      (worldOf []) deployCluster).2.1
      { ServiceArns := ["arn:aws:ecs:us-west-1:111222333444:service/service1",
          "arn:aws:ecs:us-west-1:111222333444:service/prod/service2"].map some }
      ["arn:aws:ecs:us-west-1:111222333444:service/service1",
        "arn:aws:ecs:us-west-1:111222333444:service/prod/service2"] rfl rfl,
    by decide⟩

/-! ## Instances for `Deploy` -/

/-- Instance of C15: the current task definition has the primary image
`acct.example/app`, without `:`. -/
theorem deploy_unparseable_image_witness :
    ¬ Parseable ((worldOf ["acct.example/app"]).heap.cell 0)
    ∧ UFO.Deploy
        (testUFO (mockedDeploy
          (.ok { TaskDefinition := taskDefinitionOf [containerWithImage (some 0)] none })
          (.ok { TaskDefinition := registeredTaskDefinition })
          (.ok { Service := deployService })))
        deployCluster deployService "v2" (worldOf ["acct.example/app"])
      = (.error Panic.indexOutOfRange,
          { (worldOf ["acct.example/app"]) with
            trace := (worldOf ["acct.example/app"]).trace ++
              [Event.DescribeTaskDefinition { TaskDefinition := deployService.TaskDefinition }] }) :=
  ⟨by decide,
    deploy_unparseable_image _ (worldOf ["acct.example/app"]) deployCluster deployService "v2"
      { TaskDefinition := taskDefinitionOf [containerWithImage (some 0)] none }
      (containerWithImage (some 0)) [] 0 rfl rfl rfl (by decide)⟩

/-- Instance of C16: the case of `TestUFODeploy`, with ARNs on the cluster and the
service: the registered task definition comes back, and the three requests are
the ones listed. -/
theorem deploy_success_witness :
    Parseable ((worldOf deployCells).heap.cell 0)
    ∧ (UFO.Deploy
        (testUFO (mockedDeploy (.ok { TaskDefinition := describedTaskDefinition })
          (.ok { TaskDefinition := registeredTaskDefinition })
          (.ok { Service := deployService })))
        deployCluster deployService "8c018c8" (worldOf deployCells)).1
      = .ok (some registeredTaskDefinition, none)
    ∧ (UFO.Deploy
        (testUFO (mockedDeploy (.ok { TaskDefinition := describedTaskDefinition })
          (.ok { TaskDefinition := registeredTaskDefinition })
          (.ok { Service := deployService })))
        deployCluster deployService "8c018c8" (worldOf deployCells)).2.trace
      = (worldOf deployCells).trace ++
          [Event.DescribeTaskDefinition { TaskDefinition := deployService.TaskDefinition },
            Event.RegisterTaskDefinition (registerTaskDefinitionInputOf
              ((worldOf deployCells).heap.write 0
                (capturedRepo ((worldOf deployCells).heap.cell 0) ++ ":" ++ "8c018c8"))
              describedTaskDefinition),
            Event.UpdateService
              { Cluster := deployCluster.ClusterArn, Service := deployService.ServiceArn,
                TaskDefinition :=
                  ((worldOf deployCells).heap.write 0
                    (capturedRepo ((worldOf deployCells).heap.cell 0) ++ ":" ++ "8c018c8")).read
                    registeredTaskDefinition.TaskDefinitionArn }]
    ∧ ((worldOf deployCells).heap.write 0
          (capturedRepo ((worldOf deployCells).heap.cell 0) ++ ":" ++ "8c018c8")).read
        registeredTaskDefinition.TaskDefinitionArn = some "registered-taskdefarn" :=
  ⟨by decide,
    congrArg Prod.fst (deploy_success _ (worldOf deployCells) deployCluster deployService
      "8c018c8" { TaskDefinition := describedTaskDefinition } _ [] 0
      { TaskDefinition := registeredTaskDefinition } { Service := deployService }
      rfl rfl rfl (by decide) rfl rfl),
    congrArg (fun r => r.2.trace) (deploy_success _ (worldOf deployCells) deployCluster
      deployService "8c018c8" { TaskDefinition := describedTaskDefinition } _ [] 0
      { TaskDefinition := registeredTaskDefinition } { Service := deployService }
      rfl rfl rfl (by decide) rfl rfl),
    by decide⟩

/-- C17, evaluated where it fails: the cases of `TestUFODeployError3`,
`TestUFODeployError` and `TestUFODeployError2` on the `UFO` literal that the
tests build, which has no logger.  When `DescribeTaskDefinition`, when
`RegisterTaskDefinition` and when `UpdateService` fails, `Deploy` panics in
`logError` and returns nothing; the requests sent are those up to the failing
one, so `UpdateService` is not called in the first two runs.  On a `UFO` built by
`New` the same three runs return a nil task definition with a non-nil error. -/
theorem deploy_failure_panics_without_logger :
    (UFO.Deploy
        (testUFO (mockedDeploy (.error (GoError.sdk "test-error"))
          (.ok { TaskDefinition := registeredTaskDefinition })
          (.ok { Service := deployService })))
        deployCluster deployService "8c018c8" (worldOf deployCells)).1
      = .error Panic.nilDereference
    ∧ (UFO.Deploy
        (testUFO (mockedDeploy (.ok { TaskDefinition := describedTaskDefinition })
          (.error (GoError.sdk "test-error")) (.ok { Service := deployService })))
        deployCluster deployService "8c018c8" (worldOf deployCells)).1
      = .error Panic.nilDereference
    ∧ (UFO.Deploy
        (testUFO (mockedDeploy (.ok { TaskDefinition := describedTaskDefinition })
          (.ok { TaskDefinition := registeredTaskDefinition })
          (.error (GoError.sdk "test-error"))))
        deployCluster deployService "8c018c8" (worldOf deployCells)).1
      = .error Panic.nilDereference
    ∧ ((UFO.Deploy
        (testUFO (mockedDeploy (.error (GoError.sdk "test-error"))
          (.ok { TaskDefinition := registeredTaskDefinition })
          (.ok { Service := deployService })))
        deployCluster deployService "8c018c8" (worldOf deployCells)).2.trace.any
          Event.isUpdateService)
      = false
    ∧ ((UFO.Deploy
        (testUFO (mockedDeploy (.ok { TaskDefinition := describedTaskDefinition })
          (.error (GoError.sdk "test-error")) (.ok { Service := deployService })))
        deployCluster deployService "8c018c8" (worldOf deployCells)).2.trace.any
          Event.isUpdateService)
      = false
    ∧ (UFO.Deploy
        (New (mockedDeploy (.error (GoError.sdk "test-error"))
          (.ok { TaskDefinition := registeredTaskDefinition })
          (.ok { Service := deployService })) mockedECRClient)
        deployCluster deployService "8c018c8" (worldOf deployCells)).1
      = .ok (none, some GoError.ErrCouldNotRetrieveTaskDefinition)
    ∧ (UFO.Deploy
        (New (mockedDeploy (.ok { TaskDefinition := describedTaskDefinition })
          (.error (GoError.sdk "test-error")) (.ok { Service := deployService }))
          mockedECRClient)
        deployCluster deployService "8c018c8" (worldOf deployCells)).1
      = .ok (none, some GoError.ErrCouldNotRegisterTaskDefinition)
    ∧ (UFO.Deploy
        (New (mockedDeploy (.ok { TaskDefinition := describedTaskDefinition })
          (.ok { TaskDefinition := registeredTaskDefinition })
          (.error (GoError.sdk "test-error"))) mockedECRClient)
        deployCluster deployService "8c018c8" (worldOf deployCells)).1
      = .ok (none, some GoError.ErrCouldNotUpdateService) := by
  decide

/-- Instance of C18: the task definition of `TestUFODeploy` and the commit
`8c018c8`. -/
theorem registerTaskDefinitionWithImage_request_witness :
    (worldOf deployCells).heap.cell 0
        = "111222333444.dkr.ecr.us-west-1.amazonaws.com/image" ++ ":" ++ "cbd0d9c"
    ∧ some 0 ∉ describedTaskDefinition.otherPointers
    ∧ ∃ rest, (UFO.RegisterTaskDefinitionWithImage
          (testUFO (mockedDeploy (.ok { TaskDefinition := describedTaskDefinition })
            (.ok { TaskDefinition := registeredTaskDefinition })
            (.ok { Service := deployService })))
          deployCluster deployService "8c018c8" (worldOf deployCells)).2.trace
        = (worldOf deployCells).trace
          ++ Event.DescribeTaskDefinition { TaskDefinition := deployService.TaskDefinition }
          :: Event.RegisterTaskDefinition
              ((describedTaskDefinition.view (worldOf deployCells).heap).setPrimaryImage
                ("111222333444.dkr.ecr.us-west-1.amazonaws.com/image" ++ ":" ++ "8c018c8")
              ).registrable
          :: rest
      ∧ requests rest = [] :=
  ⟨by decide, by decide,
    registerTaskDefinitionWithImage_request _ (worldOf deployCells) deployCluster deployService
      "8c018c8" { TaskDefinition := describedTaskDefinition } _ [] 0
      "111222333444.dkr.ecr.us-west-1.amazonaws.com/image" "cbd0d9c" rfl rfl rfl (by decide)
      (by decide) (by decide) (by decide) (by decide)⟩

/-- Instance of C19: `acct.example/app:v1` rewritten to its own tag. -/
theorem updateTaskDefinitionImage_round_trip_witness :
    (worldOf ["acct.example/app:v1"]).heap.cell 0 = "acct.example/app" ++ ":" ++ "v1"
    ∧ afterLastColon ((worldOf ["acct.example/app:v1"]).heap.cell 0) = "v1"
    ∧ ∃ t1 w1, UFO.UpdateTaskDefinitionImage (testUFO failingECS)
          (taskDefinitionOf [containerWithImage (some 0)] none)
          (afterLastColon ((worldOf ["acct.example/app:v1"]).heap.cell 0))
          (worldOf ["acct.example/app:v1"]) = (.ok t1, w1)
        ∧ t1.primaryImage w1.heap = some ((worldOf ["acct.example/app:v1"]).heap.cell 0) :=
  ⟨by decide, by decide,
    updateTaskDefinitionImage_round_trip (testUFO failingECS) (worldOf ["acct.example/app:v1"])
      (taskDefinitionOf [containerWithImage (some 0)] none) (containerWithImage (some 0)) [] 0
      "acct.example/app" "v1" rfl rfl (by decide) (by decide) (by decide) (by decide)⟩

/-! ## Errors of `Clusters`, `Services` and `RunningTasks` -/

/-- C21, evaluated where it fails.  On a `UFO` built by `New`, when `ListClusters`
fails with `test-error` (as in `TestUFOClustersError`) and when it fails with
`access denied`, `Clusters` returns the same error, `ErrFailedToListClusters`,
with an empty list: the error returned is one fixed value of the package and
carries nothing of the cause.  `Services` and `RunningTasks` do the same with
`ErrFailedToListServices` and `ErrFailedToListRunningTasks`.  On the `UFO`
literal of the tests, which has no logger, the three calls panic in `logError`
and return nothing. -/
theorem list_errors_do_not_carry_the_cause :
    GoError.sdk "test-error" ≠ GoError.sdk "access denied"
    ∧ (UFO.Clusters (New (mockedLists (.error (GoError.sdk "test-error"))
        (.error (GoError.sdk "test-error"))) mockedECRClient) (worldOf [])).1
      = .ok ([], some GoError.ErrFailedToListClusters)
    ∧ (UFO.Clusters (New (mockedLists (.error (GoError.sdk "access denied"))
        (.error (GoError.sdk "access denied"))) mockedECRClient) (worldOf [])).1
      = .ok ([], some GoError.ErrFailedToListClusters)
    ∧ (UFO.Services (New (mockedLists (.error (GoError.sdk "test-error"))
        (.error (GoError.sdk "test-error"))) mockedECRClient) deployCluster (worldOf [])).1
      = .ok ([], some GoError.ErrFailedToListServices)
    ∧ (UFO.Services (New (mockedLists (.error (GoError.sdk "access denied"))
        (.error (GoError.sdk "access denied"))) mockedECRClient) deployCluster (worldOf [])).1
      = .ok ([], some GoError.ErrFailedToListServices)
    ∧ (UFO.RunningTasks (New (mockedECS (.error (GoError.sdk "test-error"))
        (.error (GoError.sdk "unused")) (.error (GoError.sdk "unused"))) mockedECRClient)
        testCluster (testService (some 1)) (worldOf [])).1
      = .ok ([], some GoError.ErrFailedToListRunningTasks)
    ∧ (UFO.RunningTasks (New (mockedECS (.error (GoError.sdk "access denied"))
        (.error (GoError.sdk "unused")) (.error (GoError.sdk "unused"))) mockedECRClient)
        testCluster (testService (some 1)) (worldOf [])).1
      = .ok ([], some GoError.ErrFailedToListRunningTasks)
    ∧ (UFO.Clusters (testUFO (mockedLists (.error (GoError.sdk "test-error"))
        (.error (GoError.sdk "test-error")))) (worldOf [])).1
      = .error Panic.nilDereference
    ∧ (UFO.Services (testUFO (mockedLists (.error (GoError.sdk "test-error"))
        (.error (GoError.sdk "test-error")))) deployCluster (worldOf [])).1
      = .error Panic.nilDereference
    ∧ (UFO.RunningTasks (testUFO (mockedECS (.error (GoError.sdk "test-error"))
        (.error (GoError.sdk "unused")) (.error (GoError.sdk "unused"))))
        testCluster (testService (some 1)) (worldOf [])).1
      = .error Panic.nilDereference := by
  exact ⟨by decide, by decide, by decide, by decide, by decide, by decide, by decide,
    by decide, by decide, by decide⟩

/-! ## `GetCluster`, `GetService` and the empty container list -/

/-- C22: for every successful `DescribeClusters` response, `GetCluster` returns
nil with `ErrClusterNotFound` if the response lists no cluster, and otherwise
the first listed cluster with a nil error; likewise `GetService` with
`DescribeServices` and `ErrServiceNotFound`. -/
theorem getCluster_getService_first_or_not_found (u : UFO) (w : World) (c : Cluster)
    (name : String) :
    (∀ out, u.ECS.DescribeClusters w.trace { Clusters := [some name] } = .ok out →
      out.Clusters = [] →
      (u.GetCluster name w).1 = .ok (none, some GoError.ErrClusterNotFound))
    ∧ (∀ out first rest, u.ECS.DescribeClusters w.trace { Clusters := [some name] } = .ok out →
      out.Clusters = first :: rest →
      (u.GetCluster name w).1 = .ok (some first, none))
    ∧ (∀ out, u.ECS.DescribeServices w.trace
        { Cluster := c.ClusterArn, Services := [some name] } = .ok out →
      out.Services = [] →
      (u.GetService c name w).1 = .ok (none, some GoError.ErrServiceNotFound))
    ∧ (∀ out first rest, u.ECS.DescribeServices w.trace
        { Cluster := c.ClusterArn, Services := [some name] } = .ok out →
      out.Services = first :: rest →
      (u.GetService c name w).1 = .ok (some first, none)) := by
  refine ⟨?_, ?_, ?_, ?_⟩
  · intro out hdesc hnil
    simp [UFO.GetCluster, bind, Run.bind, call, hdesc, hnil, pure, Run.pure]
  · intro out first rest hdesc hcons
    simp [UFO.GetCluster, bind, Run.bind, call, hdesc, hcons, pure, Run.pure, index]
  · intro out hdesc hnil
    simp [UFO.GetService, bind, Run.bind, call, hdesc, hnil, pure, Run.pure]
  · intro out first rest hdesc hcons
    simp [UFO.GetService, bind, Run.bind, call, hdesc, hcons, pure, Run.pure, index]

/-- Instance of C22: the responses of `TestUFOGetClusterError` and of
`TestUFOGetCluster`, and the same for services. -/
theorem getCluster_getService_first_or_not_found_witness :
    (UFO.GetCluster (testUFO (mockedDescribes (.ok { Clusters := [] })
        (.ok { Services := [] }))) "test-cluster" (worldOf [])).1
      = .ok (none, some GoError.ErrClusterNotFound)
    ∧ (UFO.GetCluster (testUFO (mockedDescribes (.ok { Clusters := [namedCluster, testCluster] })
        (.ok { Services := [] }))) "test-cluster" (worldOf [])).1
      = .ok (some namedCluster, none)
    ∧ (UFO.GetService (testUFO (mockedDescribes (.ok { Clusters := [] })
        (.ok { Services := [] }))) namedCluster "test-service" (worldOf [])).1
      = .ok (none, some GoError.ErrServiceNotFound)
    ∧ (UFO.GetService (testUFO (mockedDescribes (.ok { Clusters := [] })
        (.ok { Services := [deployService] }))) namedCluster "test-service" (worldOf [])).1
      = .ok (some deployService, none) :=
  ⟨(getCluster_getService_first_or_not_found _ (worldOf []) namedCluster "test-cluster").1
      { Clusters := [] } rfl rfl,
    (getCluster_getService_first_or_not_found _ (worldOf []) namedCluster "test-cluster").2.1
      { Clusters := [namedCluster, testCluster] } namedCluster [testCluster] rfl rfl,
    (getCluster_getService_first_or_not_found _ (worldOf []) namedCluster "test-service").2.2.1
      { Services := [] } rfl rfl,
    (getCluster_getService_first_or_not_found _ (worldOf []) namedCluster "test-service").2.2.2
      { Services := [deployService] } deployService [] rfl rfl⟩

/-- C23: for every successful `DescribeTaskDefinition` response whose task
definition has no container definition, `GetLastDeployedCommit` returns the
empty string together with `ErrInvalidTaskDefinition`; the run does not panic,
so the empty list is not indexed, and it sends nothing further. -/
theorem getLastDeployedCommit_no_container (u : UFO) (w : World) (taskDefinition : String)
    (out : DescribeTaskDefinitionOutput)
    (hresp : u.ECS.DescribeTaskDefinition w.trace { TaskDefinition := some taskDefinition }
      = .ok out)
    (hnil : out.TaskDefinition.ContainerDefinitions = []) :
    u.GetLastDeployedCommit taskDefinition w
      = (.ok ("", some GoError.ErrInvalidTaskDefinition),
          { w with trace := w.trace ++
            [Event.DescribeTaskDefinition { TaskDefinition := some taskDefinition }] }) := by
  simp [UFO.GetLastDeployedCommit, bind, Run.bind, call, hresp, hnil, pure, Run.pure]

/-- Instance of C23: the response of `TestUFOGetLastDeployedCommitError`. -/
theorem getLastDeployedCommit_no_container_witness :
    UFO.GetLastDeployedCommit
        (testUFO (mockedECS (.error (GoError.sdk "unused")) (.error (GoError.sdk "unused"))
          (.ok { TaskDefinition := taskDefinitionOf [] none })))
        "error-taskdef" (worldOf [])
      = (.ok ("", some GoError.ErrInvalidTaskDefinition),
          { (worldOf []) with trace := (worldOf []).trace ++
            [Event.DescribeTaskDefinition { TaskDefinition := some "error-taskdef" }] }) :=
  getLastDeployedCommit_no_container _ (worldOf []) "error-taskdef"
    { TaskDefinition := taskDefinitionOf [] none } rfl rfl

/-! ## `GetRepoFromImage` and `GetImages` -/

/-- With `\/(\S+):`, a text `H/M:T` with no `/` in `H`, `M` non-empty, no white
space in `M` and `T` and no `:` in `T` has its leftmost match at the first `/`,
and the group captures `M`. -/
theorem findFrom_reSlashRepoColon (H M T : List Char) (hH : '/' ∉ H) (hM : M ≠ [])
    (hMs : ∀ c ∈ M, notSpace c = true) (hTs : ∀ c ∈ T, notSpace c = true) (hT : ':' ∉ T) :
    findFrom reSlashRepoColon (H ++ '/' :: (M ++ ':' :: T)) = some ['/' :: (M ++ [':']), M] := by
  have hm : matchAt reSlashRepoColon ('/' :: (M ++ ':' :: T)) = some (T, [M]) := by
    have h := matchAt_reRepoColon M T hM hMs hTs hT
    show (if '/' = '/' then matchAt reRepoColon (M ++ ':' :: T) else none) = some (T, [M])
    rw [if_pos rfl]
    exact h
  induction H with
  | nil =>
    simp only [List.nil_append, findFrom, hm]
    have hl : ('/' :: (M ++ ':' :: T)).length - T.length = ('/' :: (M ++ [':'])).length := by
      simp; omega
    rw [hl]
    have : '/' :: (M ++ ':' :: T) = ('/' :: (M ++ [':'])) ++ T := by simp
    rw [this, List.take_left]
  | cons x xs ih =>
    have hx : x ≠ '/' := fun e => hH (by simp [e])
    have hn : matchAt reSlashRepoColon (x :: (xs ++ '/' :: (M ++ ':' :: T))) = none := by
      simp [reSlashRepoColon, matchAt, hx]
    rw [List.cons_append, findFrom, hn]
    exact ih (fun h => hH (List.mem_cons_of_mem _ h))

theorem toList_host_repo_tag (H M T : String) :
    (H ++ "/" ++ M ++ ":" ++ T).toList = H.toList ++ '/' :: (M.toList ++ ':' :: T.toList) := by
  simp [String.toList]

theorem FindStringSubmatch_reSlashRepoColon (H M T : String) (hH : '/' ∉ H.toList)
    (hM : M ≠ "") (hws : ∀ ch ∈ (H ++ "/" ++ M ++ ":" ++ T).toList, isSpace ch = false)
    (hT : ':' ∉ T.toList) :
    FindStringSubmatch reSlashRepoColon (H ++ "/" ++ M ++ ":" ++ T)
      = some ["/" ++ M ++ ":", M] := by
  rw [toList_host_repo_tag] at hws
  have hM1 : M.toList ≠ [] := by
    intro h
    apply hM
    cases M with
    | mk d => simp [String.toList] at h; subst h; rfl
  have h := findFrom_reSlashRepoColon H.toList M.toList T.toList hH hM1
    (fun c hc => by
      simp [notSpace, hws c (List.mem_append_right _ (List.mem_cons_of_mem _
        (List.mem_append_left _ hc)))])
    (fun c hc => by
      simp [notSpace, hws c (List.mem_append_right _ (List.mem_cons_of_mem _
        (List.mem_append_right _ (List.mem_cons_of_mem _ hc))))])
    hT
  simp only [FindStringSubmatch, toList_host_repo_tag, h]
  simp
  apply String.ext
  simp

theorem GetRepoFromImage_ok (u : UFO) (w : World) (a : Addr) (ms : List String)
    (repo : String)
    (hm : FindStringSubmatch reSlashRepoColon (w.heap.cell a) = some ms)
    (h1 : ms.get? 1 = some repo) :
    u.GetRepoFromImage (some a) w = (.ok repo, w) := by
  rw [List.get?_eq_getElem?] at h1
  simp [UFO.GetRepoFromImage, bind, Run.bind, readStr, liftExcept, hm, indexSubmatch, h1, pure,
    Run.pure]

theorem appendTagged_eq (images details : List ImageDetail) :
    appendTagged images details
      = images ++ details.filter (fun image => image.ImageTags.isSome) := by
  induction details generalizing images with
  | nil => simp [appendTagged]
  | cons image rest ih =>
    cases htags : image.ImageTags with
    | none => simp [appendTagged, htags, ih]
    | some tags => simp [appendTagged, htags, ih]

/-- C24: for every successful `DescribeImages` response (asked about the
repository that `GetRepoFromImage` reads out of the primary image), `GetImages`
returns, with a nil error, a list that is not `nil` and holds exactly the images
of the response whose `ImageTags` is not `nil`, in their original order; for a
response without image details this list is empty. -/
theorem getImages_keeps_tagged (u : UFO) (w : World) (t : TaskDefinition)
    (c : ContainerDefinition) (cs : List ContainerDefinition) (repoName : String)
    (out : DescribeImagesOutput)
    (hc : t.ContainerDefinitions = c :: cs)
    (hrepo : u.GetRepoFromImage c.Image w = (.ok repoName, w))
    (hresp : u.ECR.DescribeImages w.trace { RepositoryName := some repoName } = .ok out) :
    (u.GetImages t w).1
        = .ok (some (out.ImageDetails.filter (fun image => image.ImageTags.isSome)), none)
      ∧ (out.ImageDetails = [] → (u.GetImages t w).1 = .ok (some [], none)) := by
  have h : (u.GetImages t w).1
      = .ok (some (out.ImageDetails.filter (fun image => image.ImageTags.isSome)), none) := by
    simp [UFO.GetImages, bind, Run.bind, index, hc, Run.pure, hrepo, call, hresp, pure,
      appendTagged_eq]
  refine ⟨h, ?_⟩
  intro hnil
  rw [h, hnil]
  rfl

/-- Instance of C24: the two responses of `TestUFOGetImages`; in the first an
image without tags stands between the two tagged ones. -/
theorem getImages_keeps_tagged_witness :
    ((UFO.GetImages { l := none, ECS := failingECS, ECR := mockedDescribeImages (.ok taggedImages) }
          imagesTaskDefinition (worldOf imagesCells)).1
        = .ok (some (taggedImages.ImageDetails.filter (fun image => image.ImageTags.isSome)),
            none)
      ∧ (taggedImages.ImageDetails = [] →
          (UFO.GetImages { l := none, ECS := failingECS, ECR := mockedDescribeImages (.ok taggedImages) }
            imagesTaskDefinition (worldOf imagesCells)).1 = .ok (some [], none)))
    ∧ taggedImages.ImageDetails.filter (fun image => image.ImageTags.isSome)
        = [{ ImageTags := some [some "tag1"], ImageDigest := none },
           { ImageTags := some [some "tag2"], ImageDigest := none }]
    ∧ ((UFO.GetImages
          { l := none, ECS := failingECS, ECR := mockedDescribeImages (.ok { ImageDetails := [] }) }
          imagesTaskDefinition (worldOf imagesCells)).1
        = .ok (some (([] : List ImageDetail).filter (fun image => image.ImageTags.isSome)),
            none)
      ∧ (([] : List ImageDetail) = [] →
          (UFO.GetImages
            { l := none, ECS := failingECS, ECR := mockedDescribeImages (.ok { ImageDetails := [] }) }
            imagesTaskDefinition (worldOf imagesCells)).1 = .ok (some [], none))) :=
  ⟨getImages_keeps_tagged
      { l := none, ECS := failingECS, ECR := mockedDescribeImages (.ok taggedImages) }
      (worldOf imagesCells) imagesTaskDefinition (containerWithImage (some 0)) [] "image"
      taggedImages rfl
      (GetRepoFromImage_ok _ _ 0 ["/image:", "image"] "image" (by decide) rfl) rfl,
    by decide,
    getImages_keeps_tagged
      { l := none, ECS := failingECS, ECR := mockedDescribeImages (.ok { ImageDetails := [] }) }
      (worldOf imagesCells) imagesTaskDefinition (containerWithImage (some 0)) [] "image"
      { ImageDetails := [] } rfl
      (GetRepoFromImage_ok _ _ 0 ["/image:", "image"] "image" (by decide) rfl) rfl⟩

/-! ## `RunTask` -/

theorem splitChars_ne_nil (sep : Char) (l : List Char) : splitChars sep l ≠ [] := by
  cases l with
  | nil => simp [splitChars]
  | cons c cs =>
    by_cases hc : c = sep
    · simp [splitChars, hc]
    · cases hs : splitChars sep cs with
      | nil => simp [splitChars, hc, hs]
      | cons p ps => simp [splitChars, hc, hs]

theorem splitChars_no_sep (sep : Char) (l : List Char) :
    ∀ piece ∈ splitChars sep l, sep ∉ piece := by
  induction l with
  | nil => simp [splitChars]
  | cons c cs ih =>
    by_cases hc : c = sep
    · intro piece hp
      simp only [splitChars, hc, if_true, List.mem_cons] at hp
      rcases hp with h | h
      · rw [h]; simp
      · exact ih piece h
    · cases hs : splitChars sep cs with
      | nil => exact absurd hs (splitChars_ne_nil sep cs)
      | cons p ps =>
        rw [hs] at ih
        intro piece hp
        simp only [splitChars, hc, if_false, hs, List.mem_cons] at hp
        rcases hp with h | h
        · rw [h]
          intro hm
          rcases List.mem_cons.mp hm with h1 | h1
          · exact hc h1.symm
          · exact ih p (List.mem_cons_self _ _) h1
        · exact ih piece (List.mem_cons_of_mem _ h)

theorem stringsJoin_splitChars (l : List Char) :
    stringsJoin ((splitChars ' ' l).map String.mk) " " = String.mk l := by
  induction l with
  | nil => rfl
  | cons c cs ih =>
    cases hs : splitChars ' ' cs with
    | nil => exact absurd hs (splitChars_ne_nil ' ' cs)
    | cons p ps =>
      rw [hs] at ih
      by_cases hc : c = ' '
      · simp only [splitChars, hc, if_true, hs, List.map_cons, stringsJoin] at ih ⊢
        rw [ih]
        apply String.ext
        simp
      · cases ps with
        | nil =>
          simp only [splitChars, hc, if_false, hs, List.map_cons, List.map_nil, stringsJoin]
            at ih ⊢
          have hp : p = cs := by
            have := congrArg String.data ih
            simpa using this
          rw [hp]
        | cons q qs =>
          simp only [splitChars, hc, if_false, hs, List.map_cons, stringsJoin] at ih ⊢
          have hd := congrArg String.data ih
          apply String.ext
          simp only [String.data_append] at hd ⊢
          simp only [List.cons_append, List.append_assoc] at hd ⊢
          rw [hd]

theorem stringsJoin_stringsSplit (cmd : String) :
    stringsJoin (stringsSplit cmd ' ') " " = cmd := by
  unfold stringsSplit
  rw [stringsJoin_splitChars]
  rfl

theorem stringsSplit_no_space (cmd : String) :
    ∀ piece ∈ stringsSplit cmd ' ', ' ' ∉ piece.toList := by
  intro piece hp
  unfold stringsSplit at hp
  obtain ⟨l, hl, rfl⟩ := List.mem_map.mp hp
  exact splitChars_no_sep ' ' cmd.toList l hl

/-- C25: for every command string `cmd` and every task definition with a primary
container, `RunTask` sends exactly one request, a `RunTask` with one container
override whose `Name` is the name of the primary container and whose `Command`
is `cmd` split at every space: the pieces contain no space, and joined with
single spaces they give back `cmd`. -/
theorem runTask_request (u : UFO) (w : World) (c : Cluster) (t : TaskDefinition)
    (c0 : ContainerDefinition) (cs : List ContainerDefinition) (cmd : String)
    (hc : t.ContainerDefinitions = c0 :: cs) :
    ∃ rest, (u.RunTask c t cmd w).2.trace
        = w.trace ++ Event.RunTask
            { Cluster := c.ClusterName
              TaskDefinition := w.heap.read t.TaskDefinitionArn
              Overrides := some { ContainerOverrides :=
                [{ Command := (stringsSplit cmd ' ').map some,
                   Name := w.heap.read c0.Name }] } } :: rest
      ∧ requests rest = []
      ∧ stringsJoin (stringsSplit cmd ' ') " " = cmd
      ∧ ∀ piece ∈ stringsSplit cmd ' ', ' ' ∉ piece.toList := by
  cases hrun : u.ECS.RunTask w.trace
      { Cluster := c.ClusterName
        TaskDefinition := w.heap.read t.TaskDefinitionArn
        Overrides := some { ContainerOverrides :=
          [{ Command := (stringsSplit cmd ' ').map some, Name := w.heap.read c0.Name }] } } with
  | ok out =>
    refine ⟨[], ?_, rfl, stringsJoin_stringsSplit cmd, stringsSplit_no_space cmd⟩
    simp [UFO.RunTask, bind, Run.bind, snapshot, index, hc, Run.pure, call, hrun, pure]
  | error e =>
    cases hl : u.l with
    | none =>
      refine ⟨[], ?_, rfl, stringsJoin_stringsSplit cmd, stringsSplit_no_space cmd⟩
      simp [UFO.RunTask, bind, Run.bind, snapshot, index, hc, Run.pure, call, hrun, pure,
        UFO.logError, hl]
    | some lg =>
      refine ⟨[Event.logError e], ?_, rfl, stringsJoin_stringsSplit cmd,
        stringsSplit_no_space cmd⟩
      simp [UFO.RunTask, bind, Run.bind, snapshot, index, hc, Run.pure, call, hrun, pure,
        UFO.logError, hl]

/-- Instance of C25: the call of `TestUFORunTask`, `echo this`. -/
theorem runTask_request_witness :
    stringsSplit "echo this" ' ' = ["echo", "this"]
    ∧ ∃ rest, (UFO.RunTask (testUFO (mockedRunTask (.ok { Tasks := [] }))) testCluster
          runTaskDefinition "echo this" (worldOf imagesCells)).2.trace
        = (worldOf imagesCells).trace ++ Event.RunTask
            { Cluster := testCluster.ClusterName
              TaskDefinition := (worldOf imagesCells).heap.read runTaskDefinition.TaskDefinitionArn
              Overrides := some { ContainerOverrides :=
                [{ Command := (stringsSplit "echo this" ' ').map some,
                   Name := (worldOf imagesCells).heap.read (some 2) }] } } :: rest
      ∧ requests rest = []
      ∧ stringsJoin (stringsSplit "echo this" ' ') " " = "echo this"
      ∧ ∀ piece ∈ stringsSplit "echo this" ' ', ' ' ∉ piece.toList :=
  ⟨by decide,
    runTask_request (testUFO (mockedRunTask (.ok { Tasks := [] }))) (worldOf imagesCells)
      testCluster runTaskDefinition _ [] "echo this" rfl⟩

/-! ## The repository name, and rewriting followed by reading -/

/-- C26: for every image string `H/M:T` without white space, where `H` contains
no `/`, `M` is non-empty and `T` contains no `:` (so that `M` is the text between
the first `/` and the last `:`), `GetRepoFromImage` returns `M`, and the
statements of `describeImages` in `backend/ecr.go` that derive the repository
name from the primary image of the current task definition give `M` as well. -/
theorem getRepoFromImage_between_slash_and_colon (u : UFO) (w : World) (a : Addr)
    (H M T : String) (td : TaskDefinition) (c : ContainerDefinition)
    (cs : List ContainerDefinition)
    (himg : w.heap.cell a = H ++ "/" ++ M ++ ":" ++ T) (hH : '/' ∉ H.toList) (hM : M ≠ "")
    (hws : ∀ ch ∈ (H ++ "/" ++ M ++ ":" ++ T).toList, isSpace ch = false)
    (hT : ':' ∉ T.toList)
    (hc : td.ContainerDefinitions = c :: cs) (hp : c.Image = some a) :
    u.GetRepoFromImage (some a) w = (.ok M, w)
      ∧ repoNameOfCurrentImage td w = (.ok M, w) := by
  have hm : FindStringSubmatch reSlashRepoColon (w.heap.cell a) = some ["/" ++ M ++ ":", M] := by
    rw [himg]
    exact FindStringSubmatch_reSlashRepoColon H M T hH hM hws hT
  refine ⟨GetRepoFromImage_ok u w a _ M hm rfl, ?_⟩
  simp [repoNameOfCurrentImage, bind, Run.bind, index, hc, Run.pure, readStr, hp, liftExcept,
    hm, indexSubmatch, pure]

/-- Instance of C26: the image of `TestUFOGetImages`. -/
theorem getRepoFromImage_between_slash_and_colon_witness :
    (worldOf imagesCells).heap.cell 0
        = "111222333444.dkr.ecr.us-west-1.amazonaws.com" ++ "/" ++ "image" ++ ":" ++ "ea13366"
    ∧ UFO.GetRepoFromImage (testUFO failingECS) (some 0) (worldOf imagesCells)
        = (.ok "image", worldOf imagesCells)
    ∧ repoNameOfCurrentImage imagesTaskDefinition (worldOf imagesCells)
        = (.ok "image", worldOf imagesCells) :=
  ⟨by decide,
    getRepoFromImage_between_slash_and_colon (testUFO failingECS) (worldOf imagesCells) 0
      "111222333444.dkr.ecr.us-west-1.amazonaws.com" "image" "ea13366" imagesTaskDefinition
      (containerWithImage (some 0)) [] (by decide) (by decide) (by decide) (by decide)
      (by decide) rfl rfl⟩

theorem no_space_repo_colon_version (R T v : String)
    (hws : ∀ ch ∈ (R ++ ":" ++ T).toList, isSpace ch = false)
    (hvs : ∀ ch ∈ v.toList, isSpace ch = false) :
    ∀ ch ∈ (R ++ ":" ++ v).toList, isSpace ch = false := by
  rw [toList_repo_colon_tag] at hws ⊢
  intro ch hch
  rcases List.mem_append.mp hch with h | h
  · exact hws ch (List.mem_append_left _ h)
  · rcases List.mem_cons.mp h with h1 | h1
    · exact hws ch (List.mem_append_right _ (by rw [h1]; exact List.mem_cons_self _ _))
    · exact hvs ch h1

/-- C27, evaluated where it fails: the primary image is `acct/app:v1@sha256:dead`,
without white space, and the text `acct/app` before its first `:` is non-empty.
`UpdateTaskDefinitionImage(t, v2)` keeps everything up to the last `:` and
writes `acct/app:v1@sha256:v2`; `GetLastDeployedCommit` reads from the first `:`
on and reports `v1@sha256:v2`, not `v2`. -/
theorem deployed_version_is_not_reported :
    (worldOf ["acct/app:v1@sha256:dead"]).heap.cell 0 = "acct/app" ++ ":" ++ "v1@sha256:dead"
    ∧ ':' ∉ "acct/app".toList
    ∧ (UFO.UpdateTaskDefinitionImage (testUFO failingECS)
        (taskDefinitionOf [containerWithImage (some 0)] none) "v2"
        (worldOf ["acct/app:v1@sha256:dead"])).2.heap.cell 0 = "acct/app:v1@sha256:v2"
    ∧ (UFO.GetLastDeployedCommit
        (testUFO (mockedECS (.error (GoError.sdk "unused")) (.error (GoError.sdk "unused"))
          (.ok { TaskDefinition := taskDefinitionOf [containerWithImage (some 0)] none })))
        "taskdef"
        (UFO.UpdateTaskDefinitionImage (testUFO failingECS)
          (taskDefinitionOf [containerWithImage (some 0)] none) "v2"
          (worldOf ["acct/app:v1@sha256:dead"])).2).1 = .ok ("v1@sha256:v2", none)
    ∧ "v1@sha256:v2" ≠ "v2" := by
  decide

/-- C27 as amended: for every primary image `R:T` without white space, with `R`
non-empty and neither `R` nor `T` containing `:`, and every non-empty version
`v` without white space: after `UpdateTaskDefinitionImage(t, v)`, a
`GetLastDeployedCommit` whose `DescribeTaskDefinition` returns the rewritten
task definition reports exactly `v`, with a nil error. -/
theorem deployed_version_is_reported (u : UFO) (w : World) (t : TaskDefinition)
    (c : ContainerDefinition) (cs : List ContainerDefinition) (a : Addr) (R T v : String)
    (name : String)
    (hc : t.ContainerDefinitions = c :: cs) (hp : c.Image = some a)
    (himg : w.heap.cell a = R ++ ":" ++ T) (hR : R ≠ "") (hRc : ':' ∉ R.toList)
    (hws : ∀ ch ∈ (R ++ ":" ++ T).toList, isSpace ch = false) (hT : ':' ∉ T.toList)
    (hv : v ≠ "") (hvs : ∀ ch ∈ v.toList, isSpace ch = false) :
    ∃ t1 w1, u.UpdateTaskDefinitionImage t v w = (.ok t1, w1)
      ∧ t1.primaryImage w1.heap = some (R ++ ":" ++ v)
      ∧ ∀ out, u.ECS.DescribeTaskDefinition w1.trace { TaskDefinition := some name } = .ok out →
          out.TaskDefinition = t1 →
          (u.GetLastDeployedCommit name w1).1 = .ok (v, none) := by
  have hm : FindStringSubmatch reRepoColon (w.heap.cell a) = some [R ++ ":", R] := by
    rw [himg]
    exact FindStringSubmatch_reRepoColon R T hR hws hT
  refine ⟨t, { w with heap := w.heap.write a (R ++ ":" ++ v) },
    UpdateTaskDefinitionImage_ok u w t c cs a v R _ hc hp hm rfl, ?_, ?_⟩
  · simp only [TaskDefinition.primaryImage, hc, hp]
    exact Heap.read_write_same _ _ _
  · intro out hresp hout
    have hcell : ({ w with heap := w.heap.write a (R ++ ":" ++ v) } : World).heap.cell a
        = R ++ ":" ++ v := by
      simp [Heap.write]
    have hm2 : FindStringSubmatch reColonTag
        (({ w with heap := w.heap.write a (R ++ ":" ++ v) } : World).heap.cell a)
        = some [":" ++ v, v] := by
      rw [hcell]
      exact FindStringSubmatch_reColonTag R v hRc hv hvs
    rw [GetLastDeployedCommit_ok u _ name out c cs a v _ hresp (by rw [hout, hc]) hp hm2 rfl]

/-- C28: for every task definition `t` whose primary image is `R:T` without white
space (`R` non-empty, `T` the text after the last `:`), every version `v1`
containing neither `:` nor white space and every version `v2`, rewriting to
`v1` and then to `v2` leaves the same primary image as rewriting `t` to `v2`
directly, namely `R:v2`: the repository part is preserved, and the last write
wins. -/
theorem updateTaskDefinitionImage_last_write_wins (u : UFO) (w : World)
    (t : TaskDefinition) (c : ContainerDefinition) (cs : List ContainerDefinition)
    (a : Addr) (R T v1 v2 : String)
    (hc : t.ContainerDefinitions = c :: cs) (hp : c.Image = some a)
    (himg : w.heap.cell a = R ++ ":" ++ T) (hR : R ≠ "")
    (hws : ∀ ch ∈ (R ++ ":" ++ T).toList, isSpace ch = false) (hT : ':' ∉ T.toList)
    (hv1c : ':' ∉ v1.toList) (hv1s : ∀ ch ∈ v1.toList, isSpace ch = false) :
    ∃ t1 w1 t2 w2 t3 w3, u.UpdateTaskDefinitionImage t v1 w = (.ok t1, w1)
      ∧ u.UpdateTaskDefinitionImage t1 v2 w1 = (.ok t2, w2)
      ∧ u.UpdateTaskDefinitionImage t v2 w = (.ok t3, w3)
      ∧ t2.primaryImage w2.heap = t3.primaryImage w3.heap
      ∧ t3.primaryImage w3.heap = some (R ++ ":" ++ v2) := by
  have hm : FindStringSubmatch reRepoColon (w.heap.cell a) = some [R ++ ":", R] := by
    rw [himg]
    exact FindStringSubmatch_reRepoColon R T hR hws hT
  have hcell : ({ w with heap := w.heap.write a (R ++ ":" ++ v1) } : World).heap.cell a
      = R ++ ":" ++ v1 := by
    simp [Heap.write]
  have hm1 : FindStringSubmatch reRepoColon
      (({ w with heap := w.heap.write a (R ++ ":" ++ v1) } : World).heap.cell a)
      = some [R ++ ":", R] := by
    rw [hcell]
    exact FindStringSubmatch_reRepoColon R v1 hR (no_space_repo_colon_version R T v1 hws hv1s)
      hv1c
  refine ⟨t, _, t, _, t, _, UpdateTaskDefinitionImage_ok u w t c cs a v1 R _ hc hp hm rfl,
    UpdateTaskDefinitionImage_ok u _ t c cs a v2 R _ hc hp hm1 rfl,
    UpdateTaskDefinitionImage_ok u w t c cs a v2 R _ hc hp hm rfl, ?_, ?_⟩
  · simp only [TaskDefinition.primaryImage, hc, hp]
    rw [Heap.read_write_same, Heap.read_write_same]
  · simp only [TaskDefinition.primaryImage, hc, hp]
    exact Heap.read_write_same _ _ _

/-- Instance of the amended C27: `acct.example/app:v1` is rewritten to `v2`, and
`v2` is what `GetLastDeployedCommit` then reports. -/
theorem deployed_version_is_reported_witness :
    (worldOf ["acct.example/app:v1"]).heap.cell 0 = "acct.example/app" ++ ":" ++ "v1"
    ∧ (UFO.GetLastDeployedCommit
        (testUFO (mockedECS (.error (GoError.sdk "unused")) (.error (GoError.sdk "unused"))
          (.ok { TaskDefinition := taskDefinitionOf [containerWithImage (some 0)] none })))
        "taskdef"
        (UFO.UpdateTaskDefinitionImage
          (testUFO (mockedECS (.error (GoError.sdk "unused")) (.error (GoError.sdk "unused"))
            (.ok { TaskDefinition := taskDefinitionOf [containerWithImage (some 0)] none })))
          (taskDefinitionOf [containerWithImage (some 0)] none) "v2"
          (worldOf ["acct.example/app:v1"])).2).1 = .ok ("v2", none)
    ∧ ∃ t1 w1, UFO.UpdateTaskDefinitionImage
          (testUFO (mockedECS (.error (GoError.sdk "unused")) (.error (GoError.sdk "unused"))
            (.ok { TaskDefinition := taskDefinitionOf [containerWithImage (some 0)] none })))
          (taskDefinitionOf [containerWithImage (some 0)] none) "v2"
          (worldOf ["acct.example/app:v1"]) = (.ok t1, w1)
      ∧ t1.primaryImage w1.heap = some ("acct.example/app" ++ ":" ++ "v2")
      ∧ ∀ out, (testUFO (mockedECS (.error (GoError.sdk "unused"))
            (.error (GoError.sdk "unused"))
            (.ok { TaskDefinition := taskDefinitionOf [containerWithImage (some 0)] none }))
          ).ECS.DescribeTaskDefinition w1.trace { TaskDefinition := some "taskdef" } = .ok out →
          out.TaskDefinition = t1 →
          (UFO.GetLastDeployedCommit
            (testUFO (mockedECS (.error (GoError.sdk "unused")) (.error (GoError.sdk "unused"))
              (.ok { TaskDefinition := taskDefinitionOf [containerWithImage (some 0)] none })))
            "taskdef" w1).1 = .ok ("v2", none) :=
  ⟨by decide, by decide,
    deployed_version_is_reported
      (testUFO (mockedECS (.error (GoError.sdk "unused")) (.error (GoError.sdk "unused"))
        (.ok { TaskDefinition := taskDefinitionOf [containerWithImage (some 0)] none })))
      (worldOf ["acct.example/app:v1"]) (taskDefinitionOf [containerWithImage (some 0)] none)
      (containerWithImage (some 0)) [] 0 "acct.example/app" "v1" "v2" "taskdef" rfl rfl
      (by decide) (by decide) (by decide) (by decide) (by decide) (by decide) (by decide)⟩

/-- Instance of C28: `acct.example/app:v1` rewritten to `v2` and then to `v3`, and
rewritten to `v3` directly. -/
theorem updateTaskDefinitionImage_last_write_wins_witness :
    (worldOf ["acct.example/app:v1"]).heap.cell 0 = "acct.example/app" ++ ":" ++ "v1"
    ∧ ∃ t1 w1 t2 w2 t3 w3, UFO.UpdateTaskDefinitionImage (testUFO failingECS)
          (taskDefinitionOf [containerWithImage (some 0)] none) "v2"
          (worldOf ["acct.example/app:v1"]) = (.ok t1, w1)
      ∧ UFO.UpdateTaskDefinitionImage (testUFO failingECS) t1 "v3" w1 = (.ok t2, w2)
      ∧ UFO.UpdateTaskDefinitionImage (testUFO failingECS)
          (taskDefinitionOf [containerWithImage (some 0)] none) "v3"
          (worldOf ["acct.example/app:v1"]) = (.ok t3, w3)
      ∧ t2.primaryImage w2.heap = t3.primaryImage w3.heap
      ∧ t3.primaryImage w3.heap = some ("acct.example/app" ++ ":" ++ "v3") :=
  ⟨by decide,
    updateTaskDefinitionImage_last_write_wins (testUFO failingECS)
      (worldOf ["acct.example/app:v1"]) (taskDefinitionOf [containerWithImage (some 0)] none)
      (containerWithImage (some 0)) [] 0 "acct.example/app" "v1" "v2" "v3" rfl rfl
      (by decide) (by decide) (by decide) (by decide) (by decide) (by decide)⟩

/-! ## `longNameAndValue` and `printEnvTable` -/

theorem len_append (a b : String) : len (a ++ b) = len a + len b := by
  cases a with
  | mk x =>
    cases b with
    | mk y =>
      show ((String.utf8ByteSize (String.mk x ++ String.mk y) : Nat) : Int)
        = ((String.utf8ByteSize (String.mk x) : Nat) : Int) + ((String.utf8ByteSize (String.mk y) : Nat) : Int)
      have : String.mk x ++ String.mk y = String.mk (x ++ y) := rfl
      rw [this]
      simp

theorem len_nonneg (a : String) : 0 ≤ len a := by
  unfold len
  exact Int.ofNat_nonneg _

theorem len_repeatString (s : String) (n : Nat) : len (repeatString s n) = n * len s := by
  induction n with
  | zero =>
    simp only [repeatString, len, Nat.cast_zero, zero_mul]
    rfl
  | succ n ih =>
    rw [repeatString, len_append, ih]
    push_cast
    ring

theorem maxLen_nonneg (strs : List String) : 0 ≤ maxLen strs := by
  induction strs with
  | nil => simp [maxLen]
  | cons s rest ih =>
    simp only [maxLen, List.foldr_cons] at ih ⊢
    exact le_max_of_le_right ih

theorem le_maxLen (strs : List String) (s : String) (hs : s ∈ strs) : len s ≤ maxLen strs := by
  induction strs with
  | nil => simp at hs
  | cons x rest ih =>
    simp only [maxLen, List.foldr_cons] at ih ⊢
    rcases List.mem_cons.mp hs with h | h
    · rw [h]; exact le_max_left _ _
    · exact le_max_of_le_right (ih h)

theorem maxLen_attained (strs : List String) (hne : strs ≠ []) :
    ∃ s ∈ strs, len s = maxLen strs := by
  induction strs with
  | nil => exact absurd rfl hne
  | cons x rest ih =>
    by_cases hrest : rest = []
    · subst hrest
      refine ⟨x, List.mem_cons_self _ _, ?_⟩
      simp only [maxLen, List.foldr_cons, List.foldr_nil]
      exact (max_eq_left (len_nonneg x)).symm
    · obtain ⟨s, hs, hlen⟩ := ih hrest
      simp only [maxLen, List.foldr_cons] at hlen ⊢
      rcases le_total (len x) (List.foldr (fun s m => max (len s) m) 0 rest) with h | h
      · exact ⟨s, List.mem_cons_of_mem _ hs, by rw [max_eq_right h]; exact hlen⟩
      · exact ⟨x, List.mem_cons_self _ _, by rw [max_eq_left h]⟩

theorem longNameAndValueLoop_ok (w : World) (e : List KeyValuePair) (longName longVal : Int)
    (hall : ∀ kv ∈ e, kv.Name ≠ none ∧ kv.Value ≠ none)
    (h1 : 0 ≤ longName) (h2 : 0 ≤ longVal) :
    longNameAndValueLoop longName longVal e w
      = (.ok (max longName (maxLen (envNames w.heap e)),
          max longVal (maxLen (envValues w.heap e))), w) := by
  induction e generalizing longName longVal with
  | nil =>
    simp [longNameAndValueLoop, pure, Run.pure, envNames, envValues, maxLen, h1, h2]
  | cons kv rest ih =>
    obtain ⟨hn, hv⟩ := hall kv (List.mem_cons_self _ _)
    obtain ⟨n, hn1⟩ := Option.ne_none_iff_exists'.mp hn
    obtain ⟨v, hv1⟩ := Option.ne_none_iff_exists'.mp hv
    have hrest := fun (a b : Int) (ha : 0 ≤ a) (hb : 0 ≤ b) =>
      ih a b (fun x hx => hall x (List.mem_cons_of_mem _ hx)) ha hb
    have e1 : (if len (w.heap.cell n) > longName then len (w.heap.cell n) else longName)
        = max longName (len (w.heap.cell n)) := by
      rcases le_or_lt (len (w.heap.cell n)) longName with h | h
      · rw [if_neg (not_lt.mpr h), max_eq_left h]
      · rw [if_pos h, max_eq_right (le_of_lt h)]
    have e2 : (if len (w.heap.cell v) > longVal then len (w.heap.cell v) else longVal)
        = max longVal (len (w.heap.cell v)) := by
      rcases le_or_lt (len (w.heap.cell v)) longVal with h | h
      · rw [if_neg (not_lt.mpr h), max_eq_left h]
      · rw [if_pos h, max_eq_right (le_of_lt h)]
    simp only [longNameAndValueLoop, bind, Run.bind, readStr, hn1, hv1, e1, e2]
    rw [hrest _ _ (le_max_of_le_left h1) (le_max_of_le_left h2)]
    simp only [envNames, envValues, List.map_cons, Heap.read, hn1, hv1, Option.map_some',
      Option.getD_some, maxLen, List.foldr_cons, max_assoc]

theorem longNameAndValue_ok (w : World) (e : List KeyValuePair)
    (hall : ∀ kv ∈ e, kv.Name ≠ none ∧ kv.Value ≠ none) :
    longNameAndValue e w
      = (.ok (maxLen (envNames w.heap e), maxLen (envValues w.heap e)), w) := by
  unfold longNameAndValue
  rw [longNameAndValueLoop_ok w e 0 0 hall (le_refl _) (le_refl _),
    max_eq_right (maxLen_nonneg _), max_eq_right (maxLen_nonneg _)]

theorem stringsRepeat_ok (s : String) (count : Int) (h : 0 ≤ count) :
    stringsRepeat s count = .ok (repeatString s count.toNat) := by
  simp [stringsRepeat, not_lt.mpr h]

theorem len_repeat_one (s : String) (count : Int) (h : 0 ≤ count) (hs : len s = 1) :
    len (repeatString s count.toNat) = count := by
  rw [len_repeatString, hs, mul_one]
  exact Int.toNat_of_nonneg h

theorem lineOfWidth_row (longestName longestValue : Int) (name val : String)
    (h1 : len name ≤ longestName) (h2 : len val ≤ longestValue) :
    LineOfWidth (longestName + longestValue + 7)
      ("| " ++ name ++ repeatString " " (longestName - len name).toNat ++ " | " ++ val
        ++ repeatString " " (longestValue - len val).toNat ++ " |\n") := by
  refine ⟨"| " ++ name ++ repeatString " " (longestName - len name).toNat ++ " | " ++ val
    ++ repeatString " " (longestValue - len val).toNat ++ " |", ?_, ?_⟩
  · have : (" |\n" : String) = " |" ++ "\n" := by decide
    rw [this, ← String.append_assoc]
  · have e1 : len "| " = 2 := by decide
    have e2 : len " | " = 3 := by decide
    have e3 : len " |" = 2 := by decide
    have e4 : len " " = 1 := by decide
    rw [len_append, len_append, len_append, len_append, len_append, len_append, e1, e2, e3,
      len_repeat_one " " _ (sub_nonneg.mpr h1) e4, len_repeat_one " " _ (sub_nonneg.mpr h2) e4]
    ring

theorem lineOfWidth_border (longestName longestValue : Int) (nameDashes valueDashes : String)
    (h1 : len nameDashes = longestName + 2) (h2 : len valueDashes = longestValue + 2) :
    LineOfWidth (longestName + longestValue + 7)
      ("+" ++ nameDashes ++ "+" ++ valueDashes ++ "+\n") := by
  refine ⟨"+" ++ nameDashes ++ "+" ++ valueDashes ++ "+", ?_, ?_⟩
  · have : ("+\n" : String) = "+" ++ "\n" := by decide
    rw [this, ← String.append_assoc]
  · have e1 : len "+" = 1 := by decide
    rw [len_append, len_append, len_append, len_append, e1, h1, h2]
    ring

theorem printRows_ok (w : World) (e : List KeyValuePair) (longestName longestValue : Int)
    (nameDashes valueDashes : String)
    (hall : ∀ kv ∈ e, kv.Name ≠ none ∧ kv.Value ≠ none)
    (hln : ∀ s ∈ envNames w.heap e, len s ≤ longestName)
    (hlv : ∀ s ∈ envValues w.heap e, len s ≤ longestValue)
    (hnd : len nameDashes = longestName + 2) (hvd : len valueDashes = longestValue + 2) :
    ∃ out, printRows longestName longestValue nameDashes valueDashes e w = (.ok out, w)
      ∧ out.length = 2 * e.length
      ∧ ∀ line ∈ out, LineOfWidth (longestName + longestValue + 7) line := by
  induction e with
  | nil => exact ⟨[], rfl, rfl, by simp⟩
  | cons kv rest ih =>
    obtain ⟨hn, hv⟩ := hall kv (List.mem_cons_self _ _)
    obtain ⟨n, hn1⟩ := Option.ne_none_iff_exists'.mp hn
    obtain ⟨v, hv1⟩ := Option.ne_none_iff_exists'.mp hv
    have hname : len (w.heap.cell n) ≤ longestName :=
      hln _ (by simp [envNames, Heap.read, hn1])
    have hval : len (w.heap.cell v) ≤ longestValue :=
      hlv _ (by simp [envValues, Heap.read, hv1])
    obtain ⟨out, hout, hlen, hlines⟩ := ih (fun x hx => hall x (List.mem_cons_of_mem _ hx))
      (fun s hs => hln s (by
        simp only [envNames, List.map_cons] at hs ⊢
        exact List.mem_cons_of_mem _ hs))
      (fun s hs => hlv s (by
        simp only [envValues, List.map_cons] at hs ⊢
        exact List.mem_cons_of_mem _ hs))
    refine ⟨("| " ++ w.heap.cell n ++ repeatString " " (longestName - len (w.heap.cell n)).toNat
        ++ " | " ++ w.heap.cell v
        ++ repeatString " " (longestValue - len (w.heap.cell v)).toNat ++ " |\n")
      :: ("+" ++ nameDashes ++ "+" ++ valueDashes ++ "+\n") :: out, ?_, ?_, ?_⟩
    · simp only [printRows, bind, Run.bind, readStr, hn1, hv1, liftExcept,
        stringsRepeat_ok _ _ (sub_nonneg.mpr hname), stringsRepeat_ok _ _ (sub_nonneg.mpr hval),
        hout, pure, Run.pure]
    · simp [hlen]
      omega
    · intro line hline
      rcases List.mem_cons.mp hline with h | h
      · rw [h]
        exact lineOfWidth_row longestName longestValue _ _ hname hval
      · rcases List.mem_cons.mp h with h' | h'
        · rw [h']
          exact lineOfWidth_border longestName longestValue _ _ hnd hvd
        · exact hlines line h'

theorem printContainer_ok (w : World) (c : ContainerDefinition)
    (hall : ∀ kv ∈ c.Environment, kv.Name ≠ none ∧ kv.Value ≠ none) :
    ∃ out, printContainer c w = (.ok out, w)
      ∧ out.length = 2 * c.Environment.length + 1
      ∧ ∀ line ∈ out, LineOfWidth
          (maxLen (envNames w.heap c.Environment) + maxLen (envValues w.heap c.Environment) + 7)
          line := by
  have hdash : len "-" = 1 := by decide
  have hn0 : 0 ≤ maxLen (envNames w.heap c.Environment) + 2 := by
    have := maxLen_nonneg (envNames w.heap c.Environment)
    omega
  have hv0 : 0 ≤ maxLen (envValues w.heap c.Environment) + 2 := by
    have := maxLen_nonneg (envValues w.heap c.Environment)
    omega
  obtain ⟨rows, hrows, hlen, hlines⟩ := printRows_ok w c.Environment
    (maxLen (envNames w.heap c.Environment)) (maxLen (envValues w.heap c.Environment))
    (repeatString "-" (maxLen (envNames w.heap c.Environment) + 2).toNat)
    (repeatString "-" (maxLen (envValues w.heap c.Environment) + 2).toNat)
    hall (fun s hs => le_maxLen _ s hs) (fun s hs => le_maxLen _ s hs)
    (len_repeat_one "-" _ hn0 hdash) (len_repeat_one "-" _ hv0 hdash)
  refine ⟨("+" ++ repeatString "-" (maxLen (envNames w.heap c.Environment) + 2).toNat ++ "+"
      ++ repeatString "-" (maxLen (envValues w.heap c.Environment) + 2).toNat ++ "+\n") :: rows,
    ?_, ?_, ?_⟩
  · simp only [printContainer, bind, Run.bind, longNameAndValue_ok w c.Environment hall,
      liftExcept, stringsRepeat_ok _ _ hn0, stringsRepeat_ok _ _ hv0, hrows, pure, Run.pure]
  · simp [hlen]
  · intro line hline
    rcases List.mem_cons.mp hline with h | h
    · rw [h]
      exact lineOfWidth_border _ _ _ _ (len_repeat_one "-" _ hn0 hdash)
        (len_repeat_one "-" _ hv0 hdash)
    · exact hlines line h

theorem printContainers_ok (w : World) (cds : List ContainerDefinition)
    (hall : ∀ c ∈ cds, ∀ kv ∈ c.Environment, kv.Name ≠ none ∧ kv.Value ≠ none) :
    ∃ blocks : List (List String), printContainers cds w = (.ok blocks.flatten, w)
      ∧ List.Forall₂ (fun c block => printContainer c w = (.ok block, w)) cds blocks := by
  induction cds with
  | nil => exact ⟨[], rfl, List.Forall₂.nil⟩
  | cons c rest ih =>
    obtain ⟨out, hout, _, _⟩ := printContainer_ok w c (hall c (List.mem_cons_self _ _))
    obtain ⟨blocks, hblocks, hall2⟩ := ih (fun x hx => hall x (List.mem_cons_of_mem _ hx))
    refine ⟨out :: blocks, ?_, List.Forall₂.cons hout hall2⟩
    simp only [printContainers, bind, Run.bind, hout, hblocks, pure, Run.pure,
      List.flatten_cons]

/-- C29: for every environment list in which each pair has a name and a value,
`longNameAndValue` returns the maximum byte length of the names and the maximum
byte length of the values (0 and 0 for the empty list).  `printEnvTable` then
does not panic, so no count handed to `strings.Repeat` is negative, and every
line it prints for a container, border or row, has the byte length
`longestName + longestValue + 7` before its newline; a container with `n` pairs
gets `2 * n + 1` lines, and the lines of the containers follow each other in
order. -/
theorem printEnvTable_lines (w : World) :
    (∀ e : List KeyValuePair, (∀ kv ∈ e, kv.Name ≠ none ∧ kv.Value ≠ none) →
      longNameAndValue e w
        = (.ok (maxLen (envNames w.heap e), maxLen (envValues w.heap e)), w))
    ∧ maxLen [] = 0
    ∧ (∀ (strs : List String) (s : String), s ∈ strs → len s ≤ maxLen strs)
    ∧ (∀ strs : List String, strs ≠ [] → ∃ s ∈ strs, len s = maxLen strs)
    ∧ (∀ c : ContainerDefinition,
      (∀ kv ∈ c.Environment, kv.Name ≠ none ∧ kv.Value ≠ none) →
      ∃ out, printContainer c w = (.ok out, w)
        ∧ out.length = 2 * c.Environment.length + 1
        ∧ ∀ line ∈ out, LineOfWidth
            (maxLen (envNames w.heap c.Environment)
              + maxLen (envValues w.heap c.Environment) + 7) line)
    ∧ (∀ t : TaskDefinition,
      (∀ c ∈ t.ContainerDefinitions, ∀ kv ∈ c.Environment,
        kv.Name ≠ none ∧ kv.Value ≠ none) →
      ∃ blocks : List (List String), printEnvTable t w = (.ok blocks.flatten, w)
        ∧ List.Forall₂ (fun c block => printContainer c w = (.ok block, w))
            t.ContainerDefinitions blocks) :=
  ⟨fun e hall => longNameAndValue_ok w e hall, rfl, fun strs s hs => le_maxLen strs s hs,
    fun strs hne => maxLen_attained strs hne, fun c hall => printContainer_ok w c hall,
    fun t hall => printContainers_ok w t.ContainerDefinitions hall⟩

/-- Instance of C29: a container with the pairs `A=valueA` and `LONGER=b`.  The
longest name has 6 bytes and the longest value 6, and each of the five lines
has 19 bytes before its newline. -/
theorem printEnvTable_lines_witness :
    longNameAndValue envContainer.Environment (worldOf envCells)
        = (.ok (maxLen (envNames (worldOf envCells).heap envContainer.Environment),
            maxLen (envValues (worldOf envCells).heap envContainer.Environment)),
          worldOf envCells)
    ∧ maxLen (envNames (worldOf envCells).heap envContainer.Environment) = 6
    ∧ maxLen (envValues (worldOf envCells).heap envContainer.Environment) = 6
    ∧ (∃ out, printContainer envContainer (worldOf envCells) = (.ok out, worldOf envCells)
        ∧ out.length = 2 * envContainer.Environment.length + 1
        ∧ ∀ line ∈ out, LineOfWidth
            (maxLen (envNames (worldOf envCells).heap envContainer.Environment)
              + maxLen (envValues (worldOf envCells).heap envContainer.Environment) + 7) line)
    ∧ (printEnvTable (taskDefinitionOf [envContainer] none) (worldOf envCells)).1
        = .ok ["+--------+--------+\n", "| A      | valueA |\n", "+--------+--------+\n",
            "| LONGER | b      |\n", "+--------+--------+\n"] :=
  ⟨(printEnvTable_lines (worldOf envCells)).1 envContainer.Environment (by decide),
    by decide, by decide,
    (printEnvTable_lines (worldOf envCells)).2.2.2.2.1 envContainer (by decide),
    by decide⟩

/-! ## `describeImages` and `filterImages` of `backend/ecr.go` -/

/-- When every image has a first tag, `filterImages` returns these first tags in
order. -/
theorem filterImagesLoop_first_tags (w : World) (versions : List String)
    (images : List ImageDetail) (tags : List String)
    (h : List.Forall₂ (fun image tag => ∃ more, image.ImageTags = some (some tag :: more))
      images tags) :
    filterImagesLoop versions images w = (.ok (versions ++ tags), w) := by
  induction h generalizing versions with
  | nil => simp [filterImagesLoop, pure, Run.pure]
  | cons hhead _ ih =>
    obtain ⟨more, hmore⟩ := hhead
    simp [filterImagesLoop, bind, Run.bind, hmore, index, Run.pure, deref, ih]

/-- C30, evaluated where it fails: the `DescribeImages` response holds an image
tagged `v1` and an image whose `ImageTags` is an empty slice that is not `nil`.
`describeImages` keeps both, and `filterImages` applied to what it keeps panics
with an index out of range. -/
theorem filterImages_panics_on_empty_tags :
    (describeImages (fun _ _ => Run.pure imagesTaskDefinition)
        (mockedDescribeImages (.ok emptyTagsImages)) (fun _ => Run.pure ())
        "cluster" "service" (worldOf imagesCells)).1 = .ok emptyTagsImages.ImageDetails
    ∧ (filterImages emptyTagsImages.ImageDetails (worldOf imagesCells)).1
        = .error Panic.indexOutOfRange := by
  decide

end Ufo
